import Mathlib

/-!
# Verification of the ELD trip-planning and log-generation engine

A shallow embedding, in Lean 4, of the core of the `eld_api` repository:

* `eld_modules/route_calculator.py` — position interpolation along a route;
* `trip/views.py` — input validation of the trip endpoint;
* `eld_modules/eld_log_generator.py` — the per-day ELD log assembler;
* `eld_modules/stop_generator.py` — the HOS-aware stop planner.

Python floats are modelled as exact rationals (`ℚ`), machine integers as `ℤ`,
timestamps as rational hours since an epoch midnight.  External collaborators
(the geocoder, the RNG) are passed in as parameters: the geocoder as a pure
function, the RNG as a stream of integers that the embedding consumes.
-/

namespace Eld

/-- Python's built-in `round`: round half to even. -/
def pyRound (q : ℚ) : ℤ :=
  let f := Int.floor q
  let r := q - f
  if r < 1/2 then f
  else if 1/2 < r then f + 1
  else if f % 2 = 0 then f else f + 1

/-- Python `"%.1f"`-style formatting: one decimal digit, round half to even.
Only ever applied to nonnegative totals in this development. -/
def fmt1 (q : ℚ) : String :=
  let n := pyRound (q * 10)
  if n < 0 then "-" ++ toString ((-n) / 10) ++ "." ++ toString ((-n) % 10)
  else toString (n / 10) ++ "." ++ toString (n % 10)

/-- The calendar day index of a timestamp (rational hours since an epoch midnight). -/
def dayOf (t : ℚ) : ℤ := Int.floor (t / 24)

/-- The fractional hour-of-day of a timestamp, in `[0, 24)`. -/
def hourOfDay (t : ℚ) : ℚ := t - 24 * (Int.floor (t / 24) : ℚ)

/-- `ts.hour + ts.minute / 60` exactly as the source computes it:
the sub-minute part of the timestamp is truncated away. -/
def hmOf (t : ℚ) : ℚ := (Int.floor (hourOfDay t * 60) : ℚ) / 60

/-- The `ts.hour` attribute of a timestamp. -/
def hourAttr (t : ℚ) : ℤ := Int.floor (hourOfDay t)

/-- `ts.replace(hour=H, minute=M, second=0)`.  Sub-minute parts of `t` are
dropped (they are zero at every call site reached from the planner's inputs). -/
def replaceHM (t : ℚ) (H M : ℤ) : ℚ := 24 * (dayOf t : ℚ) + (H : ℚ) + (M : ℚ) / 60

/-! ## Route calculator (`eld_modules/route_calculator.py`)

Only the part the planner consumes is embedded: the combined-route record and
`interpolate_position`.  Fetching and combining are network code. -/

/-- The combined route record handed to the planner. -/
structure CombinedRoute where
  distance : ℚ
  duration : ℚ
  coordinates : List (List ℚ)
deriving DecidableEq, Repr

/-- `interpolate_position(route, percentage)` (lines 195–217). -/
def interpolate_position (route : CombinedRoute) (percentage : ℚ) : List ℚ :=
  if route.coordinates.isEmpty then [0, 0]
  else
    let p := max 0 (min 1 percentage)
    let index : ℤ := Int.floor (p * route.coordinates.length)
    let index := min index ((route.coordinates.length : ℤ) - 1)
    let index := max 0 index
    route.coordinates.getD index.toNat []

/-! ## Trip endpoint validation (`trip/views.py`, `TripELDView.post`)

The view extracts three `{lat, lng}` dictionaries from the request body and
rejects the request when `not location["lat"] or not location["lng"]` for any
of them.  Python truthiness makes both `None` and `0.0` falsy. -/

/-- A location dictionary as built by the view: values may be absent (`None`). -/
structure PyLocation where
  lat : Option ℚ
  lng : Option ℚ
deriving DecidableEq, Repr

/-- Python `not x` on an optional float: `None` and `0.0` are falsy. -/
def pyFalsy : Option ℚ → Bool
  | none => true
  | some x => x == 0

/-- The coordinates object of one trip location in the request body. -/
structure TripCoordinates where
  latitude : Option ℚ
  longitude : Option ℚ
deriving DecidableEq, Repr

/-- The parsed `trip` object of the request body. -/
structure TripData where
  currentLocation : TripCoordinates
  pickupLocation : TripCoordinates
  dropoffLocation : TripCoordinates
  currentCycleUsed : ℚ
deriving DecidableEq, Repr

/-- The three location dictionaries the view builds (lines 26–39). -/
def tripLocations (trip : TripData) : List PyLocation :=
  [⟨trip.currentLocation.latitude, trip.currentLocation.longitude⟩,
   ⟨trip.pickupLocation.latitude, trip.pickupLocation.longitude⟩,
   ⟨trip.dropoffLocation.latitude, trip.dropoffLocation.longitude⟩]

/-- The validation loop of `TripELDView.post` (lines 42–47). -/
def coordinatesInvalid (locations : List PyLocation) : Bool :=
  locations.any fun l => pyFalsy l.lat || pyFalsy l.lng

/-- The view's outcome: a 400 response with an error body, or the pipeline result. -/
inductive TripResponse (α : Type) where
  | badRequest (error : String)
  | ok (data : α)
deriving DecidableEq, Repr

/-- `TripELDView.post`, with the downstream pipeline (route calculation, stop
generation, ELD assembly) abstracted as a function of the locations and the
cycle-used value. -/
def tripPost {α : Type} (pipeline : List PyLocation → ℚ → α) (trip : TripData) :
    TripResponse α :=
  let locations := tripLocations trip
  if coordinatesInvalid locations then
    TripResponse.badRequest "Missing or invalid coordinates in trip data"
  else
    TripResponse.ok (pipeline locations trip.currentCycleUsed)

/-! ## Data model shared by the planner and the log generator -/

/-- A stop record as produced by the stop planner and consumed by the log
generator.  `estimatedArrival` is the parsed ISO timestamp, modelled as
rational hours since the epoch midnight.  `posMi` is ghost instrumentation:
the planner's mile position when the stop was emitted.  It is not a field of
the source record and no source logic reads it; it only serves to state
mileage properties of the planner's output. -/
structure Stop where
  type : String
  name : String
  coordinates : List ℚ
  duration : String
  estimatedArrival : ℚ
  posMi : ℚ := 0
deriving DecidableEq, Repr

/-- A duty-status record `{hour, status}`. -/
structure DutyStatus where
  hour : ℚ
  status : String
deriving DecidableEq, Repr

/-- A remark record `{time, location}`. -/
structure Remark where
  time : ℚ
  location : String
deriving DecidableEq, Repr

/-- An HOS violation record `{type, description}` (`vtype` models the `type` key). -/
structure Violation where
  vtype : String
  description : String
deriving DecidableEq, Repr

/-- A detailed log entry.  `date` is the calendar day index of the sheet. -/
structure ELDLogEntry where
  date : ℤ
  startTime : ℚ
  endTime : ℚ
  status : String
  location : String
  miles : ℤ
deriving DecidableEq, Repr

/-- A daily log sheet.  The source builds a dict; the keys added after
creation (license plate and the other presentation fields) are modelled as
fields initialised to `""`.  `graphData` is flattened into the `hourData` and
`remarks` fields; `generalRemarks` models the later-added `"remarks"` key. -/
structure DailyLogSheet where
  date : ℤ
  driverName : String
  driverID : String
  truckNumber : String
  trailerNumber : String
  carrier : String
  homeTerminal : String
  shippingDocNumber : String
  startOdometer : ℤ
  endOdometer : ℤ
  startLocation : String
  endLocation : String
  startTime : ℚ
  endTime : ℚ
  totalMiles : ℤ
  totalHours : ℚ
  logs : List ELDLogEntry
  certificationTime : String
  certificationStatus : String
  hourData : List DutyStatus
  remarks : List Remark
  violations : List Violation
  licensePlate : String
  shipperCommodity : String
  generalRemarks : String
  officeAddress : String
  homeAddress : String
  totalMilesDrivingToday : String
  totalMileageToday : String
deriving DecidableEq, Repr

/-- `random.randint(lo, hi)`: the process RNG is modelled as a stream of
integers supplied from outside; one value is consumed and folded into
`[lo, hi]`. -/
def randint (lo hi : ℤ) : List ℤ → ℤ × List ℤ
  | [] => (lo, [])
  | x :: rest => (lo + x.emod (hi - lo + 1), rest)

/-- `random.choice(xs)` on a list of strings, drawing its index from the
RNG stream. -/
def randchoice (xs : List String) : List ℤ → String × List ℤ
  | [] => (xs.getD 0 "", [])
  | x :: rest => (xs.getD (x.emod xs.length).toNat "", rest)

/-! ## Log generator (`eld_modules/eld_log_generator.py`) -/

/-- HOS constants (lines 22–30). -/
def MAX_DRIVING_HOURS : ℚ := 11

def MAX_ON_DUTY_HOURS : ℚ := 14

def PRE_TRIP_START_HOUR : ℚ := 13/2

def DRIVING_START_HOUR : ℚ := 7

def DRIVING_END_HOUR : ℚ := 35/2

def SLEEPER_START_HOUR : ℚ := 19

def SLEEPER_END_HOUR : ℚ := 13/2

/-- `create_daily_log_sheet` (lines 330–365), consuming four RNG draws. -/
def create_daily_log_sheet (date : ℤ) (rng : List ℤ) : DailyLogSheet × List ℤ :=
  let (driverNum, rng) := randint 10000000 99999999 rng
  let (truckNum, rng) := randint 100 999 rng
  let (trailerNum, rng) := randint 100 999 rng
  let (bolNum, rng) := randint 100000 999999 rng
  ({ date := date
     driverName := "John Doe"
     driverID := "DL" ++ toString driverNum
     truckNumber := "Truck-" ++ toString truckNum
     trailerNumber := "Trailer-" ++ toString trailerNum
     carrier := "Sample Carrier Inc."
     homeTerminal := "Dallas Terminal"
     shippingDocNumber := "BOL-" ++ toString bolNum
     startOdometer := 0
     endOdometer := 0
     startLocation := ""
     endLocation := ""
     startTime := 0
     endTime := 0
     totalMiles := 0
     totalHours := 0
     logs := []
     certificationTime := ""
     certificationStatus := "Uncertified"
     hourData := []
     remarks := []
     violations := []
     licensePlate := ""
     shipperCommodity := ""
     generalRemarks := ""
     officeAddress := ""
     homeAddress := ""
     totalMilesDrivingToday := ""
     totalMileageToday := "" }, rng)

/-- `add_duty_status` (lines 367–387): a write within 0.001 h of an existing
entry overwrites that entry's status in place; otherwise a new record is
appended at the end. -/
def add_duty_status (statuses : List DutyStatus) (hour : ℚ) (status : String) :
    List DutyStatus :=
  match statuses with
  | [] => [⟨hour, status⟩]
  | e :: rest =>
    if |e.hour - hour| < 1/1000 then ⟨e.hour, status⟩ :: rest
    else e :: add_duty_status rest hour status

/-- `add_remark` (lines 389–409): same overwrite-within-tolerance semantics. -/
def add_remark (remarks : List Remark) (hour : ℚ) (location : String) :
    List Remark :=
  match remarks with
  | [] => [⟨hour, location⟩]
  | e :: rest =>
    if |e.time - hour| < 1/1000 then ⟨e.time, location⟩ :: rest
    else e :: add_remark rest hour location

/-- One step of the stop-seeding loop (lines 101–124). -/
def seedStop (acc : List DutyStatus × List Remark) (stop : Stop) :
    List DutyStatus × List Remark :=
  let (duty, rem) := acc
  let stopHour := hmOf stop.estimatedArrival
  if stop.type = "overnight" then
    (add_duty_status duty stopHour "sleeper-berth", add_remark rem stopHour stop.name)
  else if stop.type = "off-duty" then
    (add_duty_status duty stopHour "off-duty", add_remark rem stopHour stop.name)
  else if stop.type = "rest" then
    (add_duty_status duty stopHour "off-duty", add_remark rem stopHour stop.name)
  else if stop.type = "pretrip" then
    (add_duty_status duty stopHour "on-duty", add_remark rem stopHour stop.name)
  else if stop.type = "pickup" ∨ stop.type = "dropoff" ∨ stop.type = "waypoint" ∨
      stop.type = "fuel" then
    (add_duty_status duty stopHour "on-duty", add_remark rem stopHour stop.name)
  else if stop.type = "start" then
    (add_duty_status duty stopHour "off-duty", add_remark rem stopHour stop.name)
  else
    (duty, rem)

/-- Early-morning coverage (lines 126–149). -/
def ensureEarlyMorning (isFirstDay : Bool) (duty : List DutyStatus)
    (rem : List Remark) : List DutyStatus × List Remark :=
  let earlyMorning := duty.filter fun s => decide (0 ≤ s.hour ∧ s.hour < SLEEPER_END_HOUR)
  if earlyMorning.isEmpty then
    if isFirstDay then (add_duty_status duty 0 "off-duty", add_remark rem 0 "")
    else (add_duty_status duty 0 "sleeper-berth", add_remark rem 0 "")
  else
    if duty.any (fun s => decide (|s.hour| < 1/100)) then (duty, rem)
    else
      if isFirstDay then (add_duty_status duty 0 "off-duty", add_remark rem 0 "")
      else (add_duty_status duty 0 "sleeper-berth", add_remark rem 0 "")

/-- The 6:30 rest-end transition (lines 151–154). -/
def ensureRestEnd (duty : List DutyStatus) (rem : List Remark) :
    List DutyStatus × List Remark :=
  if duty.any (fun s => decide (|s.hour - SLEEPER_END_HOUR| < 1/100)) then (duty, rem)
  else (add_duty_status duty SLEEPER_END_HOUR "on-duty",
        add_remark rem SLEEPER_END_HOUR "End of Rest Period")

/-- The standard morning pattern (lines 156–184). -/
def morningPattern (isFirstDay : Bool) (firstStopHour : ℚ) (duty : List DutyStatus)
    (rem : List Remark) : List DutyStatus × List Remark :=
  if isFirstDay then
    if firstStopHour ≤ PRE_TRIP_START_HOUR then
      let duty := add_duty_status duty PRE_TRIP_START_HOUR "on-duty"
      let rem := add_remark rem PRE_TRIP_START_HOUR "Pre-trip Inspection"
      let duty := add_duty_status duty DRIVING_START_HOUR "driving"
      let rem := add_remark rem DRIVING_START_HOUR "Start Driving"
      (duty, rem)
    else
      let duty := add_duty_status duty firstStopHour "on-duty"
      let rem := add_remark rem firstStopHour "Pre-trip Inspection"
      let drivingStart := min (firstStopHour + 1/2) (239/10)
      let duty := add_duty_status duty drivingStart "driving"
      let rem := add_remark rem drivingStart "Start Driving"
      (duty, rem)
  else
    let duty := add_duty_status duty PRE_TRIP_START_HOUR "on-duty"
    let rem := add_remark rem PRE_TRIP_START_HOUR "Pre-trip Inspection"
    let duty := add_duty_status duty DRIVING_START_HOUR "driving"
    let rem := add_remark rem DRIVING_START_HOUR "Start Driving"
    (duty, rem)

/-- The state carried by the per-stop loop of lines 186–251. -/
structure DayLoopState where
  duty : List DutyStatus
  rem : List Remark
  currentStatus : String
  odometer : ℤ
  position : ℚ
  drivingHours : ℚ
  onDutyHours : ℚ
deriving DecidableEq, Repr

/-- The status/remark mapping of lines 193–216: the next duty status for a
stop type, and the remark text to record (`none` for unknown types). -/
def stopStatusRemark (stop : Stop) : String × Option String :=
  if stop.type = "start" then ("on-duty", some "Starting Location")
  else if stop.type = "pretrip" then ("on-duty", some "Pre-trip Inspection")
  else if stop.type = "rest" then ("off-duty", some "30-Minute Break")
  else if stop.type = "fuel" then ("on-duty", some "Fueling")
  else if stop.type = "off-duty" then ("off-duty", some "End of Driving Day")
  else if stop.type = "overnight" then ("sleeper-berth", some "10-Hour Rest")
  else if stop.type = "pickup" ∨ stop.type = "dropoff" ∨ stop.type = "waypoint" then
    ("on-duty", some stop.name)
  else ("on-duty", none)

/-- One iteration of the per-stop loop (lines 186–251); `next` is the
following stop of the same day, if any. -/
def dayLoopStep (st : DayLoopState) (stop : Stop) (next : Option Stop) :
    DayLoopState :=
  let stopHour := hmOf stop.estimatedArrival
  let (nextStatus, remText) := stopStatusRemark stop
  let rem := match remText with
    | some s => add_remark st.rem stopHour s
    | none => st.rem
  let duty := if nextStatus ≠ st.currentStatus then
      add_duty_status st.duty stopHour nextStatus
    else st.duty
  let currentStatus := if nextStatus ≠ st.currentStatus then nextStatus
    else st.currentStatus
  match next with
  | none =>
    { st with duty := duty, rem := rem, currentStatus := currentStatus }
  | some nextStop =>
    if nextStop.type ≠ "off-duty" ∧ nextStop.type ≠ "overnight" ∧
        stop.type ≠ "off-duty" ∧ stop.type ≠ "overnight" then
      let drivingStart := stop.estimatedArrival + 1/2
      let drivingStartHour := hmOf drivingStart
      let timeDiff := nextStop.estimatedArrival - drivingStart
      if timeDiff > 1/4 then
        let duty2 := if currentStatus ≠ "driving" then
            add_duty_status duty drivingStartHour "driving"
          else duty
        let currentStatus2 := if currentStatus ≠ "driving" then "driving"
          else currentStatus
        let milesDriven := timeDiff * 60
        { duty := duty2
          rem := rem
          currentStatus := currentStatus2
          odometer := st.odometer + pyRound milesDriven
          position := st.position + milesDriven
          drivingHours := st.drivingHours + timeDiff
          onDutyHours := st.onDutyHours + timeDiff }
      else
        { st with duty := duty, rem := rem, currentStatus := currentStatus }
    else
      { st with duty := duty, rem := rem, currentStatus := currentStatus }

/-- The per-stop loop over a day's stops. -/
def dayLoop (st : DayLoopState) : List Stop → DayLoopState
  | [] => st
  | [stop] => dayLoopStep st stop none
  | stop :: nextStop :: rest =>
    dayLoop (dayLoopStep st stop (some nextStop)) (nextStop :: rest)

/-- The end-of-day pattern (lines 252–269). -/
def endOfDayPattern (isEarlyCompletion isLastDay : Bool) (duty : List DutyStatus)
    (rem : List Remark) : List DutyStatus × List Remark :=
  if isEarlyCompletion then (duty, rem)
  else
    let duty1 := if duty.any (fun s => decide (|s.hour - DRIVING_END_HOUR| < 1/100)) then duty
      else add_duty_status duty DRIVING_END_HOUR "off-duty"
    let rem1 := if duty.any (fun s => decide (|s.hour - DRIVING_END_HOUR| < 1/100)) then rem
      else add_remark rem DRIVING_END_HOUR "End of Driving Day"
    let duty2 := if duty1.any (fun s => decide (|s.hour - SLEEPER_START_HOUR| < 1/100)) then duty1
      else add_duty_status duty1 SLEEPER_START_HOUR "sleeper-berth"
    let rem2 := if duty1.any (fun s => decide (|s.hour - SLEEPER_START_HOUR| < 1/100)) then rem1
      else add_remark rem1 SLEEPER_START_HOUR "10-Hour Rest"
    if isLastDay then (duty2, rem2)
    else (add_duty_status duty2 (2399/100) "sleeper-berth", add_remark rem2 (2399/100) "")

/-- Python `int(q)`: truncation toward zero. -/
def pyInt (q : ℚ) : ℤ := if 0 ≤ q then Int.floor q else -(Int.floor (-q))

/-- `day_start.replace(hour=int(h), minute=int((h % 1) * 60), second=0)`
(lines 451–455 and 465–469). -/
def entryTimeOf (dayStart : ℚ) (h : ℚ) : ℚ :=
  replaceHM dayStart (pyInt h) (pyInt ((h - Int.floor h) * 60))

/-- The closest-remark search of lines 477–485: the first remark minimising
`|time - hour|`, defaulting to "Unknown Location". -/
def closestRemarkLocation (remarks : List Remark) (h : ℚ) : String :=
  (remarks.foldl
    (fun acc r =>
      match acc.2 with
      | none => (r.location, some |r.time - h|)
      | some d => if |r.time - h| < d then (r.location, some |r.time - h|) else acc)
    ("Unknown Location", (none : Option ℚ))).1

/-- One log entry of the pairwise walk (lines 446–506). -/
def logEntryAt (dayStart dayEnd : ℚ) (dayDate : ℤ) (remarks : List Remark)
    (cur : DutyStatus) (next : Option DutyStatus) : ELDLogEntry :=
  let curT0 := entryTimeOf dayStart cur.hour
  let curT := if hourAttr curT0 < hourAttr dayStart ∧ cur.hour < 12 then curT0 + 24 else curT0
  let nextT := match next with
    | some n =>
      let nt0 := entryTimeOf dayStart n.hour
      if hourAttr nt0 < hourAttr curT ∧ n.hour < 12 then nt0 + 24 else nt0
    | none => dayEnd
  let location := closestRemarkLocation remarks cur.hour
  let miles : ℤ := if cur.status = "driving" then pyRound ((nextT - curT) * 60) else 0
  ⟨dayDate, curT, nextT, cur.status, location, miles⟩

/-- The pairwise walk over the sorted duty statuses. -/
def logEntriesWalk (dayStart dayEnd : ℚ) (dayDate : ℤ) (remarks : List Remark) :
    List DutyStatus → List ELDLogEntry
  | [] => []
  | [c] => [logEntryAt dayStart dayEnd dayDate remarks c none]
  | c :: n :: rest =>
    logEntryAt dayStart dayEnd dayDate remarks c (some n) ::
      logEntriesWalk dayStart dayEnd dayDate remarks (n :: rest)

/-- `generate_log_entries` (lines 411–508).  The `odometer` argument is
accepted and unused, as in the source. -/
def generate_log_entries (duty_statuses : List DutyStatus) (remarks : List Remark)
    (startTime endTime : ℚ) (odometer : ℤ) : List ELDLogEntry :=
  if duty_statuses.isEmpty then []
  else
    let sortedStatuses := List.insertionSort (fun a b => a.hour ≤ b.hour) duty_statuses
    logEntriesWalk startTime endTime (dayOf startTime) remarks sortedStatuses

/-- A placeholder stop; day buckets are never empty, so it is never read. -/
def dummyStop : Stop := ⟨"", "", [], "", 0, 0⟩

/-- What the per-day pass computes for one day: the finished sheet and the
day's two HOS accumulators. -/
structure DayResult where
  sheet : DailyLogSheet
  drivingHours : ℚ
  onDutyHours : ℚ
deriving DecidableEq, Repr

/-- `is_early_completion` (lines 96–98). -/
def isEarlyCompletion (isLastDay : Bool) (dayStops : List Stop) : Bool :=
  isLastDay && decide (hmOf (dayStops.getLastD dummyStop).estimatedArrival < DRIVING_END_HOUR)
    && ((dayStops.getLastD dummyStop).type == "dropoff")

/-- The per-day pass of `generate_eld_logs` (lines 72–314): returns the day's
result, the odometer after the day, and the unconsumed RNG stream. -/
def processDay (geo : List ℚ → String) (isFirstDay isLastDay : Bool) (day : ℤ)
    (dayStops : List Stop) (odometer : ℤ) (rng : List ℤ) :
    DayResult × ℤ × List ℤ :=
  let (sheet0, rng) := create_daily_log_sheet day rng
  let firstStop := dayStops.headD dummyStop
  let lastStop := dayStops.getLastD dummyStop
  let early := isEarlyCompletion isLastDay dayStops
  let (duty, rem) := dayStops.foldl seedStop ([], [])
  let (duty, rem) := ensureEarlyMorning isFirstDay duty rem
  let (duty, rem) := ensureRestEnd duty rem
  let (duty, rem) := morningPattern isFirstDay (hmOf firstStop.estimatedArrival) duty rem
  let st := dayLoop ⟨duty, rem, "driving", odometer, 0, 0, 0⟩ dayStops
  let (duty, rem) := endOfDayPattern early isLastDay st.duty st.rem
  let sortedDuty := List.insertionSort (fun a b => a.hour ≤ b.hour) duty
  let sortedRem := List.insertionSort (fun a b => a.time ≤ b.time) rem
  let violations :=
    (if st.drivingHours > MAX_DRIVING_HOURS then
      [(⟨"driving-limit",
         "Exceeded 11-hour driving limit (" ++ fmt1 st.drivingHours ++ " hours)"⟩ : Violation)]
     else []) ++
    (if st.onDutyHours > MAX_ON_DUTY_HOURS then
      [(⟨"on-duty-limit",
         "Exceeded 14-hour on-duty limit (" ++ fmt1 st.onDutyHours ++ " hours)"⟩ : Violation)]
     else [])
  let sheet :=
    { sheet0 with
        startTime := firstStop.estimatedArrival
        startLocation := geo firstStop.coordinates
        startOdometer := odometer
        endTime := lastStop.estimatedArrival
        endLocation := geo lastStop.coordinates
        endOdometer := st.odometer
        totalMiles := pyRound st.position
        hourData := sortedDuty
        remarks := sortedRem
        logs := generate_log_entries sortedDuty sortedRem firstStop.estimatedArrival
          lastStop.estimatedArrival st.odometer
        violations := violations
        totalHours := st.onDutyHours }
  (⟨sheet, st.drivingHours, st.onDutyHours⟩, st.odometer, rng)

/-- The ascending list of calendar days touched by the stop list
(lines 55–64 and the `sorted(...)` of line 72). -/
def stopDays (stops : List Stop) : List ℤ :=
  List.insertionSort (fun a b => a ≤ b)
    ((stops.map (fun s => dayOf s.estimatedArrival)).dedup)

/-- The stops that fall on calendar day `d`, in input order. -/
def dayStopsOf (stops : List Stop) (d : ℤ) : List Stop :=
  stops.filter (fun s => dayOf s.estimatedArrival == d)

/-- The day-by-day pass over the (index, day) pairs. -/
def processDaysAux (geo : List ℚ → String) (stops : List Stop) (n : ℕ) :
    List (ℕ × ℤ) → ℤ → List ℤ → List DayResult × ℤ × List ℤ
  | [], odo, rng => ([], odo, rng)
  | (i, d) :: rest, odo, rng =>
    let (res, odo2, rng2) := processDay geo (i == 0) (i == n - 1) d
      (dayStopsOf stops d) odo rng
    let (others, odo3, rng3) := processDaysAux geo stops n rest odo2 rng2
    (res :: others, odo3, rng3)

/-- The presentation fields added at lines 317–326, consuming four RNG draws. -/
def addPresentation (sheet : DailyLogSheet) (rng : List ℤ) :
    DailyLogSheet × List ℤ :=
  let (plateNum, rng) := randint 1000 9999 rng
  let (plateState, rng) := randchoice ["CA", "TX", "NY", "FL"] rng
  let (company, rng) := randchoice ["ABC", "XYZ", "Global", "National"] rng
  let (commodity, rng) := randchoice ["Electronics", "Produce", "Furniture", "Machinery"] rng
  ({ sheet with
      licensePlate := "ABC-" ++ toString plateNum ++ " (" ++ plateState ++ ")"
      shipperCommodity := company ++ " Shipping Co. - " ++ commodity
      generalRemarks := "No issues reported"
      officeAddress := "1234 Business Rd, Suite 100, Dallas, TX 75201"
      homeAddress := "5678 Industrial Ave, Houston, TX 77001"
      totalMilesDrivingToday := toString sheet.totalMiles ++ " miles"
      totalMileageToday := toString sheet.totalMiles ++ " miles" }, rng)

/-- The presentation loop over all sheets. -/
def addPresentationAll : List DailyLogSheet → List ℤ → List DailyLogSheet × List ℤ
  | [], rng => ([], rng)
  | s :: rest, rng =>
    let (s2, rng2) := addPresentation s rng
    let (others, rng3) := addPresentationAll rest rng2
    (s2 :: others, rng3)

/-- The per-day results of `generate_eld_logs`, before the presentation loop.
Consumes the RNG stream exactly as `generate_eld_logs` does up to that point. -/
def dayResultsOf (geo : List ℚ → String) (stops : List Stop)
    (startingOdometer : Option ℤ) (rng : List ℤ) : List DayResult × ℤ × List ℤ :=
  let (odo0, rng) := match startingOdometer with
    | some o => (o, rng)
    | none => randint 100000 500000 rng
  let days := stopDays stops
  processDaysAux geo stops days.length days.enum odo0 rng

/-- `generate_eld_logs` (lines 36–328).  The geocoder is a parameter, the RNG
a stream; `startingOdometer = none` models the unsupplied default (drawn from
the stream).  Returns the daily log sheets and the unconsumed stream. -/
def generate_eld_logs (geo : List ℚ → String) (stops : List Stop)
    (startingOdometer : Option ℤ) (rng : List ℤ) : List DailyLogSheet × List ℤ :=
  if stops.isEmpty then ([], rng)
  else
    let (results, _, rng) := dayResultsOf geo stops startingOdometer rng
    addPresentationAll (results.map (fun r => r.sheet)) rng

/-- A placeholder sheet for indexed access; only read at out-of-range indices. -/
def dummySheet : DailyLogSheet := (create_daily_log_sheet 0 []).1

/-- A placeholder day result for indexed access. -/
def dummyResult : DayResult := ⟨dummySheet, 0, 0⟩

/-- The qualifying between-stop driving gaps (in hours) of a day's stop list:
for adjacent stops where neither is `off-duty` nor `overnight` and the gap
after the 30-minute stop duration exceeds 15 minutes, the gap length
`next.arrival - (stop.arrival + 0.5)`.  This is the list of values the loop of
lines 224–250 adds to the day's accumulators. -/
def dayGaps : List Stop → List ℚ
  | [] => []
  | [_] => []
  | s :: n :: rest =>
    (if (n.type ≠ "off-duty" ∧ n.type ≠ "overnight" ∧
          s.type ≠ "off-duty" ∧ s.type ≠ "overnight") ∧
        n.estimatedArrival - (s.estimatedArrival + 1/2) > 1/4 then
      [n.estimatedArrival - (s.estimatedArrival + 1/2)]
    else []) ++ dayGaps (n :: rest)

/-- Pairwise separation (by at least the 0.001 write tolerance) of the hour
values of a duty-status list. -/
def hourSeparated (l : List DutyStatus) : Prop :=
  l.Pairwise (fun a b => 1/1000 ≤ |a.hour - b.hour|)

/-- A constant geocoder used in concrete evaluations. -/
def geoConst : List ℚ → String := fun _ => ""

/-- Concrete stops for the odometer counterexample: two qualifying
0.34-hour (20.4-mile) driving gaps on a single day. -/
def stopsOdoCx : List Stop :=
  [⟨"pickup", "Pickup", [0, 0], "30 minutes", 7, 0⟩,
   ⟨"waypoint", "Waypoint", [0, 0], "30 minutes", 784/100, 0⟩,
   ⟨"waypoint", "Waypoint 2", [0, 0], "30 minutes", 868/100, 0⟩]

/-- Concrete stops for the end-of-day counterexample: a single (hence final)
day whose last stop is a fuel stop at exactly 17:30. -/
def stopsEodCx : List Stop :=
  [⟨"pickup", "Pickup", [0, 0], "30 minutes", 7, 0⟩,
   ⟨"fuel", "Fuel Stop", [0, 0], "30 minutes", 35/2, 0⟩]

/-- The hour values of a duty-status list. -/
def hoursOf (l : List DutyStatus) : List ℚ := l.map (fun e => e.hour)

/-- The duty-status list a day's sheet is built from, before sorting: the
composition of the per-day phases of `generate_eld_logs` exactly as
`processDay` runs them. -/
def dayDuty (isFirstDay isLastDay : Bool) (dayStops : List Stop) (odometer : ℤ) :
    List DutyStatus :=
  let seeded := dayStops.foldl seedStop ([], [])
  let em := ensureEarlyMorning isFirstDay seeded.1 seeded.2
  let re := ensureRestEnd em.1 em.2
  let mp := morningPattern isFirstDay
    (hmOf (dayStops.headD dummyStop).estimatedArrival) re.1 re.2
  let st := dayLoop ⟨mp.1, mp.2, "driving", odometer, 0, 0, 0⟩ dayStops
  (endOfDayPattern (isEarlyCompletion isLastDay dayStops) isLastDay st.duty st.rem).1

/-- The two structural invariants of a duty-status list that `add_duty_status`
maintains: hours pairwise separated by the write tolerance, and in `[0, 24)`. -/
def dutyWellFormed (l : List DutyStatus) : Prop :=
  hourSeparated l ∧ ∀ e ∈ l, 0 ≤ e.hour ∧ e.hour < 24

/-- Absence of the standard end-of-day entries from a duty-status list: no
off-duty entry near 17.5, no sleeper-berth near 19.0, no entry near 23.99.
The margins are wide enough to survive the 0.001 overwrite tolerance. -/
def eodClean (l : List DutyStatus) : Prop :=
  ∀ e ∈ l,
    (e.status = "off-duty" → 3/200 < |e.hour - 35/2|) ∧
    (e.status = "sleeper-berth" → 1 < |e.hour - 19|) ∧
    1/100 < |e.hour - 2399/100|

/-! ## Stop planner (`eld_modules/stop_generator.py`)

Timestamps stay rational hours since the epoch midnight.  `replace(hour=H,
minute=M, second=0)` zeroes the second but keeps the microsecond, so the
model keeps the sub-second part of the timestamp (`subsec`).  The planner's
`while` loop and the recursion of `calculate_time_restricted_arrival` are
given structural fuel; `generate_stops` returns `none` when the fuel runs
out, and the recursion fuel of `calculate_time_restricted_arrival` is proved
sufficient below (`ctraAux_stable`). -/

/-- Planner constants (lines 20–33). -/
def FUEL_STOP_INTERVAL : ℚ := 500

def PICKUP_DURATION : ℚ := 1/2

def DROPOFF_DURATION : ℚ := 1/2

def WAYPOINT_DURATION : ℚ := 1/2

def FUEL_DURATION : ℚ := 1/2

def BREAK_DURATION : ℚ := 1/2

def PREFERRED_BREAK_HOUR : ℚ := 14

def AVG_SPEED_MPH : ℚ := 60

/-- The sub-second (microsecond) part of a timestamp, in hours. -/
def subsec (t : ℚ) : ℚ :=
  (hourOfDay t * 3600 - (Int.floor (hourOfDay t * 3600) : ℚ)) / 3600

/-- `ts.replace(hour=H, minute=M, second=0)`: the second field is zeroed but
the microsecond part survives. -/
def replaceHMS (t : ℚ) (H M : ℤ) : ℚ :=
  24 * (dayOf t : ℚ) + (H : ℚ) + (M : ℚ) / 60 + subsec t

/-- `format_duration` (lines 35–41). -/
def format_duration (hours : ℚ) : String :=
  if hours < 1 then toString (pyRound (hours * 60)) ++ " minutes"
  else fmt1 hours ++ " hours"

/-- Python `str.capitalize`. -/
def pyCapitalize (s : String) : String := s.toLower.capitalize

/-- `calculate_hours_until_end_of_driving_day` (lines 47–60). -/
def calculate_hours_until_end_of_driving_day (t : ℚ) : ℚ :=
  if DRIVING_END_HOUR ≤ hmOf t then 0 else DRIVING_END_HOUR - hmOf t

/-- `is_within_driving_hours` (lines 62–73). -/
def is_within_driving_hours (t : ℚ) : Bool :=
  decide (DRIVING_START_HOUR ≤ hmOf t) && decide (hmOf t ≤ DRIVING_END_HOUR)

/-- `next_driving_start_time` (lines 75–103). -/
def next_driving_start_time (t : ℚ) : ℚ :=
  if hmOf t < DRIVING_START_HOUR then replaceHMS t 7 0
  else if DRIVING_END_HOUR ≤ hmOf t then replaceHMS (t + 24) 7 0
  else t

/-- The body of `calculate_time_restricted_arrival` (lines 105–150), with
structural fuel for the tail recursion of line 150. -/
def ctraAux : ℕ → ℚ → ℚ → ℚ
  | 0, start, _ => start
  | n + 1, start, drivingHours =>
    if drivingHours ≤ 0 then start
    else
      let current := next_driving_start_time start
      let hoursUntilEnd := calculate_hours_until_end_of_driving_day current
      if drivingHours ≤ hoursUntilEnd then current + drivingHours
      else
        let endOfDay := replaceHMS current 17 30
        let nextStart := replaceHMS (endOfDay + 24) 7 0
        ctraAux n nextStart (drivingHours - hoursUntilEnd)

/-- Fuel that suffices for the recursion of
`calculate_time_restricted_arrival`: after the first level every level starts
at 07:00 and consumes `10.5` hours, so `⌈dh⌉ + 2` levels are enough
(`ctraAux_stable`). -/
def ctraFuel (drivingHours : ℚ) : ℕ := (Int.ceil drivingHours).toNat + 2

/-- `calculate_time_restricted_arrival` (lines 105–150). -/
def calculate_time_restricted_arrival (start : ℚ) (drivingHours : ℚ) : ℚ :=
  ctraAux (ctraFuel drivingHours) start drivingHours

/-- `align_break_time` (lines 201–231). -/
def align_break_time (breakTime : ℚ) : ℚ :=
  let targetTime := 24 * (dayOf breakTime : ℚ) + PREFERRED_BREAK_HOUR
  if PREFERRED_BREAK_HOUR < hmOf breakTime then breakTime
  else if 12 ≤ hmOf breakTime ∧ hmOf breakTime < PREFERRED_BREAK_HOUR then
    if is_within_driving_hours targetTime then targetTime else breakTime
  else breakTime

/-- A `{lat, lng}` location dictionary as handed to `generate_stops`. -/
structure LatLng where
  lat : ℚ
  lng : ℚ
deriving DecidableEq, Repr

/-- The state of the planner's inner drive loop (lines 316–604). -/
structure DriveState where
  stops : List Stop
  currentTimestamp : ℚ
  segmentPosition : ℚ
  milesToNextFuel : ℚ
  hoursSinceBreak : ℚ
  remainingDrive : ℚ
  daysOnRoad : ℤ
deriving DecidableEq, Repr

/-- `drivable_hours = min(remaining_drive, hours_until_end,
hours_left_before_break)` (lines 415–416). -/
def drivableHours (st : DriveState) : ℚ :=
  min st.remainingDrive
    (min (calculate_hours_until_end_of_driving_day st.currentTimestamp)
      (max 0 (8 - st.hoursSinceBreak)))

/-- The overnight branch at the top of the loop (lines 329–390). -/
def overnightBranch (route : CombinedRoute) (total : ℚ) (st : DriveState) :
    DriveState :=
  let oc := interpolate_position route (st.segmentPosition / total)
  let ch := hmOf st.currentTimestamp
  let st1 : DriveState :=
    if DRIVING_END_HOUR ≤ ch ∧ ch < SLEEPER_START_HOUR then
      { st with
          stops := st.stops ++ [⟨"off-duty", "End of Driving Day", oc,
            format_duration (SLEEPER_START_HOUR - ch), st.currentTimestamp,
            st.segmentPosition⟩],
          currentTimestamp := replaceHMS st.currentTimestamp 19 0 }
    else st
  let st2 : DriveState := { st1 with
      stops := st1.stops ++ [⟨"overnight", "Required 10-Hour Rest", oc,
        "10 hours", st1.currentTimestamp, st.segmentPosition⟩],
      currentTimestamp := st1.currentTimestamp + 10 }
  let st3 : DriveState :=
    if hmOf st2.currentTimestamp < SLEEPER_END_HOUR then
      { st2 with
          stops := st2.stops ++ [⟨"overnight", "Early Morning Rest (Sleeper Berth)",
            oc, format_duration (SLEEPER_END_HOUR - hmOf st2.currentTimestamp),
            st2.currentTimestamp, st.segmentPosition⟩],
          currentTimestamp := replaceHMS st2.currentTimestamp 6 30 }
    else st2
  { st3 with
      currentTimestamp := next_driving_start_time st3.currentTimestamp,
      hoursSinceBreak := 0,
      daysOnRoad := st.daysOnRoad + 1 }

/-- The two immediate-break branches (lines 393–412 and 418–437): they differ
only in the stop name. -/
def breakBranch (route : CombinedRoute) (total : ℚ) (st : DriveState)
    (name : String) : DriveState :=
  let bc := interpolate_position route (st.segmentPosition / total)
  let bt := align_break_time st.currentTimestamp
  { st with
      stops := st.stops ++ [⟨"rest", name, bc, format_duration BREAK_DURATION,
        bt, st.segmentPosition⟩],
      hoursSinceBreak := 0,
      currentTimestamp := bt + BREAK_DURATION }

/-- The fuel branch (lines 439–489). -/
def fuelBranch (route : CombinedRoute) (total : ℚ) (st : DriveState) :
    DriveState :=
  let fuelPosition := st.segmentPosition + st.milesToNextFuel
  let fc := interpolate_position route (fuelPosition / total)
  let drivingHoursToFuel := st.milesToNextFuel / AVG_SPEED_MPH
  let fuelArrival :=
    calculate_time_restricted_arrival st.currentTimestamp drivingHoursToFuel
  let st1 : DriveState :=
    { st with
        stops := st.stops ++ [⟨"fuel", "Fuel Stop", fc,
          format_duration FUEL_DURATION, fuelArrival, fuelPosition⟩],
        segmentPosition := fuelPosition,
        currentTimestamp := fuelArrival + FUEL_DURATION,
        hoursSinceBreak := st.hoursSinceBreak + drivingHoursToFuel,
        milesToNextFuel := FUEL_STOP_INTERVAL,
        remainingDrive := st.remainingDrive - drivingHoursToFuel }
  if 7 ≤ st1.hoursSinceBreak then
    { st1 with
        stops := st1.stops ++ [⟨"rest", "30-Minute Break", fc,
          format_duration BREAK_DURATION,
          align_break_time st1.currentTimestamp, fuelPosition⟩],
        hoursSinceBreak := 0,
        currentTimestamp := align_break_time st1.currentTimestamp + BREAK_DURATION }
  else st1

/-- The mid-segment break branch (lines 492–528). -/
def midBreakBranch (route : CombinedRoute) (total : ℚ) (st : DriveState) :
    DriveState :=
  let hoursUntilBreakNeeded := 8 - st.hoursSinceBreak
  let preBreakPosition :=
    st.segmentPosition + hoursUntilBreakNeeded * AVG_SPEED_MPH
  let bc := interpolate_position route (preBreakPosition / total)
  let preBreakArrival :=
    calculate_time_restricted_arrival st.currentTimestamp hoursUntilBreakNeeded
  let bt := align_break_time preBreakArrival
  { st with
      stops := st.stops ++ [⟨"rest", "30-Minute Break", bc,
        format_duration BREAK_DURATION, bt, preBreakPosition⟩],
      segmentPosition := preBreakPosition,
      currentTimestamp := bt + BREAK_DURATION,
      remainingDrive := st.remainingDrive - hoursUntilBreakNeeded,
      milesToNextFuel :=
        st.milesToNextFuel - hoursUntilBreakNeeded * AVG_SPEED_MPH,
      hoursSinceBreak := 0 }

/-- The plain drive branch with its end-of-day tail (lines 531–604). -/
def driveBranch (route : CombinedRoute) (total : ℚ) (st : DriveState) :
    DriveState :=
  let d := drivableHours st
  let drivePosition := st.segmentPosition + d * AVG_SPEED_MPH
  let arrivalTime := calculate_time_restricted_arrival st.currentTimestamp d
  let st1 : DriveState :=
    { st with
        segmentPosition := drivePosition,
        currentTimestamp := arrivalTime,
        remainingDrive := st.remainingDrive - d,
        milesToNextFuel := st.milesToNextFuel - d * AVG_SPEED_MPH,
        hoursSinceBreak := st.hoursSinceBreak + d }
  if calculate_hours_until_end_of_driving_day st1.currentTimestamp ≤ 0 ∧
      0 < st1.remainingDrive then
    let oc := interpolate_position route (st1.segmentPosition / total)
    let offDutyStart := replaceHMS st1.currentTimestamp 17 30
    let sleeperTime := replaceHMS offDutyStart 19 0
    let st2 : DriveState :=
      { st1 with
          stops := st1.stops ++
            [⟨"off-duty", "End of Driving Day", oc,
              format_duration (SLEEPER_START_HOUR - DRIVING_END_HOUR),
              offDutyStart, st1.segmentPosition⟩,
             ⟨"overnight", "Required 10-Hour Rest", oc, "10 hours", sleeperTime,
              st1.segmentPosition⟩],
          currentTimestamp := sleeperTime + 10 }
    let st3 : DriveState :=
      if hmOf st2.currentTimestamp < SLEEPER_END_HOUR then
        { st2 with
            stops := st2.stops ++ [⟨"overnight",
              "Early Morning Rest (Sleeper Berth)", oc,
              format_duration (SLEEPER_END_HOUR - hmOf st2.currentTimestamp),
              st2.currentTimestamp, st1.segmentPosition⟩],
            currentTimestamp := replaceHMS st2.currentTimestamp 6 30 }
      else st2
    { st3 with
        currentTimestamp := next_driving_start_time st3.currentTimestamp,
        hoursSinceBreak := 0,
        daysOnRoad := st1.daysOnRoad + 1 }
  else st1

/-- One iteration of the inner `while remaining_drive > 0` loop, dispatching
on the branch conditions in source order. -/
def driveStep (route : CombinedRoute) (total : ℚ) (st : DriveState) :
    DriveState :=
  if calculate_hours_until_end_of_driving_day st.currentTimestamp ≤ 0 then
    overnightBranch route total st
  else if 8 ≤ st.hoursSinceBreak then
    breakBranch route total st "30-Minute Break"
  else if drivableHours st ≤ 0 then
    breakBranch route total st "30-Minute Break (Required)"
  else if st.milesToNextFuel ≤ drivableHours st * AVG_SPEED_MPH ∧
      0 < st.milesToNextFuel then
    fuelBranch route total st
  else if 8 ≤ st.hoursSinceBreak + drivableHours st ∧
      0 < 8 - st.hoursSinceBreak then
    midBreakBranch route total st
  else
    driveBranch route total st

/-- The inner `while` loop, with structural fuel: `none` models a run that
needs more iterations than the fuel allows. -/
def driveLoop (route : CombinedRoute) (total : ℚ) :
    ℕ → DriveState → Option DriveState
  | 0, st => if 0 < st.remainingDrive then none else some st
  | n + 1, st =>
    if 0 < st.remainingDrive then
      driveLoop route total n (driveStep route total st)
    else some st

/-- The planner's outer per-leg state (lines 251–257 and 607–637). -/
structure GenState where
  stops : List Stop
  currentTimestamp : ℚ
  currentPosition : ℚ
  milesSinceLastFuel : ℚ
  hoursSinceBreak : ℚ
  daysOnRoad : ℤ
deriving DecidableEq, Repr

/-- One iteration of the `for i in range(1, len(locations))` loop
(lines 305–637): drive to location `i`, then append the pickup, waypoint or
dropoff stop. -/
def legStep (geo : List ℚ → String) (route : CombinedRoute) (total : ℚ)
    (nloc : ℕ) (gas : ℕ) (g : GenState) (iloc : ℕ × LatLng) :
    Option GenState :=
  let i := iloc.1
  let loc := iloc.2
  let nextPosition := total * ((i : ℚ) / ((nloc : ℚ) - 1))
  let distanceToNext := nextPosition - g.currentPosition
  let drivingHours := distanceToNext / AVG_SPEED_MPH
  let d0 : DriveState :=
    ⟨g.stops, g.currentTimestamp, g.currentPosition,
      FUEL_STOP_INTERVAL - g.milesSinceLastFuel, g.hoursSinceBreak,
      drivingHours, g.daysOnRoad⟩
  match driveLoop route total gas d0 with
  | none => none
  | some d =>
    let stopType :=
      if i = 1 then "pickup"
      else if i = nloc - 1 then "dropoff"
      else "waypoint"
    let stopDuration :=
      if i = 1 then PICKUP_DURATION
      else if i = nloc - 1 then DROPOFF_DURATION
      else WAYPOINT_DURATION
    some ⟨d.stops ++ [⟨stopType,
        pyCapitalize stopType ++ " at " ++ geo [loc.lng, loc.lat],
        [loc.lng, loc.lat], format_duration stopDuration, d.currentTimestamp,
        nextPosition⟩],
      d.currentTimestamp + stopDuration,
      nextPosition,
      g.milesSinceLastFuel + distanceToNext,
      d.hoursSinceBreak,
      d.daysOnRoad⟩

/-- The fold of `legStep` over the enumerated tail of the location list. -/
def processLegs (geo : List ℚ → String) (route : CombinedRoute) (total : ℚ)
    (nloc : ℕ) (gas : ℕ) : List (ℕ × LatLng) → GenState → Option GenState
  | [], g => some g
  | p :: rest, g =>
    match legStep geo route total nloc gas g p with
    | none => none
    | some g2 => processLegs geo route total nloc gas rest g2

/-- The pre-drive phase of `generate_stops` (lines 251–317): the starting
stop, the optional early-morning rest, the optional pre-trip inspection, and
the snap to the next driving start time. -/
def preludeState (locations : List LatLng) (start_time current_cycle_used : ℚ) :
    GenState :=
  let l0 := locations.headD ⟨0, 0⟩
  let startCoords := [l0.lng, l0.lat]
  let g0 : GenState :=
    ⟨[⟨"start", "Starting Location", startCoords, "0 hours", start_time, 0⟩],
      start_time, 0, 0, current_cycle_used, 0⟩
  let g1 : GenState :=
    if hmOf g0.currentTimestamp < SLEEPER_END_HOUR then
      { g0 with
          stops := g0.stops ++ [⟨"off-duty", "Early Morning Rest (Off-Duty)",
            startCoords,
            format_duration (SLEEPER_END_HOUR - hmOf g0.currentTimestamp),
            g0.currentTimestamp, 0⟩],
          currentTimestamp := replaceHMS g0.currentTimestamp 6 30 }
    else g0
  let g2 : GenState :=
    if PRE_TRIP_START_HOUR ≤ hmOf g1.currentTimestamp ∧
        hmOf g1.currentTimestamp < DRIVING_START_HOUR then
      { g1 with
          stops := g1.stops ++ [⟨"pretrip", "Pre-trip Inspection", startCoords,
            format_duration (DRIVING_START_HOUR - PRE_TRIP_START_HOUR),
            g1.currentTimestamp, 0⟩],
          currentTimestamp :=
            g1.currentTimestamp + (DRIVING_START_HOUR - hmOf g1.currentTimestamp) }
    else g1
  { g2 with
      currentTimestamp := next_driving_start_time g2.currentTimestamp }

/-- `generate_stops` (lines 233–642).  The geocoder is a parameter; `gas`
bounds the iterations of the inner drive loop. -/
def generate_stops (geo : List ℚ → String) (route : CombinedRoute)
    (locations : List LatLng) (start_time : ℚ) (current_cycle_used : ℚ)
    (gas : ℕ) : Option (List Stop) :=
  match processLegs geo route route.distance locations.length gas
      (locations.enum.drop 1)
      (preludeState locations start_time current_cycle_used) with
  | none => none
  | some g =>
    some (List.insertionSort (fun a b => a.estimatedArrival ≤ b.estimatedArrival)
      g.stops)

/-- The fuel stops of a stop list, in list order. -/
def fuelStopsOf (l : List Stop) : List Stop :=
  l.filter (fun s => s.type == "fuel")

/-- The mile positions of the fuel stops of a stop list. -/
def fuelPositions (l : List Stop) : List ℚ :=
  (fuelStopsOf l).map Stop.posMi

/-- The mile position of the last fuel stop, `0` when there is none. -/
def lastFuelPos (l : List Stop) : ℚ := (fuelPositions l).getLastD 0

/-- Every adjacent gap in the list (seeded with `prev`) is at most `c`. -/
def chainLe (c : ℚ) : ℚ → List ℚ → Bool
  | _, [] => true
  | prev, q :: r => decide (q - prev ≤ c) && chainLe c q r

/-- The fuel-cadence property: the first fuel position is within
`FUEL_STOP_INTERVAL` of the start, and each next one within
`FUEL_STOP_INTERVAL` of its predecessor. -/
def fuelGapsOK (l : List ℚ) : Bool := chainLe FUEL_STOP_INTERVAL 0 l

/-- The drive-loop invariant that carries the fuel-cadence property:
the recorded gaps are in bounds, the pending fuel threshold
`segmentPosition + milesToNextFuel` is within the interval of the last fuel
stop, the position does not run backwards past the last fuel stop, the
remaining drive is nonnegative, and fuel-stop arrival times are strictly
increasing and in the past. -/
def FuelInvC (stops : List Stop) (segPos mtf rem now : ℚ) : Prop :=
  fuelGapsOK (fuelPositions stops) = true ∧
  segPos + mtf ≤ lastFuelPos stops + FUEL_STOP_INTERVAL ∧
  lastFuelPos stops ≤ segPos ∧
  0 ≤ lastFuelPos stops ∧
  0 ≤ rem ∧
  (fuelStopsOf stops).Pairwise
    (fun a b => a.estimatedArrival < b.estimatedArrival) ∧
  (∀ s ∈ stops, s.type = "fuel" → s.estimatedArrival < now)

/-- `FuelInvC` read off a `DriveState`. -/
def FuelInv (st : DriveState) : Prop :=
  FuelInvC st.stops st.segmentPosition st.milesToNextFuel st.remainingDrive
    st.currentTimestamp

/-- The outer (per-leg) invariant of the planner state. -/
def GInv (g : GenState) : Prop :=
  fuelGapsOK (fuelPositions g.stops) = true ∧
  lastFuelPos g.stops ≤ g.currentPosition ∧
  0 ≤ lastFuelPos g.stops ∧
  g.milesSinceLastFuel = g.currentPosition ∧
  (fuelStopsOf g.stops).Pairwise
    (fun a b => a.estimatedArrival < b.estimatedArrival) ∧
  (∀ s ∈ g.stops, s.type = "fuel" → s.estimatedArrival < g.currentTimestamp)

/-- A concrete route for evaluating the planner: 540 miles, two geometry
points. -/
def routeW : CombinedRoute := ⟨540, 9, [[0, 0], [1, 1]]⟩

/-- Concrete planner locations: origin and dropoff. -/
def locsW : List LatLng := [⟨0, 0⟩, ⟨1, 1⟩]

/-- The loop-top invariant used for the termination argument: the current
timestamp sits at or after 07:00 and before 19:30, and the fuel threshold
never exceeds the interval. -/
def LoopInv (st : DriveState) : Prop :=
  7 ≤ hmOf st.currentTimestamp ∧ hmOf st.currentTimestamp < 39/2 ∧
    st.milesToNextFuel ≤ FUEL_STOP_INTERVAL

/-- The termination potential of the drive loop: every branch of the loop
body decreases it by at least one, except a plain drive cut short by the
break threshold, which is followed by a break. -/
def phi (st : DriveState) : ℚ :=
  14 * st.remainingDrive +
    (FUEL_STOP_INTERVAL - st.milesToNextFuel) / 5 +
    (21/2 - calculate_hours_until_end_of_driving_day st.currentTimestamp) +
    max 0 st.hoursSinceBreak

/-! ## Theorems -/

/-- C10: on the empty stop list the generator returns the empty sheet list and
leaves the RNG stream untouched, whether the starting odometer is supplied or
defaulted. -/
theorem generate_eld_logs_empty (geo : List ℚ → String)
    (startingOdometer : Option ℤ) (rng : List ℤ) :
    generate_eld_logs geo [] startingOdometer rng = ([], rng) := rfl

theorem dayLoopStep_accums_none (st : DayLoopState) (stop : Stop) :
    (dayLoopStep st stop none).odometer = st.odometer ∧
    (dayLoopStep st stop none).position = st.position ∧
    (dayLoopStep st stop none).drivingHours = st.drivingHours ∧
    (dayLoopStep st stop none).onDutyHours = st.onDutyHours := by
  simp [dayLoopStep]

theorem dayLoopStep_accums_some (st : DayLoopState) (stop n : Stop) :
    (dayLoopStep st stop (some n)).odometer = st.odometer +
      (if (n.type ≠ "off-duty" ∧ n.type ≠ "overnight" ∧
            stop.type ≠ "off-duty" ∧ stop.type ≠ "overnight") ∧
          n.estimatedArrival - (stop.estimatedArrival + 1/2) > 1/4 then
        pyRound ((n.estimatedArrival - (stop.estimatedArrival + 1/2)) * 60) else 0) ∧
    (dayLoopStep st stop (some n)).position = st.position +
      (if (n.type ≠ "off-duty" ∧ n.type ≠ "overnight" ∧
            stop.type ≠ "off-duty" ∧ stop.type ≠ "overnight") ∧
          n.estimatedArrival - (stop.estimatedArrival + 1/2) > 1/4 then
        (n.estimatedArrival - (stop.estimatedArrival + 1/2)) * 60 else 0) ∧
    (dayLoopStep st stop (some n)).drivingHours = st.drivingHours +
      (if (n.type ≠ "off-duty" ∧ n.type ≠ "overnight" ∧
            stop.type ≠ "off-duty" ∧ stop.type ≠ "overnight") ∧
          n.estimatedArrival - (stop.estimatedArrival + 1/2) > 1/4 then
        n.estimatedArrival - (stop.estimatedArrival + 1/2) else 0) ∧
    (dayLoopStep st stop (some n)).onDutyHours = st.onDutyHours +
      (if (n.type ≠ "off-duty" ∧ n.type ≠ "overnight" ∧
            stop.type ≠ "off-duty" ∧ stop.type ≠ "overnight") ∧
          n.estimatedArrival - (stop.estimatedArrival + 1/2) > 1/4 then
        n.estimatedArrival - (stop.estimatedArrival + 1/2) else 0) := by
  by_cases h1 : n.type ≠ "off-duty" ∧ n.type ≠ "overnight" ∧
      stop.type ≠ "off-duty" ∧ stop.type ≠ "overnight"
  · simp [dayLoopStep, h1]
    split_ifs with h2 <;> simp
  · simp [dayLoopStep, h1]

theorem dayLoop_accums (stops : List Stop) : ∀ st : DayLoopState,
    (dayLoop st stops).odometer =
      st.odometer + ((dayGaps stops).map (fun g => pyRound (g * 60))).sum ∧
    (dayLoop st stops).position =
      st.position + ((dayGaps stops).map (fun g => g * 60)).sum ∧
    (dayLoop st stops).drivingHours = st.drivingHours + (dayGaps stops).sum ∧
    (dayLoop st stops).onDutyHours = st.onDutyHours + (dayGaps stops).sum := by
  induction stops with
  | nil => intro st; simp [dayLoop, dayGaps]
  | cons s rest ih =>
    cases rest with
    | nil =>
      intro st
      rcases dayLoopStep_accums_none st s with ⟨h1, h2, h3, h4⟩
      simp [dayLoop, dayGaps, h1, h2, h3, h4]
    | cons n rest2 =>
      intro st
      rcases dayLoopStep_accums_some st s n with ⟨h1, h2, h3, h4⟩
      rcases ih (dayLoopStep st s (some n)) with ⟨g1, g2, g3, g4⟩
      have hd : dayLoop st (s :: n :: rest2) =
          dayLoop (dayLoopStep st s (some n)) (n :: rest2) := rfl
      have hdg : dayGaps (s :: n :: rest2) =
          (if (n.type ≠ "off-duty" ∧ n.type ≠ "overnight" ∧
                s.type ≠ "off-duty" ∧ s.type ≠ "overnight") ∧
              n.estimatedArrival - (s.estimatedArrival + 1/2) > 1/4 then
            [n.estimatedArrival - (s.estimatedArrival + 1/2)]
          else []) ++ dayGaps (n :: rest2) := rfl
      rw [hd]
      by_cases hc : (n.type ≠ "off-duty" ∧ n.type ≠ "overnight" ∧
            s.type ≠ "off-duty" ∧ s.type ≠ "overnight") ∧
          n.estimatedArrival - (s.estimatedArrival + 1/2) > 1/4
      · rw [if_pos hc] at h1 h2 h3 h4
        refine ⟨?_, ?_, ?_, ?_⟩
        · rw [g1, h1, hdg, if_pos hc]
          simp only [List.map_append, List.sum_append, List.map_cons, List.sum_cons,
            List.map_nil, List.sum_nil]
          ring
        · rw [g2, h2, hdg, if_pos hc]
          simp only [List.map_append, List.sum_append, List.map_cons, List.sum_cons,
            List.map_nil, List.sum_nil]
          ring
        · rw [g3, h3, hdg, if_pos hc]
          simp only [List.sum_append, List.sum_cons, List.sum_nil]
          ring
        · rw [g4, h4, hdg, if_pos hc]
          simp only [List.sum_append, List.sum_cons, List.sum_nil]
          ring
      · rw [if_neg hc] at h1 h2 h3 h4
        refine ⟨?_, ?_, ?_, ?_⟩
        · rw [g1, h1, hdg, if_neg hc]
          simp only [List.nil_append, add_zero]
        · rw [g2, h2, hdg, if_neg hc]
          simp only [List.nil_append, add_zero]
        · rw [g3, h3, hdg, if_neg hc]
          simp only [List.nil_append, add_zero]
        · rw [g4, h4, hdg, if_neg hc]
          simp only [List.nil_append, add_zero]


theorem processDay_fields (geo : List ℚ → String) (f l : Bool) (day : ℤ)
    (ds : List Stop) (odo : ℤ) (rng : List ℤ) :
    (processDay geo f l day ds odo rng).1.sheet.startOdometer = odo ∧
    (processDay geo f l day ds odo rng).1.sheet.endOdometer =
      odo + ((dayGaps ds).map (fun g => pyRound (g * 60))).sum ∧
    (processDay geo f l day ds odo rng).1.sheet.totalMiles =
      pyRound (((dayGaps ds).map (fun g => g * 60)).sum) ∧
    (processDay geo f l day ds odo rng).1.drivingHours = (dayGaps ds).sum ∧
    (processDay geo f l day ds odo rng).1.onDutyHours = (dayGaps ds).sum ∧
    (processDay geo f l day ds odo rng).1.sheet.totalHours = (dayGaps ds).sum ∧
    (processDay geo f l day ds odo rng).2.1 =
      odo + ((dayGaps ds).map (fun g => pyRound (g * 60))).sum ∧
    (processDay geo f l day ds odo rng).1.sheet.violations =
      (if (dayGaps ds).sum > MAX_DRIVING_HOURS then
        [(⟨"driving-limit",
           "Exceeded 11-hour driving limit (" ++ fmt1 ((dayGaps ds).sum) ++ " hours)"⟩ : Violation)]
       else []) ++
      (if (dayGaps ds).sum > MAX_ON_DUTY_HOURS then
        [(⟨"on-duty-limit",
           "Exceeded 14-hour on-duty limit (" ++ fmt1 ((dayGaps ds).sum) ++ " hours)"⟩ : Violation)]
       else []) := by
  have hacc := dayLoop_accums ds
  simp [processDay, hacc]

theorem processDaysAux_length (geo : List ℚ → String) (stops : List Stop) (n : ℕ) :
    ∀ (pairs : List (ℕ × ℤ)) (odo : ℤ) (rng : List ℤ),
      (processDaysAux geo stops n pairs odo rng).1.length = pairs.length := by
  intro pairs
  induction pairs with
  | nil => intro odo rng; rfl
  | cons p rest ih =>
    intro odo rng
    rcases p with ⟨i, d⟩
    simp only [processDaysAux]
    simp [ih]

theorem processDaysAux_getD (geo : List ℚ → String) (stops : List Stop) (n : ℕ) :
    ∀ (pairs : List (ℕ × ℤ)) (odo : ℤ) (rng : List ℤ) (i : ℕ), i < pairs.length →
      ∃ (o : ℤ) (r : List ℤ),
        (processDaysAux geo stops n pairs odo rng).1.getD i dummyResult =
          (processDay geo ((pairs.getD i (0, 0)).1 == 0)
            ((pairs.getD i (0, 0)).1 == n - 1) (pairs.getD i (0, 0)).2
            (dayStopsOf stops (pairs.getD i (0, 0)).2) o r).1 := by
  intro pairs
  induction pairs with
  | nil => intro odo rng i hi; simp at hi
  | cons p rest ih =>
    intro odo rng i hi
    rcases p with ⟨j, d⟩
    cases i with
    | zero =>
      refine ⟨odo, rng, ?_⟩
      simp only [processDaysAux]
      rfl
    | succ k =>
      have hk : k < rest.length := by simpa using hi
      obtain ⟨o, r, h⟩ := ih
        ((processDay geo (j == 0) (j == n - 1) d (dayStopsOf stops d) odo rng).2.1)
        ((processDay geo (j == 0) (j == n - 1) d (dayStopsOf stops d) odo rng).2.2)
        k hk
      refine ⟨o, r, ?_⟩
      simpa [processDaysAux] using h

theorem processDaysAux_cons (geo : List ℚ → String) (stops : List Stop) (n j : ℕ)
    (d : ℤ) (rest : List (ℕ × ℤ)) (odo : ℤ) (rng : List ℤ) :
    processDaysAux geo stops n ((j, d) :: rest) odo rng =
      ((processDay geo (j == 0) (j == n - 1) d (dayStopsOf stops d) odo rng).1 ::
        (processDaysAux geo stops n rest
          (processDay geo (j == 0) (j == n - 1) d (dayStopsOf stops d) odo rng).2.1
          (processDay geo (j == 0) (j == n - 1) d (dayStopsOf stops d) odo rng).2.2).1,
        (processDaysAux geo stops n rest
          (processDay geo (j == 0) (j == n - 1) d (dayStopsOf stops d) odo rng).2.1
          (processDay geo (j == 0) (j == n - 1) d (dayStopsOf stops d) odo rng).2.2).2.1,
        (processDaysAux geo stops n rest
          (processDay geo (j == 0) (j == n - 1) d (dayStopsOf stops d) odo rng).2.1
          (processDay geo (j == 0) (j == n - 1) d (dayStopsOf stops d) odo rng).2.2).2.2) := rfl

theorem processDaysAux_chain (geo : List ℚ → String) (stops : List Stop) (n : ℕ) :
    ∀ (pairs : List (ℕ × ℤ)) (odo : ℤ) (rng : List ℤ) (i : ℕ), i < pairs.length →
      ((processDaysAux geo stops n pairs odo rng).1.getD i dummyResult).sheet.startOdometer =
        if i = 0 then odo
        else ((processDaysAux geo stops n pairs odo rng).1.getD (i - 1)
          dummyResult).sheet.endOdometer := by
  intro pairs
  induction pairs with
  | nil => intro odo rng i hi; simp at hi
  | cons p rest ih =>
    intro odo rng i hi
    rcases p with ⟨j, d⟩
    have hfields := processDay_fields geo (j == 0) (j == n - 1) d (dayStopsOf stops d) odo rng
    have hfst := hfields.1
    have hodo : (processDay geo (j == 0) (j == n - 1) d
        (dayStopsOf stops d) odo rng).2.1 =
        ((processDay geo (j == 0) (j == n - 1) d
          (dayStopsOf stops d) odo rng).1).sheet.endOdometer := by
      rw [hfields.2.2.2.2.2.2.1, hfields.2.1]
    rw [processDaysAux_cons]
    cases i with
    | zero =>
      simpa [List.getD_cons_zero] using hfst
    | succ k =>
      have hk : k < rest.length := by simpa using hi
      rw [if_neg (Nat.succ_ne_zero k)]
      have hrec := ih
        ((processDay geo (j == 0) (j == n - 1) d (dayStopsOf stops d) odo rng).2.1)
        ((processDay geo (j == 0) (j == n - 1) d (dayStopsOf stops d) odo rng).2.2)
        k hk
      cases k with
      | zero =>
        rw [if_pos rfl] at hrec
        rw [hodo] at hrec
        simpa [List.getD_cons_succ, List.getD_cons_zero] using hrec
      | succ m =>
        rw [if_neg (Nat.succ_ne_zero m)] at hrec
        simpa [List.getD_cons_succ] using hrec

theorem hourOfDay_nonneg (t : ℚ) : 0 ≤ hourOfDay t := by
  have h := Int.floor_le (t / 24)
  unfold hourOfDay
  nlinarith [h]

theorem hourOfDay_lt (t : ℚ) : hourOfDay t < 24 := by
  have h := Int.lt_floor_add_one (t / 24)
  unfold hourOfDay
  nlinarith [h]

theorem hmOf_nonneg (t : ℚ) : 0 ≤ hmOf t := by
  unfold hmOf
  have h1 : (0 : ℚ) ≤ hourOfDay t * 60 := by nlinarith [hourOfDay_nonneg t]
  have h2 : (0 : ℤ) ≤ Int.floor (hourOfDay t * 60) := by positivity
  positivity

theorem hmOf_lt (t : ℚ) : hmOf t < 24 := by
  unfold hmOf
  have h1 : hourOfDay t * 60 < 1440 := by nlinarith [hourOfDay_lt t]
  have h2 : Int.floor (hourOfDay t * 60) < 1440 := by
    exact_mod_cast Int.floor_lt.mpr (by exact_mod_cast h1)
  have h3 : (Int.floor (hourOfDay t * 60) : ℚ) < 1440 := by exact_mod_cast h2
  linarith

theorem hmOf_le (t : ℚ) : hmOf t ≤ hourOfDay t := by
  unfold hmOf
  have h := Int.floor_le (hourOfDay t * 60)
  linarith

theorem interpolate_position_eq_getD (route : CombinedRoute) (p : ℚ)
    (h : route.coordinates ≠ []) :
    interpolate_position route p =
      route.coordinates.getD
        (min (Int.floor ((max 0 (min 1 p)) * route.coordinates.length)).toNat
             (route.coordinates.length - 1)) [] := by
  have hN : 0 < route.coordinates.length := List.length_pos.mpr h
  have hp : (0 : ℚ) ≤ max 0 (min 1 p) := le_max_left _ _
  have hi : (0 : ℤ) ≤ Int.floor ((max 0 (min 1 p)) * route.coordinates.length) :=
    Int.floor_nonneg.mpr (by positivity)
  unfold interpolate_position
  rw [if_neg (by simpa [List.isEmpty_iff] using h)]
  have hidx : (max 0 (min (Int.floor ((max 0 (min 1 p)) * route.coordinates.length))
      ((route.coordinates.length : ℤ) - 1))).toNat =
      min (Int.floor ((max 0 (min 1 p)) * route.coordinates.length)).toNat
        (route.coordinates.length - 1) := by omega
  dsimp only
  rw [hidx]

theorem interpolate_position_index_lt (route : CombinedRoute) (p : ℚ)
    (h : route.coordinates ≠ []) :
    min (Int.floor ((max 0 (min 1 p)) * route.coordinates.length)).toNat
        (route.coordinates.length - 1) < route.coordinates.length := by
  have hN : 0 < route.coordinates.length := List.length_pos.mpr h
  omega

/-- C8: `interpolate_position` clamps the fraction to `[0,1]`, takes the floor
index clamped into `[0, N-1]`; fraction 1 yields the last coordinate, and the
result is always an element of the route's coordinate list. -/
theorem interpolate_position_spec (route : CombinedRoute) (p : ℚ)
    (h : route.coordinates ≠ []) :
    interpolate_position route p =
      route.coordinates.getD
        (min (Int.floor ((max 0 (min 1 p)) * route.coordinates.length)).toNat
             (route.coordinates.length - 1)) [] ∧
    interpolate_position route 1 =
      route.coordinates.getD (route.coordinates.length - 1) [] ∧
    interpolate_position route p ∈ route.coordinates := by
  refine ⟨interpolate_position_eq_getD route p h, ?_, ?_⟩
  · rw [interpolate_position_eq_getD route 1 h]
    congr 1
    have h1 : max (0 : ℚ) (min 1 1) = 1 := by norm_num
    rw [h1, one_mul]
    rw [Int.floor_natCast]
    omega
  · rw [interpolate_position_eq_getD route p h]
    have hlt := interpolate_position_index_lt route p h
    rw [List.getD_eq_getElem route.coordinates [] hlt]
    exact List.getElem_mem hlt

/-- Witness for `interpolate_position_spec` at a concrete three-point route. -/
theorem interpolate_position_spec_witness :
    interpolate_position ⟨10, 600, [[0, 0], [1, 1], [2, 2]]⟩ 1 ∈
      [[(0 : ℚ), 0], [1, 1], [2, 2]] :=
  (interpolate_position_spec ⟨10, 600, [[0, 0], [1, 1], [2, 2]]⟩ 1 (by decide)).2.2

/-- C3 counterexample: a request whose six coordinate values are all present,
non-null floats (latitude `0.0` on the current location) is nevertheless
rejected with the 400 error response, because Python truthiness treats `0.0`
as missing. -/
theorem tripPost_rejects_zero_coordinate :
    (let trip : TripData :=
      ⟨⟨some 0, some (-118)⟩, ⟨some 34, some (-118)⟩, ⟨some 35, some (-115)⟩, 0⟩
     (∀ c ∈ [trip.currentLocation, trip.pickupLocation, trip.dropoffLocation],
        c.latitude.isSome ∧ c.longitude.isSome) ∧
     tripPost (fun _ _ => ()) trip =
       TripResponse.badRequest "Missing or invalid coordinates in trip data") := by
  constructor
  · decide
  · rfl

/-- C3 amended: the endpoint returns the 400 error response exactly when one of
the six latitude/longitude values is null or zero (Python-falsy); when all six
are non-null and nonzero the validation passes and the pipeline is invoked on
the three locations and the cycle-used value. -/
theorem tripPost_badRequest_iff {α : Type} (pipeline : List PyLocation → ℚ → α)
    (trip : TripData) :
    (tripPost pipeline trip =
        TripResponse.badRequest "Missing or invalid coordinates in trip data" ↔
      ∃ l ∈ tripLocations trip,
        l.lat = none ∨ l.lat = some 0 ∨ l.lng = none ∨ l.lng = some 0) ∧
    ((∀ l ∈ tripLocations trip,
        l.lat ≠ none ∧ l.lat ≠ some 0 ∧ l.lng ≠ none ∧ l.lng ≠ some 0) →
      tripPost pipeline trip =
        TripResponse.ok (pipeline (tripLocations trip) trip.currentCycleUsed)) := by
  have hfalsy : ∀ o : Option ℚ, pyFalsy o = true ↔ (o = none ∨ o = some 0) := by
    intro o
    cases o with
    | none => simp [pyFalsy]
    | some x => simp [pyFalsy]
  constructor
  · constructor
    · intro hbad
      by_cases hinv : coordinatesInvalid (tripLocations trip) = true
      · rcases List.any_eq_true.mp hinv with ⟨l, hl, hfl⟩
        refine ⟨l, hl, ?_⟩
        rcases Bool.or_eq_true_iff.mp hfl with hcase | hcase
        · rcases (hfalsy l.lat).mp hcase with hc | hc
          · exact Or.inl hc
          · exact Or.inr (Or.inl hc)
        · rcases (hfalsy l.lng).mp hcase with hc | hc
          · exact Or.inr (Or.inr (Or.inl hc))
          · exact Or.inr (Or.inr (Or.inr hc))
      · exfalso
        unfold tripPost at hbad
        rw [if_neg hinv] at hbad
        exact TripResponse.noConfusion hbad
    · intro ⟨l, hl, hcase⟩
      have hinv : coordinatesInvalid (tripLocations trip) = true := by
        refine List.any_eq_true.mpr ⟨l, hl, ?_⟩
        rcases hcase with hc | hc | hc | hc
        · exact Bool.or_eq_true_iff.mpr (Or.inl ((hfalsy l.lat).mpr (Or.inl hc)))
        · exact Bool.or_eq_true_iff.mpr (Or.inl ((hfalsy l.lat).mpr (Or.inr hc)))
        · exact Bool.or_eq_true_iff.mpr (Or.inr ((hfalsy l.lng).mpr (Or.inl hc)))
        · exact Bool.or_eq_true_iff.mpr (Or.inr ((hfalsy l.lng).mpr (Or.inr hc)))
      unfold tripPost
      rw [if_pos hinv]
  · intro hgood
    have hinv : coordinatesInvalid (tripLocations trip) = false := by
      rw [Bool.eq_false_iff]
      intro habs
      rcases List.any_eq_true.mp habs with ⟨l, hl, hfl⟩
      rcases Bool.or_eq_true_iff.mp hfl with hcase | hcase
      · rcases (hfalsy l.lat).mp hcase with hc | hc
        · exact ((hgood l hl).1 hc)
        · exact ((hgood l hl).2.1 hc)
      · rcases (hfalsy l.lng).mp hcase with hc | hc
        · exact ((hgood l hl).2.2.1 hc)
        · exact ((hgood l hl).2.2.2 hc)
    unfold tripPost
    rw [if_neg (by rw [hinv]; exact Bool.false_ne_true)]

/-- Witness for `tripPost_badRequest_iff` at a concrete valid request. -/
theorem tripPost_badRequest_iff_witness :
    tripPost (fun _ c => c)
      ⟨⟨some 34, some (-118)⟩, ⟨some 34, some (-118)⟩, ⟨some 36, some (-115)⟩, 5⟩ =
      TripResponse.ok 5 := by
  exact (tripPost_badRequest_iff (fun _ c => c)
    ⟨⟨some 34, some (-118)⟩, ⟨some 34, some (-118)⟩, ⟨some 36, some (-115)⟩, 5⟩).2
    (by decide)

theorem addPresentation_fields (s : DailyLogSheet) (rng : List ℤ) :
    (addPresentation s rng).1.startOdometer = s.startOdometer ∧
    (addPresentation s rng).1.endOdometer = s.endOdometer ∧
    (addPresentation s rng).1.totalMiles = s.totalMiles ∧
    (addPresentation s rng).1.totalHours = s.totalHours ∧
    (addPresentation s rng).1.violations = s.violations ∧
    (addPresentation s rng).1.hourData = s.hourData ∧
    (addPresentation s rng).1.date = s.date := by
  simp [addPresentation]

theorem addPresentationAll_length :
    ∀ (sheets : List DailyLogSheet) (rng : List ℤ),
      (addPresentationAll sheets rng).1.length = sheets.length := by
  intro sheets
  induction sheets with
  | nil => intro rng; rfl
  | cons s rest ih =>
    intro rng
    simp only [addPresentationAll]
    simp [ih]

theorem addPresentationAll_getD :
    ∀ (sheets : List DailyLogSheet) (rng : List ℤ) (i : ℕ), i < sheets.length →
      ∃ r : List ℤ,
        (addPresentationAll sheets rng).1.getD i dummySheet =
          (addPresentation (sheets.getD i dummySheet) r).1 := by
  intro sheets
  induction sheets with
  | nil => intro rng i hi; simp at hi
  | cons s rest ih =>
    intro rng i hi
    cases i with
    | zero => exact ⟨rng, rfl⟩
    | succ k =>
      have hk : k < rest.length := by simpa using hi
      obtain ⟨r, h⟩ := ih (addPresentation s rng).2 k hk
      exact ⟨r, by simpa [addPresentationAll] using h⟩

theorem generate_eld_logs_eq (geo : List ℚ → String) (stops : List Stop)
    (odo : Option ℤ) (rng : List ℤ) (h : ¬ stops.isEmpty = true) :
    (generate_eld_logs geo stops odo rng).1 =
      (addPresentationAll ((dayResultsOf geo stops odo rng).1.map (fun r => r.sheet))
        (dayResultsOf geo stops odo rng).2.2).1 := by
  unfold generate_eld_logs
  rw [if_neg h]

theorem enum_getD (l : List ℤ) (i : ℕ) (hi : i < l.length) :
    (l.enum).getD i (0, (0 : ℤ)) = (i, l.getD i 0) := by
  have h1 : i < l.enum.length := by simpa using hi
  rw [List.getD_eq_getElem _ _ h1, List.getD_eq_getElem _ _ hi]
  simp

theorem dayResults_length (geo : List ℚ → String) (stops : List Stop)
    (odo : Option ℤ) (rng : List ℤ) :
    (dayResultsOf geo stops odo rng).1.length = (stopDays stops).length := by
  unfold dayResultsOf
  cases odo with
  | some o => simp [processDaysAux_length]
  | none => simp [processDaysAux_length]

theorem dayResults_getD (geo : List ℚ → String) (stops : List Stop)
    (odo : Option ℤ) (rng : List ℤ) (i : ℕ) (hi : i < (stopDays stops).length) :
    ∃ (o : ℤ) (r : List ℤ),
      (dayResultsOf geo stops odo rng).1.getD i dummyResult =
        (processDay geo (i == 0) (i == (stopDays stops).length - 1)
          ((stopDays stops).getD i 0)
          (dayStopsOf stops ((stopDays stops).getD i 0)) o r).1 := by
  unfold dayResultsOf
  have hlen : i < (stopDays stops).enum.length := by simpa using hi
  have henum := enum_getD (stopDays stops) i hi
  cases odo with
  | some o0 =>
    obtain ⟨o, r, h⟩ := processDaysAux_getD geo stops (stopDays stops).length
      (stopDays stops).enum o0 rng i hlen
    rw [henum] at h
    exact ⟨o, r, by simpa using h⟩
  | none =>
    obtain ⟨o, r, h⟩ := processDaysAux_getD geo stops (stopDays stops).length
      (stopDays stops).enum (randint 100000 500000 rng).1 (randint 100000 500000 rng).2
      i hlen
    rw [henum] at h
    exact ⟨o, r, by simpa using h⟩

theorem dayResults_chain (geo : List ℚ → String) (stops : List Stop)
    (odo : Option ℤ) (rng : List ℤ) (i : ℕ) (hi : i < (stopDays stops).length)
    (hne : i ≠ 0) :
    (((dayResultsOf geo stops odo rng).1.getD i dummyResult).sheet.startOdometer) =
      (((dayResultsOf geo stops odo rng).1.getD (i - 1) dummyResult).sheet.endOdometer) := by
  unfold dayResultsOf
  have hlen : i < (stopDays stops).enum.length := by simpa using hi
  cases odo with
  | some o0 =>
    have h := processDaysAux_chain geo stops (stopDays stops).length
      (stopDays stops).enum o0 rng i hlen
    rw [if_neg hne] at h
    simpa using h
  | none =>
    have h := processDaysAux_chain geo stops (stopDays stops).length
      (stopDays stops).enum (randint 100000 500000 rng).1 (randint 100000 500000 rng).2
      i hlen
    rw [if_neg hne] at h
    simpa using h

theorem sheets_length (geo : List ℚ → String) (stops : List Stop)
    (odo : Option ℤ) (rng : List ℤ) (h : ¬ stops.isEmpty = true) :
    (generate_eld_logs geo stops odo rng).1.length = (stopDays stops).length := by
  rw [generate_eld_logs_eq geo stops odo rng h, addPresentationAll_length]
  simp [dayResults_length]

theorem sheets_getD (geo : List ℚ → String) (stops : List Stop)
    (odo : Option ℤ) (rng : List ℤ) (h : ¬ stops.isEmpty = true) (i : ℕ)
    (hi : i < (stopDays stops).length) :
    ∃ r : List ℤ,
      (generate_eld_logs geo stops odo rng).1.getD i dummySheet =
        (addPresentation (((dayResultsOf geo stops odo rng).1.getD i dummyResult).sheet) r).1 := by
  rw [generate_eld_logs_eq geo stops odo rng h]
  have hlen : i < ((dayResultsOf geo stops odo rng).1.map (fun r => r.sheet)).length := by
    simpa [dayResults_length] using hi
  obtain ⟨r, hr⟩ := addPresentationAll_getD
    ((dayResultsOf geo stops odo rng).1.map (fun r => r.sheet))
    (dayResultsOf geo stops odo rng).2.2 i hlen
  refine ⟨r, ?_⟩
  rw [hr]
  congr 1
  have hlen2 : i < (dayResultsOf geo stops odo rng).1.length := by
    simpa [dayResults_length] using hi
  rw [List.getD_eq_getElem _ _ hlen, List.getD_eq_getElem _ _ hlen2]
  simp


theorem sheet_spec (geo : List ℚ → String) (stops : List Stop)
    (odo : Option ℤ) (rng : List ℤ) (h : ¬ stops.isEmpty = true) (i : ℕ)
    (hi : i < (stopDays stops).length) :
    ((generate_eld_logs geo stops odo rng).1.getD i dummySheet).startOdometer =
      (((dayResultsOf geo stops odo rng).1.getD i dummyResult).sheet).startOdometer ∧
    ((generate_eld_logs geo stops odo rng).1.getD i dummySheet).endOdometer =
      (((dayResultsOf geo stops odo rng).1.getD i dummyResult).sheet).endOdometer ∧
    ((generate_eld_logs geo stops odo rng).1.getD i dummySheet).endOdometer -
      ((generate_eld_logs geo stops odo rng).1.getD i dummySheet).startOdometer =
      ((dayGaps (dayStopsOf stops ((stopDays stops).getD i 0))).map
        (fun g => pyRound (g * 60))).sum ∧
    ((generate_eld_logs geo stops odo rng).1.getD i dummySheet).totalMiles =
      pyRound (((dayGaps (dayStopsOf stops ((stopDays stops).getD i 0))).map
        (fun g => g * 60)).sum) ∧
    ((dayResultsOf geo stops odo rng).1.getD i dummyResult).drivingHours =
      (dayGaps (dayStopsOf stops ((stopDays stops).getD i 0))).sum ∧
    ((dayResultsOf geo stops odo rng).1.getD i dummyResult).onDutyHours =
      (dayGaps (dayStopsOf stops ((stopDays stops).getD i 0))).sum ∧
    ((generate_eld_logs geo stops odo rng).1.getD i dummySheet).totalHours =
      (dayGaps (dayStopsOf stops ((stopDays stops).getD i 0))).sum ∧
    ((generate_eld_logs geo stops odo rng).1.getD i dummySheet).violations =
      (if (dayGaps (dayStopsOf stops ((stopDays stops).getD i 0))).sum >
          MAX_DRIVING_HOURS then
        [(⟨"driving-limit",
           "Exceeded 11-hour driving limit (" ++
             fmt1 ((dayGaps (dayStopsOf stops ((stopDays stops).getD i 0))).sum) ++
             " hours)"⟩ : Violation)]
       else []) ++
      (if (dayGaps (dayStopsOf stops ((stopDays stops).getD i 0))).sum >
          MAX_ON_DUTY_HOURS then
        [(⟨"on-duty-limit",
           "Exceeded 14-hour on-duty limit (" ++
             fmt1 ((dayGaps (dayStopsOf stops ((stopDays stops).getD i 0))).sum) ++
             " hours)"⟩ : Violation)]
       else []) := by
  obtain ⟨r, hsheet⟩ := sheets_getD geo stops odo rng h i hi
  obtain ⟨o, r2, hres⟩ := dayResults_getD geo stops odo rng i hi
  have hpres := addPresentation_fields
    (((dayResultsOf geo stops odo rng).1.getD i dummyResult).sheet) r
  have hpd := processDay_fields geo (i == 0) (i == (stopDays stops).length - 1)
    ((stopDays stops).getD i 0) (dayStopsOf stops ((stopDays stops).getD i 0)) o r2
  rw [hsheet]
  rw [hpres.1, hpres.2.1, hpres.2.2.1, hpres.2.2.2.1, hpres.2.2.2.2.1]
  rw [hres]
  rw [hpd.1, hpd.2.1, hpd.2.2.1, hpd.2.2.2.1, hpd.2.2.2.2.1, hpd.2.2.2.2.2.1,
    hpd.2.2.2.2.2.2.2]
  refine ⟨rfl, rfl, by ring, rfl, rfl, rfl, rfl, rfl⟩

/-- C1 counterexample: on a day with two qualifying driving gaps of 0.34 h
(20.4 mi each), the odometer advances by `round(20.4) + round(20.4) = 40`
while `totalMiles = round(40.8) = 41`, so `endOdometer − startOdometer`
differs from `totalMiles` on the generated sheet. -/
theorem odometer_total_miles_mismatch :
    ((generate_eld_logs geoConst stopsOdoCx (some 100) []).1.getD 0 dummySheet).endOdometer -
      ((generate_eld_logs geoConst stopsOdoCx (some 100) []).1.getD 0 dummySheet).startOdometer
      = 40 ∧
    ((generate_eld_logs geoConst stopsOdoCx (some 100) []).1.getD 0 dummySheet).totalMiles
      = 41 ∧
    ¬ (((generate_eld_logs geoConst stopsOdoCx (some 100) []).1.getD 0 dummySheet).endOdometer -
        ((generate_eld_logs geoConst stopsOdoCx (some 100) []).1.getD 0 dummySheet).startOdometer =
      ((generate_eld_logs geoConst stopsOdoCx (some 100) []).1.getD 0 dummySheet).totalMiles) := by
  refine ⟨?_, ?_, ?_⟩
  · with_unfolding_all decide
  · with_unfolding_all decide
  · with_unfolding_all decide

/-- C1 (amended): consecutive sheets chain the odometer (day N's
`startOdometer` equals day N−1's `endOdometer`), and each sheet satisfies
`endOdometer − startOdometer =` sum of the per-segment rounded mileages while
`totalMiles =` round of the unrounded day total; the two sides differ when
segment rounding and total rounding disagree. -/
theorem odometer_invariant (geo : List ℚ → String) (stops : List Stop)
    (odo : Option ℤ) (rng : List ℤ) :
    (∀ i : ℕ, i + 1 < (generate_eld_logs geo stops odo rng).1.length →
      ((generate_eld_logs geo stops odo rng).1.getD (i+1) dummySheet).startOdometer =
        ((generate_eld_logs geo stops odo rng).1.getD i dummySheet).endOdometer) ∧
    (∀ i : ℕ, i < (generate_eld_logs geo stops odo rng).1.length →
      ((generate_eld_logs geo stops odo rng).1.getD i dummySheet).endOdometer -
        ((generate_eld_logs geo stops odo rng).1.getD i dummySheet).startOdometer =
        ((dayGaps (dayStopsOf stops ((stopDays stops).getD i 0))).map
          (fun g => pyRound (g * 60))).sum ∧
      ((generate_eld_logs geo stops odo rng).1.getD i dummySheet).totalMiles =
        pyRound (((dayGaps (dayStopsOf stops ((stopDays stops).getD i 0))).map
          (fun g => g * 60)).sum)) := by
  by_cases h : stops.isEmpty = true
  · have hempty : (generate_eld_logs geo stops odo rng).1 = [] := by
      rw [List.isEmpty_iff] at h
      subst h
      rfl
    rw [hempty]
    constructor
    · intro i hi; simp at hi
    · intro i hi; simp at hi
  · constructor
    · intro i hi
      have hlen := sheets_length geo stops odo rng h
      have hi1 : i + 1 < (stopDays stops).length := by omega
      have hi0 : i < (stopDays stops).length := by omega
      have hs1 := sheet_spec geo stops odo rng h (i+1) hi1
      have hs0 := sheet_spec geo stops odo rng h i hi0
      rw [hs1.1, hs0.2.1]
      have hchain := dayResults_chain geo stops odo rng (i+1) hi1 (Nat.succ_ne_zero i)
      simpa using hchain
    · intro i hi
      have hlen := sheets_length geo stops odo rng h
      have hi0 : i < (stopDays stops).length := by omega
      have hs := sheet_spec geo stops odo rng h i hi0
      exact ⟨hs.2.2.1, hs.2.2.2.1⟩

/-- Witness for `odometer_invariant` at a concrete two-day input. -/
theorem odometer_invariant_witness :
    (∀ i : ℕ, i + 1 < (generate_eld_logs geoConst stopsOdoCx (some 100) []).1.length →
      ((generate_eld_logs geoConst stopsOdoCx (some 100) []).1.getD (i+1)
        dummySheet).startOdometer =
        ((generate_eld_logs geoConst stopsOdoCx (some 100) []).1.getD i
          dummySheet).endOdometer) ∧
    (∀ i : ℕ, i < (generate_eld_logs geoConst stopsOdoCx (some 100) []).1.length →
      ((generate_eld_logs geoConst stopsOdoCx (some 100) []).1.getD i
        dummySheet).endOdometer -
        ((generate_eld_logs geoConst stopsOdoCx (some 100) []).1.getD i
          dummySheet).startOdometer =
        ((dayGaps (dayStopsOf stopsOdoCx ((stopDays stopsOdoCx).getD i 0))).map
          (fun g => pyRound (g * 60))).sum ∧
      ((generate_eld_logs geoConst stopsOdoCx (some 100) []).1.getD i
        dummySheet).totalMiles =
        pyRound (((dayGaps (dayStopsOf stopsOdoCx ((stopDays stopsOdoCx).getD i 0))).map
          (fun g => g * 60)).sum)) :=
  odometer_invariant geoConst stopsOdoCx (some 100) []

/-- C5: a generated sheet's violations list contains a driving-limit entry
iff the day's accumulated driving hours exceed 11, and an on-duty-limit entry
iff the accumulated on-duty hours exceed 14; each description carries the hour
total formatted to one decimal. -/
theorem violations_iff (geo : List ℚ → String) (stops : List Stop)
    (odo : Option ℤ) (rng : List ℤ) :
    ∀ i : ℕ, i < (generate_eld_logs geo stops odo rng).1.length →
      ((∃ v ∈ ((generate_eld_logs geo stops odo rng).1.getD i dummySheet).violations,
          v.vtype = "driving-limit") ↔
        ((dayResultsOf geo stops odo rng).1.getD i dummyResult).drivingHours >
          MAX_DRIVING_HOURS) ∧
      ((∃ v ∈ ((generate_eld_logs geo stops odo rng).1.getD i dummySheet).violations,
          v.vtype = "on-duty-limit") ↔
        ((dayResultsOf geo stops odo rng).1.getD i dummyResult).onDutyHours >
          MAX_ON_DUTY_HOURS) ∧
      (∀ v ∈ ((generate_eld_logs geo stops odo rng).1.getD i dummySheet).violations,
        (v.vtype = "driving-limit" →
          v.description = "Exceeded 11-hour driving limit (" ++
            fmt1 (((dayResultsOf geo stops odo rng).1.getD i dummyResult).drivingHours) ++
            " hours)") ∧
        (v.vtype = "on-duty-limit" →
          v.description = "Exceeded 14-hour on-duty limit (" ++
            fmt1 (((dayResultsOf geo stops odo rng).1.getD i dummyResult).onDutyHours) ++
            " hours)")) := by
  intro i hi
  by_cases h : stops.isEmpty = true
  · exfalso
    rw [List.isEmpty_iff] at h
    subst h
    simp [generate_eld_logs] at hi
  · have hlen := sheets_length geo stops odo rng h
    have hi0 : i < (stopDays stops).length := by omega
    have hs := sheet_spec geo stops odo rng h i hi0
    rw [hs.2.2.2.2.2.2.2, hs.2.2.2.2.1, hs.2.2.2.2.2.1]
    by_cases h1 : (dayGaps (dayStopsOf stops ((stopDays stops).getD i 0))).sum >
        MAX_DRIVING_HOURS
    · by_cases h2 : (dayGaps (dayStopsOf stops ((stopDays stops).getD i 0))).sum >
          MAX_ON_DUTY_HOURS
      · rw [if_pos h1, if_pos h2]
        refine ⟨⟨fun _ => h1,
            fun _ => ⟨_, List.mem_append_left _ (List.mem_singleton_self _), rfl⟩⟩,
          ⟨fun _ => h2,
            fun _ => ⟨_, List.mem_append_right _ (List.mem_singleton_self _), rfl⟩⟩, ?_⟩
        intro v hv
        simp only [List.cons_append, List.nil_append, List.mem_cons,
          List.not_mem_nil, or_false] at hv
        rcases hv with hv | hv
        · subst hv
          exact ⟨fun _ => rfl, fun habs =>
            absurd (show ("driving-limit" : String) = "on-duty-limit" from habs)
              (by decide)⟩
        · subst hv
          exact ⟨fun habs =>
            absurd (show ("on-duty-limit" : String) = "driving-limit" from habs)
              (by decide), fun _ => rfl⟩
      · rw [if_pos h1, if_neg h2]
        refine ⟨⟨fun _ => h1,
            fun _ => ⟨_, List.mem_append_left _ (List.mem_singleton_self _), rfl⟩⟩,
          ⟨?_, fun habs => absurd habs h2⟩, ?_⟩
        · intro ⟨v, hv, hvt⟩
          simp only [List.append_nil, List.mem_singleton] at hv
          subst hv
          exact absurd (show ("driving-limit" : String) = "on-duty-limit" from hvt)
            (by decide)
        · intro v hv
          simp only [List.append_nil, List.mem_singleton] at hv
          subst hv
          exact ⟨fun _ => rfl, fun habs =>
            absurd (show ("driving-limit" : String) = "on-duty-limit" from habs)
              (by decide)⟩
    · by_cases h2 : (dayGaps (dayStopsOf stops ((stopDays stops).getD i 0))).sum >
          MAX_ON_DUTY_HOURS
      · rw [if_neg h1, if_pos h2]
        refine ⟨⟨?_, fun habs => absurd habs h1⟩,
          ⟨fun _ => h2,
            fun _ => ⟨_, List.mem_append_right _ (List.mem_singleton_self _), rfl⟩⟩, ?_⟩
        · intro ⟨v, hv, hvt⟩
          simp only [List.nil_append, List.mem_singleton] at hv
          subst hv
          exact absurd (show ("on-duty-limit" : String) = "driving-limit" from hvt)
            (by decide)
        · intro v hv
          simp only [List.nil_append, List.mem_singleton] at hv
          subst hv
          exact ⟨fun habs =>
            absurd (show ("on-duty-limit" : String) = "driving-limit" from habs)
              (by decide), fun _ => rfl⟩
      · rw [if_neg h1, if_neg h2]
        refine ⟨⟨?_, fun habs => absurd habs h1⟩, ⟨?_, fun habs => absurd habs h2⟩, ?_⟩
        · intro ⟨v, hv, _⟩
          simp at hv
        · intro ⟨v, hv, _⟩
          simp at hv
        · intro v hv
          simp at hv

/-- Witness for `violations_iff`: a single-day input with 10 driving hours has
no violations. -/
theorem violations_iff_witness :
    (∃ v ∈ ((generate_eld_logs geoConst stopsEodCx (some 0) []).1.getD 0
        dummySheet).violations, v.vtype = "driving-limit") ↔
      ((dayResultsOf geoConst stopsEodCx (some 0) []).1.getD 0
        dummyResult).drivingHours > MAX_DRIVING_HOURS :=
  (violations_iff geoConst stopsEodCx (some 0) [] 0 (by with_unfolding_all decide)).1

/-- C9: the per-day driving-hours and on-duty-hours accumulators are always
equal (the single increment site adds the same gap to both), `totalHours`
equals the driving total, and an on-duty-limit violation can only occur
together with a driving-limit violation. -/
theorem hours_accumulators_equal (geo : List ℚ → String) (stops : List Stop)
    (odo : Option ℤ) (rng : List ℤ) :
    ∀ i : ℕ, i < (generate_eld_logs geo stops odo rng).1.length →
      ((dayResultsOf geo stops odo rng).1.getD i dummyResult).drivingHours =
        ((dayResultsOf geo stops odo rng).1.getD i dummyResult).onDutyHours ∧
      ((generate_eld_logs geo stops odo rng).1.getD i dummySheet).totalHours =
        ((dayResultsOf geo stops odo rng).1.getD i dummyResult).drivingHours ∧
      ((∃ v ∈ ((generate_eld_logs geo stops odo rng).1.getD i dummySheet).violations,
          v.vtype = "on-duty-limit") →
        (∃ v ∈ ((generate_eld_logs geo stops odo rng).1.getD i dummySheet).violations,
          v.vtype = "driving-limit")) := by
  intro i hi
  by_cases h : stops.isEmpty = true
  · exfalso
    rw [List.isEmpty_iff] at h
    subst h
    simp [generate_eld_logs] at hi
  · have hlen := sheets_length geo stops odo rng h
    have hi0 : i < (stopDays stops).length := by omega
    have hs := sheet_spec geo stops odo rng h i hi0
    refine ⟨by rw [hs.2.2.2.2.1, hs.2.2.2.2.2.1], by rw [hs.2.2.2.2.2.2.1, hs.2.2.2.2.1], ?_⟩
    rw [hs.2.2.2.2.2.2.2]
    intro ⟨v, hv, hvt⟩
    by_cases h1 : (dayGaps (dayStopsOf stops ((stopDays stops).getD i 0))).sum >
        MAX_DRIVING_HOURS
    · rw [if_pos h1]
      exact ⟨_, List.mem_append_left _ (List.mem_singleton_self _), rfl⟩
    · exfalso
      rw [if_neg h1] at hv
      by_cases h2 : (dayGaps (dayStopsOf stops ((stopDays stops).getD i 0))).sum >
          MAX_ON_DUTY_HOURS
      · have : (dayGaps (dayStopsOf stops ((stopDays stops).getD i 0))).sum >
            MAX_DRIVING_HOURS := by
          unfold MAX_ON_DUTY_HOURS at h2
          unfold MAX_DRIVING_HOURS
          linarith
        exact h1 this
      · rw [if_neg h2] at hv
        simp at hv

/-- Witness for `hours_accumulators_equal` at a concrete one-day input. -/
theorem hours_accumulators_equal_witness :
    ((dayResultsOf geoConst stopsOdoCx (some 100) []).1.getD 0
        dummyResult).drivingHours =
      ((dayResultsOf geoConst stopsOdoCx (some 100) []).1.getD 0
        dummyResult).onDutyHours :=
  (hours_accumulators_equal geoConst stopsOdoCx (some 100) [] 0
    (by with_unfolding_all decide)).1

theorem processDay_hourData (geo : List ℚ → String) (f l : Bool) (day : ℤ)
    (ds : List Stop) (odo : ℤ) (rng : List ℤ) :
    (processDay geo f l day ds odo rng).1.sheet.hourData =
      List.insertionSort (fun a b => a.hour ≤ b.hour) (dayDuty f l ds odo) := rfl

theorem add_duty_status_hours (l : List DutyStatus) (h : ℚ) (s : String) :
    hoursOf (add_duty_status l h s) = hoursOf l ∨
    hoursOf (add_duty_status l h s) = hoursOf l ++ [h] := by
  induction l with
  | nil => right; rfl
  | cons e rest ih =>
    by_cases hc : |e.hour - h| < 1/1000
    · left
      unfold hoursOf
      simp only [add_duty_status]
      rw [if_pos hc]
      rfl
    · rcases ih with h1 | h1
      · left
        simp only [add_duty_status, if_neg hc, hoursOf, List.map_cons]
        rw [show (add_duty_status rest h s).map (fun e => e.hour) = hoursOf rest from h1]
        rfl
      · right
        simp only [add_duty_status, if_neg hc, hoursOf, List.map_cons]
        rw [show (add_duty_status rest h s).map (fun e => e.hour) = hoursOf rest ++ [h] from h1]
        rfl

theorem add_duty_status_hours_subset (l : List DutyStatus) (h : ℚ) (s : String)
    (x : ℚ) (hx : x ∈ hoursOf l) : x ∈ hoursOf (add_duty_status l h s) := by
  rcases add_duty_status_hours l h s with h1 | h1
  · rw [h1]; exact hx
  · rw [h1]; exact List.mem_append_left _ hx

theorem add_duty_status_mem_hours (l : List DutyStatus) (h : ℚ) (s : String) :
    ∀ b ∈ add_duty_status l h s, b.hour ∈ hoursOf l ∨ b.hour = h := by
  intro b hb
  have : b.hour ∈ hoursOf (add_duty_status l h s) := List.mem_map_of_mem _ hb
  rcases add_duty_status_hours l h s with h1 | h1
  · rw [h1] at this; exact Or.inl this
  · rw [h1] at this
    rcases List.mem_append.mp this with h2 | h2
    · exact Or.inl h2
    · exact Or.inr (List.mem_singleton.mp h2)

theorem add_duty_status_mem_close (l : List DutyStatus) (h : ℚ) (s : String) :
    ∃ b ∈ add_duty_status l h s, |b.hour - h| < 1/1000 := by
  induction l with
  | nil => exact ⟨⟨h, s⟩, List.mem_singleton_self _, by simp⟩
  | cons e rest ih =>
    by_cases hc : |e.hour - h| < 1/1000
    · refine ⟨⟨e.hour, s⟩, ?_, by simpa using hc⟩
      simp only [add_duty_status]
      rw [if_pos hc]
      exact List.mem_cons_self _ _
    · obtain ⟨b, hb, hbc⟩ := ih
      refine ⟨b, ?_, hbc⟩
      simp only [add_duty_status]
      rw [if_neg hc]
      exact List.mem_cons_of_mem _ hb

theorem hourSeparated_add (l : List DutyStatus) (h : ℚ) (s : String)
    (hl : hourSeparated l) : hourSeparated (add_duty_status l h s) := by
  induction l with
  | nil => simp [add_duty_status, hourSeparated]
  | cons e rest ih =>
    rcases List.pairwise_cons.mp hl with ⟨he, hrest⟩
    by_cases hc : |e.hour - h| < 1/1000
    · unfold hourSeparated
      simp only [add_duty_status, if_pos hc]
      exact List.pairwise_cons.mpr ⟨fun b hb => he b hb, hrest⟩
    · unfold hourSeparated
      simp only [add_duty_status, if_neg hc]
      refine List.pairwise_cons.mpr ⟨?_, ih hrest⟩
      intro b hb
      rcases add_duty_status_mem_hours rest h s b hb with hmem | heq
      · obtain ⟨b2, hb2, hb2h⟩ := List.mem_map.mp hmem
        have := he b2 hb2
        rw [hb2h] at this
        exact this
      · rw [heq]
        rw [abs_sub_lt_iff] at hc
        push_neg at hc
        rcases le_or_lt (1/1000) (e.hour - h) with hle | hlt
        · calc (1/1000 : ℚ) ≤ e.hour - h := hle
            _ ≤ |e.hour - h| := le_abs_self _
        · have := hc hlt
          calc (1/1000 : ℚ) ≤ h - e.hour := this
            _ = -(e.hour - h) := by ring
            _ ≤ |e.hour - h| := neg_le_abs _

theorem dutyWellFormed_add (l : List DutyStatus) (h : ℚ) (s : String)
    (hl : dutyWellFormed l) (hh : 0 ≤ h ∧ h < 24) :
    dutyWellFormed (add_duty_status l h s) := by
  refine ⟨hourSeparated_add l h s hl.1, ?_⟩
  intro b hb
  rcases add_duty_status_mem_hours l h s b hb with hmem | heq
  · obtain ⟨b2, hb2, hb2h⟩ := List.mem_map.mp hmem
    rw [← hb2h]
    exact hl.2 b2 hb2
  · rw [heq]; exact hh

theorem seedStop_wf (acc : List DutyStatus × List Remark) (stop : Stop)
    (h : dutyWellFormed acc.1) : dutyWellFormed (seedStop acc stop).1 := by
  rcases acc with ⟨duty, rem⟩
  unfold seedStop
  dsimp only
  split_ifs <;>
    first
      | exact h
      | exact dutyWellFormed_add _ _ _ h ⟨hmOf_nonneg _, hmOf_lt _⟩

theorem seedStop_subset (acc : List DutyStatus × List Remark) (stop : Stop)
    (x : ℚ) (hx : x ∈ hoursOf acc.1) : x ∈ hoursOf (seedStop acc stop).1 := by
  rcases acc with ⟨duty, rem⟩
  unfold seedStop
  dsimp only
  split_ifs <;>
    first
      | exact hx
      | exact add_duty_status_hours_subset _ _ _ _ hx

theorem foldl_seedStop_wf (stops : List Stop) :
    ∀ acc : List DutyStatus × List Remark, dutyWellFormed acc.1 →
      dutyWellFormed (stops.foldl seedStop acc).1 := by
  induction stops with
  | nil => intro acc h; exact h
  | cons s rest ih =>
    intro acc h
    exact ih (seedStop acc s) (seedStop_wf acc s h)

theorem foldl_seedStop_subset (stops : List Stop) :
    ∀ (acc : List DutyStatus × List Remark) (x : ℚ), x ∈ hoursOf acc.1 →
      x ∈ hoursOf (stops.foldl seedStop acc).1 := by
  induction stops with
  | nil => intro acc x hx; exact hx
  | cons s rest ih =>
    intro acc x hx
    exact ih (seedStop acc s) x (seedStop_subset acc s x hx)

theorem ensureEarlyMorning_wf (fd : Bool) (duty : List DutyStatus)
    (rem : List Remark) (h : dutyWellFormed duty) :
    dutyWellFormed (ensureEarlyMorning fd duty rem).1 := by
  unfold ensureEarlyMorning
  dsimp only
  split_ifs <;>
    first
      | exact h
      | exact dutyWellFormed_add _ _ _ h (by norm_num)

theorem ensureEarlyMorning_subset (fd : Bool) (duty : List DutyStatus)
    (rem : List Remark) (x : ℚ) (hx : x ∈ hoursOf duty) :
    x ∈ hoursOf (ensureEarlyMorning fd duty rem).1 := by
  unfold ensureEarlyMorning
  dsimp only
  split_ifs <;>
    first
      | exact hx
      | exact add_duty_status_hours_subset _ _ _ _ hx

theorem ensureEarlyMorning_zero (fd : Bool) (duty : List DutyStatus)
    (rem : List Remark) :
    ∃ b ∈ (ensureEarlyMorning fd duty rem).1, |b.hour| < 1/100 := by
  have hadd : ∀ (l : List DutyStatus) (s : String),
      ∃ b ∈ add_duty_status l 0 s, |b.hour| < 1/100 := by
    intro l s
    obtain ⟨b, hb, hbc⟩ := add_duty_status_mem_close l 0 s
    refine ⟨b, hb, ?_⟩
    rw [sub_zero] at hbc
    linarith
  unfold ensureEarlyMorning
  dsimp only
  split_ifs with h1 h2 h3
  · exact hadd duty "off-duty"
  · exact hadd duty "sleeper-berth"
  · obtain ⟨b, hb⟩ := List.any_eq_true.mp h3
    exact ⟨b, hb.1, by simpa using hb.2⟩
  · exact hadd duty "off-duty"
  · exact hadd duty "sleeper-berth"

theorem ensureRestEnd_wf (duty : List DutyStatus) (rem : List Remark)
    (h : dutyWellFormed duty) : dutyWellFormed (ensureRestEnd duty rem).1 := by
  unfold ensureRestEnd
  split_ifs <;>
    first
      | exact h
      | exact dutyWellFormed_add _ _ _ h (by unfold SLEEPER_END_HOUR; norm_num)

theorem ensureRestEnd_subset (duty : List DutyStatus) (rem : List Remark)
    (x : ℚ) (hx : x ∈ hoursOf duty) : x ∈ hoursOf (ensureRestEnd duty rem).1 := by
  unfold ensureRestEnd
  split_ifs <;>
    first
      | exact hx
      | exact add_duty_status_hours_subset _ _ _ _ hx

theorem morningPattern_wf (fd : Bool) (fh : ℚ) (duty : List DutyStatus)
    (rem : List Remark) (h : dutyWellFormed duty) (hfh : 0 ≤ fh ∧ fh < 24) :
    dutyWellFormed (morningPattern fd fh duty rem).1 := by
  have hpre : (0 : ℚ) ≤ PRE_TRIP_START_HOUR ∧ PRE_TRIP_START_HOUR < 24 := by
    unfold PRE_TRIP_START_HOUR; norm_num
  have hdrv : (0 : ℚ) ≤ DRIVING_START_HOUR ∧ DRIVING_START_HOUR < 24 := by
    unfold DRIVING_START_HOUR; norm_num
  have hmin : (0 : ℚ) ≤ min (fh + 1/2) (239/10) ∧ min (fh + 1/2) (239/10) < 24 := by
    constructor
    · apply le_min
      · linarith [hfh.1]
      · norm_num
    · calc min (fh + 1/2) (239/10) ≤ 239/10 := min_le_right _ _
        _ < 24 := by norm_num
  unfold morningPattern
  dsimp only
  split_ifs
  · exact dutyWellFormed_add _ _ _ (dutyWellFormed_add _ _ _ h hpre) hdrv
  · exact dutyWellFormed_add _ _ _ (dutyWellFormed_add _ _ _ h hfh) hmin
  · exact dutyWellFormed_add _ _ _ (dutyWellFormed_add _ _ _ h hpre) hdrv

theorem morningPattern_subset (fd : Bool) (fh : ℚ) (duty : List DutyStatus)
    (rem : List Remark) (x : ℚ) (hx : x ∈ hoursOf duty) :
    x ∈ hoursOf (morningPattern fd fh duty rem).1 := by
  unfold morningPattern
  dsimp only
  split_ifs <;>
    exact add_duty_status_hours_subset _ _ _ _ (add_duty_status_hours_subset _ _ _ _ hx)

theorem dayLoopStep_duty_wf (st : DayLoopState) (stop : Stop) (next : Option Stop)
    (h : dutyWellFormed st.duty) : dutyWellFormed (dayLoopStep st stop next).duty := by
  cases next with
  | none =>
    unfold dayLoopStep
    dsimp only
    split_ifs <;>
      first
        | exact h
        | exact dutyWellFormed_add _ _ _ h ⟨hmOf_nonneg _, hmOf_lt _⟩
  | some n =>
    unfold dayLoopStep
    dsimp only
    split_ifs <;>
      first
        | exact h
        | exact dutyWellFormed_add _ _ _ h ⟨hmOf_nonneg _, hmOf_lt _⟩
        | exact dutyWellFormed_add _ _ _
            (dutyWellFormed_add _ _ _ h ⟨hmOf_nonneg _, hmOf_lt _⟩)
            ⟨hmOf_nonneg _, hmOf_lt _⟩

theorem dayLoopStep_duty_subset (st : DayLoopState) (stop : Stop)
    (next : Option Stop) (x : ℚ) (hx : x ∈ hoursOf st.duty) :
    x ∈ hoursOf (dayLoopStep st stop next).duty := by
  cases next with
  | none =>
    unfold dayLoopStep
    dsimp only
    split_ifs <;>
      first
        | exact hx
        | exact add_duty_status_hours_subset _ _ _ _ hx
  | some n =>
    unfold dayLoopStep
    dsimp only
    split_ifs <;>
      first
        | exact hx
        | exact add_duty_status_hours_subset _ _ _ _ hx
        | exact add_duty_status_hours_subset _ _ _ _
            (add_duty_status_hours_subset _ _ _ _ hx)

theorem dayLoop_duty_wf (stops : List Stop) :
    ∀ st : DayLoopState, dutyWellFormed st.duty →
      dutyWellFormed (dayLoop st stops).duty := by
  induction stops with
  | nil => intro st h; exact h
  | cons s rest ih =>
    cases rest with
    | nil => intro st h; exact dayLoopStep_duty_wf st s none h
    | cons n rest2 =>
      intro st h
      exact ih (dayLoopStep st s (some n)) (dayLoopStep_duty_wf st s (some n) h)

theorem dayLoop_duty_subset (stops : List Stop) :
    ∀ (st : DayLoopState) (x : ℚ), x ∈ hoursOf st.duty →
      x ∈ hoursOf (dayLoop st stops).duty := by
  induction stops with
  | nil => intro st x hx; exact hx
  | cons s rest ih =>
    cases rest with
    | nil => intro st x hx; exact dayLoopStep_duty_subset st s none x hx
    | cons n rest2 =>
      intro st x hx
      exact ih (dayLoopStep st s (some n)) x (dayLoopStep_duty_subset st s (some n) x hx)

theorem endOfDayPattern_wf (early lastDay : Bool) (duty : List DutyStatus)
    (rem : List Remark) (h : dutyWellFormed duty) :
    dutyWellFormed (endOfDayPattern early lastDay duty rem).1 := by
  unfold endOfDayPattern
  dsimp only
  split_ifs <;>
    (repeat'
      first
        | exact h
        | apply dutyWellFormed_add) <;>
    norm_num [DRIVING_END_HOUR, SLEEPER_START_HOUR]

theorem endOfDayPattern_subset (early lastDay : Bool) (duty : List DutyStatus)
    (rem : List Remark) (x : ℚ) (hx : x ∈ hoursOf duty) :
    x ∈ hoursOf (endOfDayPattern early lastDay duty rem).1 := by
  unfold endOfDayPattern
  dsimp only
  split_ifs <;>
    (repeat'
      first
        | exact hx
        | apply add_duty_status_hours_subset)

theorem dayDuty_wf (f l : Bool) (ds : List Stop) (odo : ℤ) :
    dutyWellFormed (dayDuty f l ds odo) := by
  unfold dayDuty
  refine endOfDayPattern_wf _ _ _ _ ?_
  refine dayLoop_duty_wf ds _ ?_
  refine morningPattern_wf _ _ _ _ ?_ ⟨hmOf_nonneg _, hmOf_lt _⟩
  refine ensureRestEnd_wf _ _ ?_
  refine ensureEarlyMorning_wf _ _ _ ?_
  refine foldl_seedStop_wf ds _ ?_
  exact ⟨List.Pairwise.nil, by simp⟩

theorem dayDuty_zero (f l : Bool) (ds : List Stop) (odo : ℤ) :
    ∃ b ∈ dayDuty f l ds odo, |b.hour| < 1/100 := by
  unfold dayDuty
  obtain ⟨b, hb, hbc⟩ := ensureEarlyMorning_zero f (ds.foldl seedStop ([], [])).1 (ds.foldl seedStop ([], [])).2
  have hx0 : b.hour ∈ hoursOf (ensureEarlyMorning f (ds.foldl seedStop ([], [])).1 (ds.foldl seedStop ([], [])).2).1 :=
    List.mem_map_of_mem _ hb
  have hx1 := ensureRestEnd_subset (ensureEarlyMorning f (ds.foldl seedStop ([], [])).1 (ds.foldl seedStop ([], [])).2).1 (ensureEarlyMorning f (ds.foldl seedStop ([], [])).1 (ds.foldl seedStop ([], [])).2).2 b.hour hx0
  have hx2 := morningPattern_subset f
    (hmOf (ds.headD dummyStop).estimatedArrival) (ensureRestEnd (ensureEarlyMorning f (ds.foldl seedStop ([], [])).1 (ds.foldl seedStop ([], [])).2).1 (ensureEarlyMorning f (ds.foldl seedStop ([], [])).1 (ds.foldl seedStop ([], [])).2).2).1 (ensureRestEnd (ensureEarlyMorning f (ds.foldl seedStop ([], [])).1 (ds.foldl seedStop ([], [])).2).1 (ensureEarlyMorning f (ds.foldl seedStop ([], [])).1 (ds.foldl seedStop ([], [])).2).2).2 b.hour hx1
  have hx3 := dayLoop_duty_subset ds ⟨(morningPattern f (hmOf (ds.headD dummyStop).estimatedArrival) (ensureRestEnd (ensureEarlyMorning f (ds.foldl seedStop ([], [])).1 (ds.foldl seedStop ([], [])).2).1 (ensureEarlyMorning f (ds.foldl seedStop ([], [])).1 (ds.foldl seedStop ([], [])).2).2).1 (ensureRestEnd (ensureEarlyMorning f (ds.foldl seedStop ([], [])).1 (ds.foldl seedStop ([], [])).2).1 (ensureEarlyMorning f (ds.foldl seedStop ([], [])).1 (ds.foldl seedStop ([], [])).2).2).2).1, (morningPattern f (hmOf (ds.headD dummyStop).estimatedArrival) (ensureRestEnd (ensureEarlyMorning f (ds.foldl seedStop ([], [])).1 (ds.foldl seedStop ([], [])).2).1 (ensureEarlyMorning f (ds.foldl seedStop ([], [])).1 (ds.foldl seedStop ([], [])).2).2).1 (ensureRestEnd (ensureEarlyMorning f (ds.foldl seedStop ([], [])).1 (ds.foldl seedStop ([], [])).2).1 (ensureEarlyMorning f (ds.foldl seedStop ([], [])).1 (ds.foldl seedStop ([], [])).2).2).2).2, "driving", odo, 0, 0, 0⟩ b.hour hx2
  have hx4 := endOfDayPattern_subset (isEarlyCompletion l ds) l
    (dayLoop ⟨(morningPattern f (hmOf (ds.headD dummyStop).estimatedArrival) (ensureRestEnd (ensureEarlyMorning f (ds.foldl seedStop ([], [])).1 (ds.foldl seedStop ([], [])).2).1 (ensureEarlyMorning f (ds.foldl seedStop ([], [])).1 (ds.foldl seedStop ([], [])).2).2).1 (ensureRestEnd (ensureEarlyMorning f (ds.foldl seedStop ([], [])).1 (ds.foldl seedStop ([], [])).2).1 (ensureEarlyMorning f (ds.foldl seedStop ([], [])).1 (ds.foldl seedStop ([], [])).2).2).2).1, (morningPattern f (hmOf (ds.headD dummyStop).estimatedArrival) (ensureRestEnd (ensureEarlyMorning f (ds.foldl seedStop ([], [])).1 (ds.foldl seedStop ([], [])).2).1 (ensureEarlyMorning f (ds.foldl seedStop ([], [])).1 (ds.foldl seedStop ([], [])).2).2).1 (ensureRestEnd (ensureEarlyMorning f (ds.foldl seedStop ([], [])).1 (ds.foldl seedStop ([], [])).2).1 (ensureEarlyMorning f (ds.foldl seedStop ([], [])).1 (ds.foldl seedStop ([], [])).2).2).2).2, "driving", odo, 0, 0, 0⟩ ds).duty (dayLoop ⟨(morningPattern f (hmOf (ds.headD dummyStop).estimatedArrival) (ensureRestEnd (ensureEarlyMorning f (ds.foldl seedStop ([], [])).1 (ds.foldl seedStop ([], [])).2).1 (ensureEarlyMorning f (ds.foldl seedStop ([], [])).1 (ds.foldl seedStop ([], [])).2).2).1 (ensureRestEnd (ensureEarlyMorning f (ds.foldl seedStop ([], [])).1 (ds.foldl seedStop ([], [])).2).1 (ensureEarlyMorning f (ds.foldl seedStop ([], [])).1 (ds.foldl seedStop ([], [])).2).2).2).1, (morningPattern f (hmOf (ds.headD dummyStop).estimatedArrival) (ensureRestEnd (ensureEarlyMorning f (ds.foldl seedStop ([], [])).1 (ds.foldl seedStop ([], [])).2).1 (ensureEarlyMorning f (ds.foldl seedStop ([], [])).1 (ds.foldl seedStop ([], [])).2).2).1 (ensureRestEnd (ensureEarlyMorning f (ds.foldl seedStop ([], [])).1 (ds.foldl seedStop ([], [])).2).1 (ensureEarlyMorning f (ds.foldl seedStop ([], [])).1 (ds.foldl seedStop ([], [])).2).2).2).2, "driving", odo, 0, 0, 0⟩ ds).rem b.hour hx3
  obtain ⟨b2, hb2, hb2h⟩ := List.mem_map.mp hx4
  refine ⟨b2, hb2, ?_⟩
  rw [hb2h]
  exact hbc

theorem sheet_hourData (geo : List ℚ → String) (stops : List Stop)
    (odo : Option ℤ) (rng : List ℤ) (h : ¬ stops.isEmpty = true) (i : ℕ)
    (hi : i < (stopDays stops).length) :
    ∃ o : ℤ,
      ((generate_eld_logs geo stops odo rng).1.getD i dummySheet).hourData =
        List.insertionSort (fun a b => a.hour ≤ b.hour)
          (dayDuty (i == 0) (i == (stopDays stops).length - 1)
            (dayStopsOf stops ((stopDays stops).getD i 0)) o) := by
  obtain ⟨r, hsheet⟩ := sheets_getD geo stops odo rng h i hi
  obtain ⟨o, r2, hres⟩ := dayResults_getD geo stops odo rng i hi
  refine ⟨o, ?_⟩
  rw [hsheet]
  rw [(addPresentation_fields _ r).2.2.2.2.2.1]
  rw [hres]
  rw [processDay_hourData]

/-- C4: for every generated DailyLogSheet, the emitted `hourData` contains an
entry within 0.01 of hour 0.0, any two entries' hours differ by at least the
0.001 write tolerance (a write at an existing hour overwrites that entry's
status instead of appending), every hour lies in `[0, 24)`, and the list is
sorted ascending by hour — so the intervals it induces cover `[0, 24)` with
no gaps or overlaps. -/
theorem hourData_coverage (geo : List ℚ → String) (stops : List Stop)
    (odo : Option ℤ) (rng : List ℤ) :
    ∀ i : ℕ, i < (generate_eld_logs geo stops odo rng).1.length →
      (∃ e ∈ ((generate_eld_logs geo stops odo rng).1.getD i dummySheet).hourData,
        |e.hour| < 1/100) ∧
      ((generate_eld_logs geo stops odo rng).1.getD i dummySheet).hourData.Pairwise
        (fun a b => 1/1000 ≤ |a.hour - b.hour|) ∧
      (∀ e ∈ ((generate_eld_logs geo stops odo rng).1.getD i dummySheet).hourData,
        0 ≤ e.hour ∧ e.hour < 24) ∧
      ((generate_eld_logs geo stops odo rng).1.getD i dummySheet).hourData.Sorted
        (fun a b => a.hour ≤ b.hour) := by
  intro i hi
  by_cases h : stops.isEmpty = true
  · exfalso
    rw [List.isEmpty_iff] at h
    subst h
    simp [generate_eld_logs] at hi
  · have hlen := sheets_length geo stops odo rng h
    have hi0 : i < (stopDays stops).length := by omega
    obtain ⟨o, hd⟩ := sheet_hourData geo stops odo rng h i hi0
    rw [hd]
    have hperm := List.perm_insertionSort (fun a b : DutyStatus => a.hour ≤ b.hour)
      (dayDuty (i == 0) (i == (stopDays stops).length - 1)
        (dayStopsOf stops ((stopDays stops).getD i 0)) o)
    have hwf := dayDuty_wf (i == 0) (i == (stopDays stops).length - 1)
      (dayStopsOf stops ((stopDays stops).getD i 0)) o
    refine ⟨?_, ?_, ?_, ?_⟩
    · obtain ⟨b, hb, hbc⟩ := dayDuty_zero (i == 0) (i == (stopDays stops).length - 1)
        (dayStopsOf stops ((stopDays stops).getD i 0)) o
      exact ⟨b, hperm.mem_iff.mpr hb, hbc⟩
    · have hsymm : ∀ {x y : DutyStatus},
          1/1000 ≤ |x.hour - y.hour| → 1/1000 ≤ |y.hour - x.hour| := by
        intro x y hxy
        rw [abs_sub_comm]
        exact hxy
      exact (List.Perm.pairwise_iff hsymm hperm).mpr hwf.1
    · intro e he
      exact hwf.2 e (hperm.mem_iff.mp he)
    · haveI : IsTotal DutyStatus (fun a b => a.hour ≤ b.hour) :=
        ⟨fun a b => le_total a.hour b.hour⟩
      haveI : IsTrans DutyStatus (fun a b => a.hour ≤ b.hour) :=
        ⟨fun a b c hab hbc => le_trans hab hbc⟩
      exact List.sorted_insertionSort _ _

/-- Witness for `hourData_coverage` at a concrete one-day input. -/
theorem hourData_coverage_witness :
    ∃ e ∈ ((generate_eld_logs geoConst stopsEodCx (some 0) []).1.getD 0
      dummySheet).hourData, |e.hour| < 1/100 :=
  (hourData_coverage geoConst stopsEodCx (some 0) [] 0
    (by with_unfolding_all decide)).1

theorem hmOf_mul_sixty (t : ℚ) : hmOf t * 60 = (Int.floor (hourOfDay t * 60) : ℚ) := by
  unfold hmOf
  field_simp

theorem hmOf_safe_17 (t : ℚ) (h : hmOf t < 35/2) : 1/60 ≤ |hmOf t - 35/2| := by
  have h1 : (Int.floor (hourOfDay t * 60) : ℚ) < 1050 := by
    have := hmOf_mul_sixty t
    nlinarith [h]
  have h2 : Int.floor (hourOfDay t * 60) < 1050 := by exact_mod_cast h1
  have h3 : Int.floor (hourOfDay t * 60) ≤ 1049 := by omega
  have h4 : (Int.floor (hourOfDay t * 60) : ℚ) ≤ 1049 := by exact_mod_cast h3
  have h5 : hmOf t ≤ 1049/60 := by
    unfold hmOf
    linarith
  rw [abs_sub_comm, abs_of_nonneg (by linarith)]
  linarith

theorem hmOf_lt_of_lt (t : ℚ) (h : hmOf t < 35/2) : hourOfDay t < 35/2 := by
  have h1 : (Int.floor (hourOfDay t * 60) : ℚ) < 1050 := by
    have := hmOf_mul_sixty t
    nlinarith [h]
  have h2 : Int.floor (hourOfDay t * 60) < 1050 := by exact_mod_cast h1
  have h3 : hourOfDay t * 60 < 1050 := by
    by_contra habs
    push_neg at habs
    have : (1050 : ℤ) ≤ Int.floor (hourOfDay t * 60) :=
      Int.le_floor.mpr (by exact_mod_cast habs)
    omega
  linarith

theorem hourOfDay_add_half (t : ℚ) (h : hourOfDay t + 1/2 < 24) :
    hourOfDay (t + 1/2) = hourOfDay t + 1/2 := by
  have hfl : Int.floor ((t + 1/2) / 24) = Int.floor (t / 24) := by
    rw [Int.floor_eq_iff]
    constructor
    · have := Int.floor_le (t / 24)
      have h0 := hourOfDay_nonneg t
      unfold hourOfDay at h0
      nlinarith
    · have h0 := h
      unfold hourOfDay at h0
      nlinarith
  unfold hourOfDay
  rw [hfl]
  ring

theorem hmOf_add_half_lt (t : ℚ) (h : hmOf t < 35/2) : hmOf (t + 1/2) < 18 := by
  have h1 := hmOf_lt_of_lt t h
  have h2 : hourOfDay t + 1/2 < 24 := by linarith
  have h3 := hourOfDay_add_half t h2
  calc hmOf (t + 1/2) ≤ hourOfDay (t + 1/2) := hmOf_le _
    _ = hourOfDay t + 1/2 := h3
    _ < 18 := by linarith

theorem eodClean_nil : eodClean [] := by
  intro e he
  simp at he

theorem eodClean_add (l : List DutyStatus) (h : ℚ) (s : String)
    (hl : eodClean l)
    (hs1 : s = "off-duty" → 1/60 ≤ |h - 35/2|)
    (hs2 : s = "sleeper-berth" → 3/2 ≤ |h - 19|)
    (hs3 : 9/100 ≤ |h - 2399/100|) : eodClean (add_duty_status l h s) := by
  induction l with
  | nil =>
    intro e he
    rw [add_duty_status] at he
    rw [List.mem_singleton] at he
    subst he
    refine ⟨fun hst => ?_, fun hst => ?_, ?_⟩
    · have := hs1 hst; linarith
    · have := hs2 hst; linarith
    · linarith
  | cons a rest ih =>
    intro e he
    rw [add_duty_status] at he
    by_cases hc : |a.hour - h| < 1/1000
    · rw [if_pos hc] at he
      rcases List.mem_cons.mp he with he1 | he1
      · subst he1
        have ha := hl a (List.mem_cons_self _ _)
        have htri : ∀ c : ℚ, |a.hour - c| ≥ |h - c| - |a.hour - h| := by
          intro c
          have := abs_sub_abs_le_abs_sub (h - c) (h - a.hour)
          have heq : h - c - (h - a.hour) = a.hour - c := by ring
          rw [heq] at this
          have h2 : |h - a.hour| = |a.hour - h| := abs_sub_comm _ _
          linarith [this, h2.le]
        refine ⟨fun hst => ?_, fun hst => ?_, ha.2.2⟩
        · have := hs1 hst
          have h17 := htri (35/2)
          simp only at h17
          linarith
        · have := hs2 hst
          have h19 := htri 19
          simp only at h19
          linarith
      · exact hl e (List.mem_cons_of_mem _ he1)
    · rw [if_neg hc] at he
      rcases List.mem_cons.mp he with he1 | he1
      · subst he1
        exact hl e (List.mem_cons_self _ _)
      · have hrest : eodClean rest := fun b hb => hl b (List.mem_cons_of_mem _ hb)
        exact ih hrest e he1

theorem eodClean_add_hm (l : List DutyStatus) (t : ℚ) (s : String)
    (hl : eodClean l) (ht : hmOf t < 35/2) :
    eodClean (add_duty_status l (hmOf t) s) := by
  refine eodClean_add l (hmOf t) s hl (fun _ => hmOf_safe_17 t ht) (fun _ => ?_) ?_
  · rw [abs_sub_comm, abs_of_nonneg (by linarith)]
    linarith
  · rw [abs_sub_comm, abs_of_nonneg (by linarith)]
    linarith

theorem eodClean_add_misc (l : List DutyStatus) (h : ℚ) (s : String)
    (hl : eodClean l) (hs1 : s ≠ "off-duty") (hs2 : s ≠ "sleeper-berth")
    (hs3 : 9/100 ≤ |h - 2399/100|) : eodClean (add_duty_status l h s) :=
  eodClean_add l h s hl (fun hc => absurd hc hs1) (fun hc => absurd hc hs2) hs3

theorem eodClean_add_zero (l : List DutyStatus) (s : String) (hl : eodClean l) :
    eodClean (add_duty_status l 0 s) :=
  eodClean_add l 0 s hl
    (fun _ => by
      rw [zero_sub, abs_neg, abs_of_nonneg (by norm_num : (0:ℚ) ≤ 35/2)]
      norm_num)
    (fun _ => by
      rw [zero_sub, abs_neg, abs_of_nonneg (by norm_num : (0:ℚ) ≤ 19)]
      norm_num)
    (by
      rw [zero_sub, abs_neg, abs_of_nonneg (by norm_num : (0:ℚ) ≤ 2399/100)]
      norm_num)

theorem seedStop_eodClean (acc : List DutyStatus × List Remark) (stop : Stop)
    (h : eodClean acc.1) (ht : hmOf stop.estimatedArrival < 35/2) :
    eodClean (seedStop acc stop).1 := by
  rcases acc with ⟨duty, rem⟩
  unfold seedStop
  dsimp only
  split_ifs <;>
    first
      | exact h
      | exact eodClean_add_hm duty _ _ h ht

theorem foldl_seedStop_eodClean (stops : List Stop) :
    ∀ acc : List DutyStatus × List Remark, eodClean acc.1 →
      (∀ s ∈ stops, hmOf s.estimatedArrival < 35/2) →
      eodClean (stops.foldl seedStop acc).1 := by
  induction stops with
  | nil => intro acc h _; exact h
  | cons s rest ih =>
    intro acc h hall
    exact ih (seedStop acc s) (seedStop_eodClean acc s h (hall s (List.mem_cons_self _ _)))
      (fun x hx => hall x (List.mem_cons_of_mem _ hx))

theorem ensureEarlyMorning_eodClean (fd : Bool) (duty : List DutyStatus)
    (rem : List Remark) (h : eodClean duty) :
    eodClean (ensureEarlyMorning fd duty rem).1 := by
  unfold ensureEarlyMorning
  dsimp only
  split_ifs <;>
    first
      | exact h
      | exact eodClean_add_zero duty _ h

theorem ensureRestEnd_eodClean (duty : List DutyStatus) (rem : List Remark)
    (h : eodClean duty) : eodClean (ensureRestEnd duty rem).1 := by
  unfold ensureRestEnd
  split_ifs
  · exact h
  · exact eodClean_add_misc duty _ _ h (by decide) (by decide)
      (by unfold SLEEPER_END_HOUR; rw [abs_sub_comm, abs_of_nonneg (by norm_num)]; norm_num)

theorem morningPattern_eodClean (fd : Bool) (fh : ℚ) (duty : List DutyStatus)
    (rem : List Remark) (h : eodClean duty) (hfh0 : 0 ≤ fh) (hfh : fh < 35/2) :
    eodClean (morningPattern fd fh duty rem).1 := by
  have h65 : eodClean (add_duty_status duty PRE_TRIP_START_HOUR "on-duty") :=
    eodClean_add_misc duty _ _ h (by decide) (by decide)
      (by unfold PRE_TRIP_START_HOUR; rw [abs_sub_comm, abs_of_nonneg (by norm_num)]; norm_num)
  have h7 : eodClean (add_duty_status
      (add_duty_status duty PRE_TRIP_START_HOUR "on-duty") DRIVING_START_HOUR "driving") :=
    eodClean_add_misc _ _ _ h65 (by decide) (by decide)
      (by unfold DRIVING_START_HOUR; rw [abs_sub_comm, abs_of_nonneg (by norm_num)]; norm_num)
  have hfhadd : eodClean (add_duty_status duty fh "on-duty") :=
    eodClean_add_misc duty _ _ h (by decide) (by decide)
      (by rw [abs_sub_comm, abs_of_nonneg (by linarith)]; linarith)
  have hminb : 9/100 ≤ |min (fh + 1/2) (239/10) - 2399/100| := by
    have hle : min (fh + 1/2) (239/10) ≤ 239/10 := min_le_right _ _
    rw [abs_sub_comm, abs_of_nonneg (by linarith)]
    linarith
  have hmin : eodClean (add_duty_status (add_duty_status duty fh "on-duty")
      (min (fh + 1/2) (239/10)) "driving") :=
    eodClean_add_misc _ _ _ hfhadd (by decide) (by decide) hminb
  unfold morningPattern
  split_ifs
  · exact h7
  · exact hmin
  · exact h7

theorem dayLoopStep_eodClean (st : DayLoopState) (stop : Stop) (next : Option Stop)
    (h : eodClean st.duty) (ht : hmOf stop.estimatedArrival < 35/2) :
    eodClean (dayLoopStep st stop next).duty := by
  have hhalf := hmOf_add_half_lt stop.estimatedArrival ht
  have hb : 9/100 ≤ |hmOf (stop.estimatedArrival + 1/2) - 2399/100| := by
    rw [abs_sub_comm,
      abs_of_nonneg (by linarith [hmOf_nonneg (stop.estimatedArrival + 1/2)])]
    linarith
  cases next with
  | none =>
    unfold dayLoopStep
    dsimp only
    split_ifs <;>
      first
        | exact h
        | exact eodClean_add_hm _ _ _ h ht
  | some n =>
    unfold dayLoopStep
    dsimp only
    split_ifs <;>
      first
        | exact h
        | exact eodClean_add_hm _ _ _ h ht
        | exact eodClean_add_misc _ _ _ h (by decide) (by decide) hb
        | exact eodClean_add_misc _ _ _ (eodClean_add_hm _ _ _ h ht)
            (by decide) (by decide) hb

theorem dayLoop_eodClean (stops : List Stop) :
    ∀ st : DayLoopState, eodClean st.duty →
      (∀ s ∈ stops, hmOf s.estimatedArrival < 35/2) →
      eodClean (dayLoop st stops).duty := by
  induction stops with
  | nil => intro st h _; exact h
  | cons s rest ih =>
    cases rest with
    | nil =>
      intro st h hall
      exact dayLoopStep_eodClean st s none h (hall s (List.mem_cons_self _ _))
    | cons n rest2 =>
      intro st h hall
      exact ih (dayLoopStep st s (some n))
        (dayLoopStep_eodClean st s (some n) h (hall s (List.mem_cons_self _ _)))
        (fun x hx => hall x (List.mem_cons_of_mem _ hx))

theorem endOfDayPattern_early (lastDay : Bool) (duty : List DutyStatus)
    (rem : List Remark) :
    endOfDayPattern true lastDay duty rem = (duty, rem) := by
  unfold endOfDayPattern
  rw [if_pos rfl]

theorem dayDuty_eodClean (f l : Bool) (ds : List Stop) (odo : ℤ)
    (hall : ∀ s ∈ ds, hmOf s.estimatedArrival < 35/2)
    (hfirst : hmOf (ds.headD dummyStop).estimatedArrival < 35/2)
    (hearly : isEarlyCompletion l ds = true) :
    eodClean (dayDuty f l ds odo) := by
  unfold dayDuty
  have h0 := foldl_seedStop_eodClean ds ([], []) eodClean_nil hall
  have h1 := ensureEarlyMorning_eodClean f (ds.foldl seedStop ([], [])).1 (ds.foldl seedStop ([], [])).2 h0
  have h2 := ensureRestEnd_eodClean (ensureEarlyMorning f (ds.foldl seedStop ([], [])).1 (ds.foldl seedStop ([], [])).2).1 (ensureEarlyMorning f (ds.foldl seedStop ([], [])).1 (ds.foldl seedStop ([], [])).2).2 h1
  have h3 := morningPattern_eodClean f (hmOf (ds.headD dummyStop).estimatedArrival)
    (ensureRestEnd (ensureEarlyMorning f (ds.foldl seedStop ([], [])).1 (ds.foldl seedStop ([], [])).2).1 (ensureEarlyMorning f (ds.foldl seedStop ([], [])).1 (ds.foldl seedStop ([], [])).2).2).1 (ensureRestEnd (ensureEarlyMorning f (ds.foldl seedStop ([], [])).1 (ds.foldl seedStop ([], [])).2).1 (ensureEarlyMorning f (ds.foldl seedStop ([], [])).1 (ds.foldl seedStop ([], [])).2).2).2 h2 (hmOf_nonneg _) hfirst
  have h4 := dayLoop_eodClean ds ⟨(morningPattern f (hmOf (ds.headD dummyStop).estimatedArrival) (ensureRestEnd (ensureEarlyMorning f (ds.foldl seedStop ([], [])).1 (ds.foldl seedStop ([], [])).2).1 (ensureEarlyMorning f (ds.foldl seedStop ([], [])).1 (ds.foldl seedStop ([], [])).2).2).1 (ensureRestEnd (ensureEarlyMorning f (ds.foldl seedStop ([], [])).1 (ds.foldl seedStop ([], [])).2).1 (ensureEarlyMorning f (ds.foldl seedStop ([], [])).1 (ds.foldl seedStop ([], [])).2).2).2).1, (morningPattern f (hmOf (ds.headD dummyStop).estimatedArrival) (ensureRestEnd (ensureEarlyMorning f (ds.foldl seedStop ([], [])).1 (ds.foldl seedStop ([], [])).2).1 (ensureEarlyMorning f (ds.foldl seedStop ([], [])).1 (ds.foldl seedStop ([], [])).2).2).1 (ensureRestEnd (ensureEarlyMorning f (ds.foldl seedStop ([], [])).1 (ds.foldl seedStop ([], [])).2).1 (ensureEarlyMorning f (ds.foldl seedStop ([], [])).1 (ds.foldl seedStop ([], [])).2).2).2).2, "driving", odo, 0, 0, 0⟩ h3 hall
  simp only [hearly, endOfDayPattern_early]
  exact h4
theorem add_duty_status_mem_close_status (l : List DutyStatus) (h : ℚ) (s : String) :
    ∃ b ∈ add_duty_status l h s, b.status = s ∧ |b.hour - h| < 1/1000 := by
  induction l with
  | nil => exact ⟨⟨h, s⟩, List.mem_singleton_self _, rfl, by simp⟩
  | cons e rest ih =>
    by_cases hc : |e.hour - h| < 1/1000
    · refine ⟨⟨e.hour, s⟩, ?_, rfl, by simpa using hc⟩
      simp only [add_duty_status]
      rw [if_pos hc]
      exact List.mem_cons_self _ _
    · obtain ⟨b, hb, hbs, hbc⟩ := ih
      refine ⟨b, ?_, hbs, hbc⟩
      simp only [add_duty_status]
      rw [if_neg hc]
      exact List.mem_cons_of_mem _ hb

theorem exists_hour_pred_add (l : List DutyStatus) (h : ℚ) (s : String)
    (P : ℚ → Prop) (hx : ∃ b ∈ l, P b.hour) :
    ∃ b ∈ add_duty_status l h s, P b.hour := by
  obtain ⟨b, hb, hPb⟩ := hx
  have hmem : b.hour ∈ hoursOf (add_duty_status l h s) :=
    add_duty_status_hours_subset _ _ _ _ (List.mem_map_of_mem _ hb)
  obtain ⟨b2, hb2, hb2h⟩ := List.mem_map.mp hmem
  refine ⟨b2, hb2, ?_⟩
  rw [hb2h]
  exact hPb

theorem any_close_exists (l : List DutyStatus) (c : ℚ)
    (h : (l.any fun s => decide (|s.hour - c| < 1/100)) = true) :
    ∃ b ∈ l, |b.hour - c| < 1/100 := by
  obtain ⟨b, hb, hp⟩ := List.any_eq_true.mp h
  exact ⟨b, hb, by simpa using hp⟩

theorem add_close_exists (l : List DutyStatus) (c : ℚ) (s : String) :
    ∃ b ∈ add_duty_status l c s, |b.hour - c| < 1/100 := by
  obtain ⟨b, hb, hp⟩ := add_duty_status_mem_close l c s
  exact ⟨b, hb, by linarith [abs_nonneg (b.hour - c)]⟩

theorem endOfDayPattern_not_early (lastDay : Bool) (duty : List DutyStatus)
    (rem : List Remark) :
    (∃ b ∈ (endOfDayPattern false lastDay duty rem).1,
      |b.hour - DRIVING_END_HOUR| < 1/100) ∧
    (∃ b ∈ (endOfDayPattern false lastDay duty rem).1,
      |b.hour - SLEEPER_START_HOUR| < 1/100) ∧
    (lastDay = false → ∃ b ∈ (endOfDayPattern false lastDay duty rem).1,
      b.status = "sleeper-berth" ∧ |b.hour - 2399/100| < 1/1000) := by
  unfold endOfDayPattern
  rw [if_neg (by simp : ¬(false = true))]
  dsimp only
  by_cases h17 : (duty.any fun s => decide (|s.hour - DRIVING_END_HOUR| < 1/100)) = true
  · simp only [if_pos h17]
    by_cases h19 : (duty.any fun s => decide (|s.hour - SLEEPER_START_HOUR| < 1/100)) = true
    · simp only [if_pos h19]
      cases lastDay with
      | true =>
        simp only [eq_self_iff_true, if_true]
        exact ⟨any_close_exists duty _ h17, any_close_exists duty _ h19,
          fun habs => absurd habs (by simp)⟩
      | false =>
        simp only [Bool.false_eq_true, if_false]
        refine ⟨exists_hour_pred_add _ _ _ (fun x => |x - DRIVING_END_HOUR| < 1/100) (any_close_exists duty _ h17),
          exists_hour_pred_add _ _ _ (fun x => |x - SLEEPER_START_HOUR| < 1/100) (any_close_exists duty _ h19), fun _ => ?_⟩
        exact add_duty_status_mem_close_status duty (2399/100) "sleeper-berth"
    · simp only [if_neg h19]
      cases lastDay with
      | true =>
        simp only [eq_self_iff_true, if_true]
        exact ⟨exists_hour_pred_add _ _ _ (fun x => |x - DRIVING_END_HOUR| < 1/100) (any_close_exists duty _ h17),
          add_close_exists duty _ _, fun habs => absurd habs (by simp)⟩
      | false =>
        simp only [Bool.false_eq_true, if_false]
        refine ⟨exists_hour_pred_add _ _ _ (fun x => |x - DRIVING_END_HOUR| < 1/100)
            (exists_hour_pred_add _ _ _ (fun x => |x - DRIVING_END_HOUR| < 1/100) (any_close_exists duty _ h17)),
          exists_hour_pred_add _ _ _ (fun x => |x - SLEEPER_START_HOUR| < 1/100) (add_close_exists duty _ _), fun _ => ?_⟩
        exact add_duty_status_mem_close_status
          (add_duty_status duty SLEEPER_START_HOUR "sleeper-berth") (2399/100)
          "sleeper-berth"
  · simp only [if_neg h17]
    by_cases h19 : ((add_duty_status duty DRIVING_END_HOUR "off-duty").any
        fun s => decide (|s.hour - SLEEPER_START_HOUR| < 1/100)) = true
    · simp only [if_pos h19]
      cases lastDay with
      | true =>
        simp only [eq_self_iff_true, if_true]
        exact ⟨add_close_exists duty _ _, any_close_exists _ _ h19,
          fun habs => absurd habs (by simp)⟩
      | false =>
        simp only [Bool.false_eq_true, if_false]
        refine ⟨exists_hour_pred_add _ _ _ (fun x => |x - DRIVING_END_HOUR| < 1/100) (add_close_exists duty _ _),
          exists_hour_pred_add _ _ _ (fun x => |x - SLEEPER_START_HOUR| < 1/100) (any_close_exists _ _ h19), fun _ => ?_⟩
        exact add_duty_status_mem_close_status
          (add_duty_status duty DRIVING_END_HOUR "off-duty") (2399/100) "sleeper-berth"
    · simp only [if_neg h19]
      cases lastDay with
      | true =>
        simp only [eq_self_iff_true, if_true]
        exact ⟨exists_hour_pred_add _ _ _ (fun x => |x - DRIVING_END_HOUR| < 1/100) (add_close_exists duty _ _),
          add_close_exists _ _ _, fun habs => absurd habs (by simp)⟩
      | false =>
        simp only [Bool.false_eq_true, if_false]
        refine ⟨exists_hour_pred_add _ _ _ (fun x => |x - DRIVING_END_HOUR| < 1/100)
            (exists_hour_pred_add _ _ _ (fun x => |x - DRIVING_END_HOUR| < 1/100) (add_close_exists duty _ _)),
          exists_hour_pred_add _ _ _ (fun x => |x - SLEEPER_START_HOUR| < 1/100) (add_close_exists _ _ _), fun _ => ?_⟩
        exact add_duty_status_mem_close_status
          (add_duty_status (add_duty_status duty DRIVING_END_HOUR "off-duty")
            SLEEPER_START_HOUR "sleeper-berth") (2399/100) "sleeper-berth"

theorem dayDuty_not_early (f l : Bool) (ds : List Stop) (odo : ℤ)
    (hnotearly : isEarlyCompletion l ds = false) :
    (∃ b ∈ dayDuty f l ds odo, |b.hour - DRIVING_END_HOUR| < 1/100) ∧
    (∃ b ∈ dayDuty f l ds odo, |b.hour - SLEEPER_START_HOUR| < 1/100) ∧
    (l = false → ∃ b ∈ dayDuty f l ds odo,
      b.status = "sleeper-berth" ∧ |b.hour - 2399/100| < 1/1000) := by
  unfold dayDuty
  simp only [hnotearly]
  exact endOfDayPattern_not_early l _ _

theorem getLastD_mem_of_ne (l : List Stop) :
    ∀ d : Stop, l ≠ [] → l.getLastD d ∈ l := by
  induction l with
  | nil => intro d h; exact absurd rfl h
  | cons a rest ih =>
    intro d _
    rw [List.getLastD_cons]
    cases rest with
    | nil => simp
    | cons b rest2 =>
      exact List.mem_cons_of_mem _ (ih a (by simp))

theorem mem_arrival_le_getLastD :
    ∀ l : List Stop,
      l.Pairwise (fun a b => a.estimatedArrival ≤ b.estimatedArrival) →
      ∀ (d : Stop), ∀ x ∈ l, x.estimatedArrival ≤ (l.getLastD d).estimatedArrival := by
  intro l
  induction l with
  | nil => intro _ d x hx; simp at hx
  | cons a rest ih =>
    intro hs d x hx
    rcases List.pairwise_cons.mp hs with ⟨ha, hrest⟩
    rw [List.getLastD_cons]
    rcases List.mem_cons.mp hx with hx1 | hx1
    · subst hx1
      cases rest with
      | nil => simp
      | cons b rest2 =>
        exact ha _ (getLastD_mem_of_ne (b :: rest2) x (by simp))
    · cases rest with
      | nil => simp at hx1
      | cons b rest2 =>
        exact ih hrest a x hx1

theorem hmOf_mono_same_day (t1 t2 : ℚ) (hd : dayOf t1 = dayOf t2) (hle : t1 ≤ t2) :
    hmOf t1 ≤ hmOf t2 := by
  unfold dayOf at hd
  have h1 : hourOfDay t1 ≤ hourOfDay t2 := by
    unfold hourOfDay
    rw [hd]
    linarith
  unfold hmOf
  have h2 : Int.floor (hourOfDay t1 * 60) ≤ Int.floor (hourOfDay t2 * 60) :=
    Int.floor_le_floor (by linarith)
  have h3 : (Int.floor (hourOfDay t1 * 60) : ℚ) ≤ (Int.floor (hourOfDay t2 * 60) : ℚ) := by
    exact_mod_cast h2
  linarith

theorem dayStopsOf_day_eq (stops : List Stop) (d : ℤ) :
    ∀ s ∈ dayStopsOf stops d, dayOf s.estimatedArrival = d := by
  intro s hs
  have := List.of_mem_filter hs
  simpa using this

theorem dayStopsOf_sorted (stops : List Stop) (d : ℤ)
    (hsort : stops.Pairwise (fun a b => a.estimatedArrival ≤ b.estimatedArrival)) :
    (dayStopsOf stops d).Pairwise (fun a b => a.estimatedArrival ≤ b.estimatedArrival) :=
  hsort.filter _

theorem bucket_hm_bound (stops : List Stop) (d : ℤ)
    (hsort : stops.Pairwise (fun a b => a.estimatedArrival ≤ b.estimatedArrival))
    (hne : dayStopsOf stops d ≠ [])
    (hlast : hmOf ((dayStopsOf stops d).getLastD dummyStop).estimatedArrival < 35/2) :
    ∀ s ∈ dayStopsOf stops d, hmOf s.estimatedArrival < 35/2 := by
  intro s hs
  have hle := mem_arrival_le_getLastD (dayStopsOf stops d)
    (dayStopsOf_sorted stops d hsort) dummyStop s hs
  have hdays : dayOf s.estimatedArrival =
      dayOf ((dayStopsOf stops d).getLastD dummyStop).estimatedArrival := by
    rw [dayStopsOf_day_eq stops d s hs,
      dayStopsOf_day_eq stops d _ (getLastD_mem_of_ne _ dummyStop hne)]
  calc hmOf s.estimatedArrival
      ≤ hmOf ((dayStopsOf stops d).getLastD dummyStop).estimatedArrival :=
        hmOf_mono_same_day _ _ hdays hle
    _ < 35/2 := hlast

theorem isEarlyCompletion_ne_nil (l : Bool) (ds : List Stop)
    (h : isEarlyCompletion l ds = true) : ds ≠ [] := by
  intro heq
  subst heq
  simp [isEarlyCompletion, dummyStop] at h

theorem isEarlyCompletion_facts (l : Bool) (ds : List Stop)
    (h : isEarlyCompletion l ds = true) :
    l = true ∧ hmOf (ds.getLastD dummyStop).estimatedArrival < DRIVING_END_HOUR ∧
      (ds.getLastD dummyStop).type = "dropoff" := by
  unfold isEarlyCompletion at h
  rcases Bool.and_eq_true_iff.mp h with ⟨h1, h2⟩
  rcases Bool.and_eq_true_iff.mp h1 with ⟨h3, h4⟩
  exact ⟨h3, of_decide_eq_true h4, by simpa using h2⟩

theorem headD_mem_of_ne (l : List Stop) (d : Stop) (h : l ≠ []) : l.headD d ∈ l := by
  cases l with
  | nil => exact absurd rfl h
  | cons a rest => simp

/-- C7 (corrected): a day is an early completion exactly when it is the final
day, the hour+minute/60 value of its last stop's arrival is below
DRIVING_END_HOUR = 17.5, and that stop's type is "dropoff".  On an
early-completion day none of the standard end-of-day entries appears in the
emitted hourData (no off-duty entry near 17.5, no sleeper-berth entry near
19.0, no entry at all near 23.99).  On every other day the code only
guarantees that SOME entry lies within 0.01 of 17.5 and within 0.01 of 19.0 —
not that it is off-duty (resp. sleeper-berth), since a stop landing at that
hour pre-seeds an entry of a different status that suppresses the injection —
and on every non-final day a sleeper-berth entry at 23.99 is present. -/
theorem end_of_day_pattern_spec (geo : List ℚ → String) (stops : List Stop)
    (odo : Option ℤ) (rng : List ℤ) (h : ¬ stops.isEmpty = true)
    (hsort : stops.Pairwise (fun a b => a.estimatedArrival ≤ b.estimatedArrival))
    (i : ℕ) (hi : i < (stopDays stops).length) :
    (isEarlyCompletion (i == (stopDays stops).length - 1)
        (dayStopsOf stops ((stopDays stops).getD i 0)) = true ↔
      (i == (stopDays stops).length - 1) = true ∧
        hmOf ((dayStopsOf stops ((stopDays stops).getD i 0)).getLastD
          dummyStop).estimatedArrival < DRIVING_END_HOUR ∧
        ((dayStopsOf stops ((stopDays stops).getD i 0)).getLastD
          dummyStop).type = "dropoff") ∧
    (isEarlyCompletion (i == (stopDays stops).length - 1)
        (dayStopsOf stops ((stopDays stops).getD i 0)) = true →
      ∀ e ∈ ((generate_eld_logs geo stops odo rng).1.getD i dummySheet).hourData,
        ¬ (e.status = "off-duty" ∧ |e.hour - DRIVING_END_HOUR| < 1/100) ∧
        ¬ (e.status = "sleeper-berth" ∧ |e.hour - SLEEPER_START_HOUR| < 1/100) ∧
        ¬ |e.hour - 2399/100| < 1/100) ∧
    (isEarlyCompletion (i == (stopDays stops).length - 1)
        (dayStopsOf stops ((stopDays stops).getD i 0)) = false →
      (∃ e ∈ ((generate_eld_logs geo stops odo rng).1.getD i dummySheet).hourData,
        |e.hour - DRIVING_END_HOUR| < 1/100) ∧
      (∃ e ∈ ((generate_eld_logs geo stops odo rng).1.getD i dummySheet).hourData,
        |e.hour - SLEEPER_START_HOUR| < 1/100) ∧
      ((i == (stopDays stops).length - 1) = false →
        ∃ e ∈ ((generate_eld_logs geo stops odo rng).1.getD i dummySheet).hourData,
          e.status = "sleeper-berth" ∧ |e.hour - 2399/100| < 1/1000)) := by
  refine ⟨?_, ?_, ?_⟩
  · constructor
    · exact isEarlyCompletion_facts _ _
    · rintro ⟨h1, h2, h3⟩
      unfold isEarlyCompletion
      rw [h1, h3]
      simp only [Bool.true_and, beq_self_eq_true, Bool.and_true, decide_eq_true_eq]
      exact h2
  · intro hearly e he
    obtain ⟨o, hd⟩ := sheet_hourData geo stops odo rng h i hi
    rw [hd] at he
    have hperm := List.perm_insertionSort (fun a b : DutyStatus => a.hour ≤ b.hour)
      (dayDuty (i == 0) (i == (stopDays stops).length - 1)
        (dayStopsOf stops ((stopDays stops).getD i 0)) o)
    have hmem := hperm.mem_iff.mp he
    have hne := isEarlyCompletion_ne_nil _ _ hearly
    obtain ⟨-, hlast, -⟩ := isEarlyCompletion_facts _ _ hearly
    have hlast2 : hmOf ((dayStopsOf stops ((stopDays stops).getD i 0)).getLastD
        dummyStop).estimatedArrival < 35/2 := by
      unfold DRIVING_END_HOUR at hlast
      exact hlast
    have hall := bucket_hm_bound stops ((stopDays stops).getD i 0) hsort hne hlast2
    have hfirst := hall _ (headD_mem_of_ne _ dummyStop hne)
    have hclean := dayDuty_eodClean (i == 0) (i == (stopDays stops).length - 1)
      (dayStopsOf stops ((stopDays stops).getD i 0)) o hall hfirst hearly
    obtain ⟨c1, c2, c3⟩ := hclean e hmem
    refine ⟨?_, ?_, ?_⟩
    · rintro ⟨hs, hh⟩
      have := c1 hs
      unfold DRIVING_END_HOUR at hh
      linarith
    · rintro ⟨hs, hh⟩
      have := c2 hs
      unfold SLEEPER_START_HOUR at hh
      linarith
    · intro hh
      linarith
  · intro hnot
    obtain ⟨o, hd⟩ := sheet_hourData geo stops odo rng h i hi
    have hperm := List.perm_insertionSort (fun a b : DutyStatus => a.hour ≤ b.hour)
      (dayDuty (i == 0) (i == (stopDays stops).length - 1)
        (dayStopsOf stops ((stopDays stops).getD i 0)) o)
    obtain ⟨⟨e1, he1, hc1⟩, ⟨e2, he2, hc2⟩, hbridge⟩ :=
      dayDuty_not_early (i == 0) (i == (stopDays stops).length - 1)
        (dayStopsOf stops ((stopDays stops).getD i 0)) o hnot
    refine ⟨?_, ?_, ?_⟩
    · rw [hd]
      exact ⟨e1, hperm.mem_iff.mpr he1, hc1⟩
    · rw [hd]
      exact ⟨e2, hperm.mem_iff.mpr he2, hc2⟩
    · intro hlastf
      obtain ⟨e3, he3, hc3⟩ := hbridge hlastf
      rw [hd]
      exact ⟨e3, hperm.mem_iff.mpr he3, hc3⟩

/-- Counterexample to C7 as stated: a final day that is not an early
completion (its last stop is a fuel stop, not a dropoff) whose hourData has an
on-duty entry at exactly 17.5 — pre-seeded by the 17:30 fuel stop — and hence
NO off-duty entry within 0.01 of 17.5: the off-duty injection is suppressed by
the `any` guard. -/
theorem end_of_day_off_duty_missing :
    isEarlyCompletion ((0 : ℕ) == (stopDays stopsEodCx).length - 1)
        (dayStopsOf stopsEodCx ((stopDays stopsEodCx).getD 0 0)) = false ∧
    (∃ e ∈ ((generate_eld_logs geoConst stopsEodCx (some 0) []).1.getD 0
        dummySheet).hourData, e.hour = 35/2 ∧ e.status = "on-duty") ∧
    ¬ ∃ e ∈ ((generate_eld_logs geoConst stopsEodCx (some 0) []).1.getD 0
        dummySheet).hourData,
      e.status = "off-duty" ∧ |e.hour - DRIVING_END_HOUR| < 1/100 := by
  with_unfolding_all decide

/-- Witness for `end_of_day_pattern_spec` at a concrete one-day input. -/
theorem end_of_day_pattern_spec_witness :
    (¬ (stopsEodCx.isEmpty = true)) ∧
    (∃ e ∈ ((generate_eld_logs geoConst stopsEodCx (some 0) []).1.getD 0
      dummySheet).hourData, |e.hour - DRIVING_END_HOUR| < 1/100) := by
  refine ⟨by with_unfolding_all decide, ?_⟩
  have hres := end_of_day_pattern_spec geoConst stopsEodCx (some 0) []
    (by with_unfolding_all decide) (by with_unfolding_all decide) 0
    (by with_unfolding_all decide)
  exact (hres.2.2 (by with_unfolding_all decide)).1

/-! ### Timestamp lemmas for the stop planner -/

theorem t_split (t : ℚ) : 24 * (dayOf t : ℚ) + hourOfDay t = t := by
  unfold hourOfDay dayOf
  ring

theorem subsec_nonneg (t : ℚ) : 0 ≤ subsec t := by
  unfold subsec
  have h := Int.floor_le (hourOfDay t * 3600)
  have h2 : (0 : ℚ) ≤ hourOfDay t * 3600 - (Int.floor (hourOfDay t * 3600) : ℚ) := by
    linarith
  positivity

theorem subsec_lt (t : ℚ) : subsec t < 1/3600 := by
  unfold subsec
  have h := Int.lt_floor_add_one (hourOfDay t * 3600)
  rw [div_lt_div_iff (by norm_num) (by norm_num)]
  linarith

theorem dayOf_shift (k : ℤ) (c : ℚ) (h1 : 0 ≤ c) (h2 : c < 24) :
    dayOf (24 * (k : ℚ) + c) = k := by
  unfold dayOf
  have he : (24 * (k : ℚ) + c) / 24 = (k : ℚ) + c / 24 := by ring
  rw [he, Int.floor_int_add]
  have hz : ⌊c / 24⌋ = 0 := by
    rw [Int.floor_eq_zero_iff]
    constructor
    · exact div_nonneg h1 (by norm_num)
    · rw [div_lt_one (by norm_num)]
      linarith
  rw [hz]
  ring

theorem hourOfDay_shift (k : ℤ) (c : ℚ) (h1 : 0 ≤ c) (h2 : c < 24) :
    hourOfDay (24 * (k : ℚ) + c) = c := by
  have hd := dayOf_shift k c h1 h2
  unfold dayOf at hd
  unfold hourOfDay
  rw [hd]
  ring

theorem replaceHMS_decomp (t : ℚ) (H M : ℤ) :
    replaceHMS t H M = 24 * (dayOf t : ℚ) + ((H : ℚ) + (M : ℚ) / 60 + subsec t) := by
  unfold replaceHMS
  ring

theorem hourOfDay_replaceHMS (t : ℚ) (H M : ℤ) (h1 : 0 ≤ (H : ℚ) + (M : ℚ) / 60)
    (h2 : (H : ℚ) + (M : ℚ) / 60 + 1/3600 ≤ 24) :
    hourOfDay (replaceHMS t H M) = (H : ℚ) + (M : ℚ) / 60 + subsec t := by
  rw [replaceHMS_decomp]
  exact hourOfDay_shift _ _ (by linarith [subsec_nonneg t])
    (by linarith [subsec_lt t])

theorem hmOf_replaceHMS (t : ℚ) (H M : ℤ) (h1 : 0 ≤ (H : ℚ) + (M : ℚ) / 60)
    (h2 : (H : ℚ) + (M : ℚ) / 60 + 1/3600 ≤ 24) :
    hmOf (replaceHMS t H M) = (H : ℚ) + (M : ℚ) / 60 := by
  unfold hmOf
  rw [hourOfDay_replaceHMS t H M h1 h2]
  have he : ((H : ℚ) + (M : ℚ) / 60 + subsec t) * 60 =
      ((60 * H + M : ℤ) : ℚ) + subsec t * 60 := by
    push_cast
    ring
  rw [he, Int.floor_int_add]
  have h60 : ⌊subsec t * 60⌋ = 0 := by
    rw [Int.floor_eq_zero_iff]
    constructor
    · nlinarith [subsec_nonneg t]
    · nlinarith [subsec_lt t]
  rw [h60]
  push_cast
  ring

theorem hmOf_lt_div60 (t : ℚ) (n : ℤ) :
    hmOf t < (n : ℚ) / 60 ↔ hourOfDay t < (n : ℚ) / 60 := by
  unfold hmOf
  constructor
  · intro h
    have h1 : (Int.floor (hourOfDay t * 60) : ℚ) < (n : ℚ) := by
      rw [div_lt_div_iff (by norm_num) (by norm_num : (0:ℚ) < 60)] at h
      nlinarith
    have h2 : Int.floor (hourOfDay t * 60) < n := by exact_mod_cast h1
    have h3 : hourOfDay t * 60 < (n : ℚ) := by
      have hf := Int.lt_floor_add_one (hourOfDay t * 60)
      have h4 : Int.floor (hourOfDay t * 60) + 1 ≤ n := by omega
      have h5 : ((Int.floor (hourOfDay t * 60) : ℚ) + 1) ≤ (n : ℚ) := by
        exact_mod_cast h4
      linarith
    rw [lt_div_iff (by norm_num : (0:ℚ) < 60)]
    linarith
  · intro h
    have h1 : hourOfDay t * 60 < (n : ℚ) := by
      rw [lt_div_iff (by norm_num : (0:ℚ) < 60)] at h
      linarith
    have h2 := Int.floor_le (hourOfDay t * 60)
    rw [div_lt_div_iff (by norm_num : (0:ℚ) < 60) (by norm_num : (0:ℚ) < 60)]
    nlinarith

theorem dayOf_add_24 (t : ℚ) : dayOf (t + 24) = dayOf t + 1 := by
  unfold dayOf
  have he : (t + 24) / 24 = t / 24 + 1 := by ring
  rw [he, Int.floor_add_one]

theorem hourOfDay_add_24 (t : ℚ) : hourOfDay (t + 24) = hourOfDay t := by
  have hd := dayOf_add_24 t
  unfold dayOf at hd
  unfold hourOfDay
  rw [hd]
  push_cast
  ring

theorem subsec_add_24 (t : ℚ) : subsec (t + 24) = subsec t := by
  unfold subsec
  rw [hourOfDay_add_24]

theorem le_replaceHMS (t : ℚ) (H M : ℤ) (h : hourOfDay t ≤ (H : ℚ) + (M : ℚ) / 60) :
    t ≤ replaceHMS t H M := by
  rw [replaceHMS_decomp]
  conv_lhs => rw [← t_split t]
  linarith [subsec_nonneg t]

theorem le_replace_next_day (t : ℚ) : t ≤ replaceHMS (t + 24) 7 0 := by
  rw [replaceHMS_decomp, dayOf_add_24, subsec_add_24]
  conv_lhs => rw [← t_split t]
  push_cast
  linarith [hourOfDay_lt t, subsec_nonneg t]

theorem ndst_ge (t : ℚ) : t ≤ next_driving_start_time t := by
  unfold next_driving_start_time
  split_ifs with h1 h2
  · apply le_replaceHMS
    unfold DRIVING_START_HOUR at h1
    have := (hmOf_lt_div60 t 420).mp (by push_cast; linarith)
    push_cast at this ⊢
    linarith
  · exact le_replace_next_day t
  · exact le_refl t

theorem hm_ndst (t : ℚ) :
    DRIVING_START_HOUR ≤ hmOf (next_driving_start_time t) ∧
      hmOf (next_driving_start_time t) < DRIVING_END_HOUR := by
  unfold next_driving_start_time
  split_ifs with h1 h2
  · rw [hmOf_replaceHMS t 7 0 (by norm_num) (by norm_num)]
    unfold DRIVING_START_HOUR DRIVING_END_HOUR
    norm_num
  · rw [hmOf_replaceHMS (t + 24) 7 0 (by norm_num) (by norm_num)]
    unfold DRIVING_START_HOUR DRIVING_END_HOUR
    norm_num
  · exact ⟨not_lt.mp h1, not_le.mp h2⟩

theorem align_ge (t : ℚ) : t ≤ align_break_time t := by
  unfold align_break_time
  dsimp only
  split_ifs with h1 h2 h3
  · exact le_refl t
  · unfold PREFERRED_BREAK_HOUR at h2
    have hlt := (hmOf_lt_div60 t 840).mp (by push_cast; linarith [h2.2])
    push_cast at hlt
    conv_lhs => rw [← t_split t]
    unfold PREFERRED_BREAK_HOUR
    linarith
  · exact le_refl t
  · exact le_refl t

theorem hue_nonneg (t : ℚ) : 0 ≤ calculate_hours_until_end_of_driving_day t := by
  unfold calculate_hours_until_end_of_driving_day
  split_ifs with h
  · exact le_refl 0
  · linarith [not_le.mp h]

theorem ctraAux_ge : ∀ (n : ℕ) (t dh : ℚ), t ≤ ctraAux n t dh := by
  intro n
  induction n with
  | zero => intro t dh; exact le_refl t
  | succ n ih =>
    intro t dh
    unfold ctraAux
    dsimp only
    split_ifs with h1 h2
    · exact le_refl t
    · push_neg at h1
      linarith [ndst_ge t]
    · have hstep1 : t ≤ next_driving_start_time t := ndst_ge t
      have hstep2 : next_driving_start_time t ≤
          replaceHMS (next_driving_start_time t) 17 30 := by
        apply le_replaceHMS
        have hm2 := (hm_ndst t).2
        unfold DRIVING_END_HOUR at hm2
        have := (hmOf_lt_div60 (next_driving_start_time t) 1050).mp
          (by push_cast; linarith)
        push_cast at this ⊢
        linarith
      have hstep3 : replaceHMS (next_driving_start_time t) 17 30 ≤
          replaceHMS (replaceHMS (next_driving_start_time t) 17 30 + 24) 7 0 :=
        le_replace_next_day _
      calc t ≤ replaceHMS (replaceHMS (next_driving_start_time t) 17 30 + 24) 7 0 := by
            linarith
        _ ≤ _ := ih _ _

theorem ctra_ge (t dh : ℚ) : t ≤ calculate_time_restricted_arrival t dh :=
  ctraAux_ge _ t dh

theorem dayOf_replaceHMS (t : ℚ) (H M : ℤ) (h1 : 0 ≤ (H : ℚ) + (M : ℚ) / 60)
    (h2 : (H : ℚ) + (M : ℚ) / 60 + 1/3600 ≤ 24) :
    dayOf (replaceHMS t H M) = dayOf t := by
  rw [replaceHMS_decomp]
  exact dayOf_shift _ _ (by linarith [subsec_nonneg t]) (by linarith [subsec_lt t])

theorem subsec_replaceHMS (t : ℚ) (H M : ℤ) (h1 : 0 ≤ (H : ℚ) + (M : ℚ) / 60)
    (h2 : (H : ℚ) + (M : ℚ) / 60 + 1/3600 ≤ 24) :
    subsec (replaceHMS t H M) = subsec t := by
  unfold subsec
  rw [hourOfDay_replaceHMS t H M h1 h2]
  have he : ((H : ℚ) + (M : ℚ) / 60 + subsec t) * 3600 =
      ((3600 * H + 60 * M : ℤ) : ℚ) + subsec t * 3600 := by
    push_cast
    ring
  rw [he, Int.floor_int_add]
  have h36 : ⌊subsec t * 3600⌋ = 0 := by
    rw [Int.floor_eq_zero_iff]
    constructor
    · nlinarith [subsec_nonneg t]
    · nlinarith [subsec_lt t]
  rw [h36]
  push_cast
  unfold subsec
  ring

/-! ### Fuel-cadence helper lemmas -/

theorem fuelStopsOf_append (l1 l2 : List Stop) :
    fuelStopsOf (l1 ++ l2) = fuelStopsOf l1 ++ fuelStopsOf l2 := by
  unfold fuelStopsOf
  exact List.filter_append _ _

theorem fuelStopsOf_nonfuel (l : List Stop)
    (hl : ∀ s ∈ l, (s.type == "fuel") = false) : fuelStopsOf l = [] := by
  unfold fuelStopsOf
  rw [List.filter_eq_nil_iff]
  intro a ha
  simp [hl a ha]

theorem fuelStopsOf_single_fuel (s : Stop) (hty : s.type = "fuel") :
    fuelStopsOf [s] = [s] := by
  unfold fuelStopsOf
  simp [List.filter_cons, hty]

theorem getLastD_snoc (l : List ℚ) (a d : ℚ) : (l ++ [a]).getLastD d = a := by
  induction l generalizing d with
  | nil => rfl
  | cons b t ih =>
    rw [List.cons_append, List.getLastD_cons]
    exact ih b

theorem chainLe_concat (c : ℚ) :
    ∀ (l : List ℚ) (a q : ℚ), chainLe c a l = true → q - l.getLastD a ≤ c →
      chainLe c a (l ++ [q]) = true := by
  intro l
  induction l with
  | nil =>
    intro a q _ hq
    have hq2 : q - a ≤ c := hq
    show (decide (q - a ≤ c) && chainLe c q []) = true
    rw [decide_eq_true hq2]
    rfl
  | cons b t ih =>
    intro a q h hq
    rcases Bool.and_eq_true_iff.mp h with ⟨h1, h2⟩
    rw [List.getLastD_cons] at hq
    show (decide (b - a ≤ c) && chainLe c b (t ++ [q])) = true
    rw [h1, Bool.true_and]
    exact ih b q h2 hq

theorem FuelInvC_now_mono (stops : List Stop) (p m r n n' : ℚ)
    (h : FuelInvC stops p m r n) (hn : n ≤ n') : FuelInvC stops p m r n' := by
  obtain ⟨h1, h2, h3, h4, h5, h6, h7⟩ := h
  exact ⟨h1, h2, h3, h4, h5, h6, fun s hs hf => lt_of_lt_of_le (h7 s hs hf) hn⟩

theorem FuelInvC_extend (stops ss : List Stop) (p m r n n' : ℚ)
    (h : FuelInvC stops p m r n)
    (hss : ∀ s ∈ ss, (s.type == "fuel") = false)
    (hn : n ≤ n') :
    FuelInvC (stops ++ ss) p m r n' := by
  obtain ⟨h1, h2, h3, h4, h5, h6, h7⟩ := h
  have hfs : fuelStopsOf (stops ++ ss) = fuelStopsOf stops := by
    rw [fuelStopsOf_append, fuelStopsOf_nonfuel ss hss, List.append_nil]
  have hfp : fuelPositions (stops ++ ss) = fuelPositions stops := by
    unfold fuelPositions
    rw [hfs]
  have hlf : lastFuelPos (stops ++ ss) = lastFuelPos stops := by
    unfold lastFuelPos
    rw [hfp]
  refine ⟨by rw [hfp]; exact h1, by rw [hlf]; exact h2, by rw [hlf]; exact h3,
    by rw [hlf]; exact h4, h5, by rw [hfs]; exact h6, ?_⟩
  intro s hs hf
  rcases List.mem_append.mp hs with hs1 | hs1
  · exact lt_of_lt_of_le (h7 s hs1 hf) hn
  · have hc := hss s hs1
    rw [hf] at hc
    simp at hc

theorem FuelInvC_drive (stops : List Stop) (p m r n n' d : ℚ)
    (h : FuelInvC stops p m r n) (hd : 0 ≤ d) (hdr : d ≤ r) (hn : n ≤ n') :
    FuelInvC stops (p + d * AVG_SPEED_MPH) (m - d * AVG_SPEED_MPH) (r - d) n' := by
  obtain ⟨h1, h2, h3, h4, h5, h6, h7⟩ := h
  have hda : 0 ≤ d * AVG_SPEED_MPH :=
    mul_nonneg hd (by unfold AVG_SPEED_MPH; norm_num)
  exact ⟨h1, by linarith, by linarith, h4, by linarith, h6,
    fun s hs hf => lt_of_lt_of_le (h7 s hs hf) hn⟩

theorem FuelInvC_fuel (stops : List Stop) (p m r n : ℚ) (s : Stop) (now' : ℚ)
    (h : FuelInvC stops p m r n)
    (hm0 : 0 < m) (hmr : m / AVG_SPEED_MPH ≤ r)
    (hty : s.type = "fuel") (hpos : s.posMi = p + m)
    (htime : n ≤ s.estimatedArrival) (hnow : s.estimatedArrival < now') :
    FuelInvC (stops ++ [s]) (p + m) FUEL_STOP_INTERVAL (r - m / AVG_SPEED_MPH)
      now' := by
  obtain ⟨h1, h2, h3, h4, h5, h6, h7⟩ := h
  have hfs : fuelStopsOf (stops ++ [s]) = fuelStopsOf stops ++ [s] := by
    rw [fuelStopsOf_append, fuelStopsOf_single_fuel s hty]
  have hfp : fuelPositions (stops ++ [s]) = fuelPositions stops ++ [p + m] := by
    unfold fuelPositions
    rw [hfs, List.map_append]
    simp [hpos]
  have hlf : lastFuelPos (stops ++ [s]) = p + m := by
    unfold lastFuelPos
    rw [hfp]
    exact getLastD_snoc _ _ _
  refine ⟨?_, ?_, ?_, ?_, ?_, ?_, ?_⟩
  · unfold fuelGapsOK at h1 ⊢
    rw [hfp]
    apply chainLe_concat _ _ _ _ h1
    unfold lastFuelPos at h2
    linarith
  · rw [hlf]
  · rw [hlf]
  · rw [hlf]
    linarith
  · have : 0 ≤ m / AVG_SPEED_MPH :=
      div_nonneg (le_of_lt hm0) (by unfold AVG_SPEED_MPH; norm_num)
    linarith
  · rw [hfs, List.pairwise_append]
    refine ⟨h6, List.pairwise_singleton _ _, ?_⟩
    intro a ha b hb
    have hb' : b = s := by simpa using hb
    subst hb'
    have hmem : a ∈ stops := List.mem_of_mem_filter ha
    have hatype : a.type = "fuel" := by
      have := List.of_mem_filter ha
      simpa using this
    exact lt_of_lt_of_le (h7 a hmem hatype) htime
  · intro x hx hxf
    rcases List.mem_append.mp hx with hx1 | hx1
    · exact lt_of_le_of_lt (le_trans (le_of_lt (h7 x hx1 hxf)) htime) hnow
    · have hx' : x = s := by simpa using hx1
      subst hx'
      exact hnow

theorem GInv_of_nofuel (g : GenState)
    (hnf : ∀ s ∈ g.stops, (s.type == "fuel") = false)
    (hmsf : g.milesSinceLastFuel = g.currentPosition)
    (hcp : 0 ≤ g.currentPosition) : GInv g := by
  have hfs := fuelStopsOf_nonfuel g.stops hnf
  have hfp : fuelPositions g.stops = [] := by
    unfold fuelPositions
    rw [hfs]
    rfl
  have hlf : lastFuelPos g.stops = 0 := by
    unfold lastFuelPos
    rw [hfp]
    rfl
  refine ⟨?_, ?_, ?_, ?_, ?_, ?_⟩
  · rw [hfp]
    rfl
  · rw [hlf]
    exact hcp
  · rw [hlf]
  · exact hmsf
  · rw [hfs]
    exact List.Pairwise.nil
  · intro s hs hf
    have hc := hnf s hs
    rw [hf] at hc
    simp at hc

theorem breakBranch_inv (route : CombinedRoute) (total : ℚ) (st : DriveState)
    (name : String) (h : FuelInv st) :
    FuelInv (breakBranch route total st name) ∧
    (breakBranch route total st name).segmentPosition = st.segmentPosition ∧
    (breakBranch route total st name).milesToNextFuel = st.milesToNextFuel ∧
    (breakBranch route total st name).remainingDrive = st.remainingDrive := by
  unfold FuelInv breakBranch
  dsimp only
  refine ⟨?_, rfl, rfl, rfl⟩
  refine FuelInvC_extend _ _ _ _ _ _ _ h ?_ ?_
  · intro s hs
    have hs' : s = ⟨"rest", name,
        interpolate_position route (st.segmentPosition / total),
        format_duration BREAK_DURATION, align_break_time st.currentTimestamp,
        st.segmentPosition⟩ := by simpa using hs
    subst hs'
    rfl
  · have := align_ge st.currentTimestamp
    unfold BREAK_DURATION
    linarith

theorem overnightBranch_inv (route : CombinedRoute) (total : ℚ) (st : DriveState)
    (h : FuelInv st) :
    FuelInv (overnightBranch route total st) ∧
    (overnightBranch route total st).segmentPosition = st.segmentPosition ∧
    (overnightBranch route total st).milesToNextFuel = st.milesToNextFuel ∧
    (overnightBranch route total st).remainingDrive = st.remainingDrive := by
  unfold FuelInv overnightBranch
  dsimp only
  split_ifs with h1 h2 h3
  · refine ⟨?_, rfl, rfl, rfl⟩
    have hm1 : st.currentTimestamp ≤ replaceHMS st.currentTimestamp 19 0 := by
      apply le_replaceHMS
      have hlt := (hmOf_lt_div60 st.currentTimestamp 1140).mp
        (by unfold SLEEPER_START_HOUR at h1; push_cast; linarith [h1.2])
      push_cast at hlt ⊢
      linarith
    have hm2 : replaceHMS st.currentTimestamp 19 0 + 10 ≤
        next_driving_start_time
          (replaceHMS (replaceHMS st.currentTimestamp 19 0 + 10) 6 30) := by
      have ha : replaceHMS st.currentTimestamp 19 0 + 10 ≤
          replaceHMS (replaceHMS st.currentTimestamp 19 0 + 10) 6 30 := by
        apply le_replaceHMS
        have hlt := (hmOf_lt_div60 (replaceHMS st.currentTimestamp 19 0 + 10) 390).mp
          (by unfold SLEEPER_END_HOUR at h2; push_cast; linarith)
        push_cast at hlt ⊢
        linarith
      exact le_trans ha (ndst_ge _)
    refine FuelInvC_extend _ _ _ _ _ _ _
      (FuelInvC_extend _ _ _ _ _ _ _
        (FuelInvC_extend _ _ _ _ _ _ _ h ?_ hm1) ?_ (by linarith)) ?_ hm2
    · intro s hs
      have hs' := List.mem_singleton.mp hs
      subst hs'
      rfl
    · intro s hs
      have hs' := List.mem_singleton.mp hs
      subst hs'
      rfl
    · intro s hs
      have hs' := List.mem_singleton.mp hs
      subst hs'
      rfl
  · refine ⟨?_, rfl, rfl, rfl⟩
    have hm1 : st.currentTimestamp ≤ replaceHMS st.currentTimestamp 19 0 := by
      apply le_replaceHMS
      have hlt := (hmOf_lt_div60 st.currentTimestamp 1140).mp
        (by unfold SLEEPER_START_HOUR at h1; push_cast; linarith [h1.2])
      push_cast at hlt ⊢
      linarith
    have hm2 : replaceHMS st.currentTimestamp 19 0 + 10 ≤
        next_driving_start_time (replaceHMS st.currentTimestamp 19 0 + 10) :=
      ndst_ge _
    refine FuelInvC_extend _ _ _ _ _ _ _
      (FuelInvC_extend _ _ _ _ _ _ _ h ?_ hm1) ?_ (by linarith)
    · intro s hs
      have hs' := List.mem_singleton.mp hs
      subst hs'
      rfl
    · intro s hs
      have hs' := List.mem_singleton.mp hs
      subst hs'
      rfl
  · refine ⟨?_, rfl, rfl, rfl⟩
    have hm2 : st.currentTimestamp + 10 ≤
        next_driving_start_time
          (replaceHMS (st.currentTimestamp + 10) 6 30) := by
      have ha : st.currentTimestamp + 10 ≤
          replaceHMS (st.currentTimestamp + 10) 6 30 := by
        apply le_replaceHMS
        have hlt := (hmOf_lt_div60 (st.currentTimestamp + 10) 390).mp
          (by unfold SLEEPER_END_HOUR at h3; push_cast; linarith)
        push_cast at hlt ⊢
        linarith
      exact le_trans ha (ndst_ge _)
    refine FuelInvC_extend _ _ _ _ _ _ _
      (FuelInvC_extend _ _ _ _ _ _ _ h ?_ (by linarith)) ?_ hm2
    · intro s hs
      have hs' := List.mem_singleton.mp hs
      subst hs'
      rfl
    · intro s hs
      have hs' := List.mem_singleton.mp hs
      subst hs'
      rfl
  · refine ⟨?_, rfl, rfl, rfl⟩
    refine FuelInvC_extend _ _ _ _ _ _ _ h ?_
      (le_trans (by linarith) (ndst_ge (st.currentTimestamp + 10)))
    intro s hs
    have hs' := List.mem_singleton.mp hs
    subst hs'
    rfl

theorem fuelBranch_inv (route : CombinedRoute) (total : ℚ) (st : DriveState)
    (h : FuelInv st)
    (hg1 : st.milesToNextFuel ≤ drivableHours st * AVG_SPEED_MPH)
    (hg2 : 0 < st.milesToNextFuel) :
    FuelInv (fuelBranch route total st) ∧
    (fuelBranch route total st).segmentPosition +
        60 * (fuelBranch route total st).remainingDrive =
      st.segmentPosition + 60 * st.remainingDrive := by
  have hdle : drivableHours st ≤ st.remainingDrive := min_le_left _ _
  have hmr : st.milesToNextFuel / AVG_SPEED_MPH ≤ st.remainingDrive := by
    unfold AVG_SPEED_MPH at hg1 ⊢
    rw [div_le_iff (by norm_num : (0:ℚ) < 60)]
    nlinarith
  have hfa := ctra_ge st.currentTimestamp
    (st.milesToNextFuel / AVG_SPEED_MPH)
  unfold FuelInv fuelBranch
  dsimp only
  split_ifs with hbreak
  · constructor
    · have hnow1 : calculate_time_restricted_arrival st.currentTimestamp
          (st.milesToNextFuel / AVG_SPEED_MPH) <
          calculate_time_restricted_arrival st.currentTimestamp
            (st.milesToNextFuel / AVG_SPEED_MPH) + FUEL_DURATION := by
        unfold FUEL_DURATION
        linarith
      have hmono2 : calculate_time_restricted_arrival st.currentTimestamp
          (st.milesToNextFuel / AVG_SPEED_MPH) + FUEL_DURATION ≤
          align_break_time (calculate_time_restricted_arrival st.currentTimestamp
            (st.milesToNextFuel / AVG_SPEED_MPH) + FUEL_DURATION) +
            BREAK_DURATION := by
        have := align_ge (calculate_time_restricted_arrival st.currentTimestamp
          (st.milesToNextFuel / AVG_SPEED_MPH) + FUEL_DURATION)
        unfold BREAK_DURATION
        linarith
      refine FuelInvC_extend _ _ _ _ _ _ _
        (FuelInvC_fuel _ _ _ _ _ _ _ h hg2 hmr rfl rfl hfa hnow1) ?_ hmono2
      intro s hs
      have hs' := List.mem_singleton.mp hs
      subst hs'
      rfl
    · unfold AVG_SPEED_MPH
      ring
  · constructor
    · have hnow1 : calculate_time_restricted_arrival st.currentTimestamp
          (st.milesToNextFuel / AVG_SPEED_MPH) <
          calculate_time_restricted_arrival st.currentTimestamp
            (st.milesToNextFuel / AVG_SPEED_MPH) + FUEL_DURATION := by
        unfold FUEL_DURATION
        linarith
      exact FuelInvC_fuel _ _ _ _ _ _ _ h hg2 hmr rfl rfl hfa hnow1
    · unfold AVG_SPEED_MPH
      ring

theorem midBreakBranch_inv (route : CombinedRoute) (total : ℚ) (st : DriveState)
    (h : FuelInv st)
    (hg1 : 8 ≤ st.hoursSinceBreak + drivableHours st)
    (hg2 : 0 < 8 - st.hoursSinceBreak) :
    FuelInv (midBreakBranch route total st) ∧
    (midBreakBranch route total st).segmentPosition +
        60 * (midBreakBranch route total st).remainingDrive =
      st.segmentPosition + 60 * st.remainingDrive := by
  have hdle : drivableHours st ≤ st.remainingDrive := min_le_left _ _
  have hd : (0:ℚ) ≤ 8 - st.hoursSinceBreak := le_of_lt hg2
  have hdr : 8 - st.hoursSinceBreak ≤ st.remainingDrive := by linarith
  have hmono : st.currentTimestamp ≤
      align_break_time (calculate_time_restricted_arrival st.currentTimestamp
        (8 - st.hoursSinceBreak)) + BREAK_DURATION := by
    have h1 := ctra_ge st.currentTimestamp (8 - st.hoursSinceBreak)
    have h2 := align_ge (calculate_time_restricted_arrival st.currentTimestamp
      (8 - st.hoursSinceBreak))
    unfold BREAK_DURATION
    linarith
  unfold FuelInv midBreakBranch
  dsimp only
  constructor
  · refine FuelInvC_extend _ _ _ _ _ _ _
      (FuelInvC_drive _ _ _ _ _ _ _ h hd hdr (le_refl _)) ?_ hmono
    intro s hs
    have hs' := List.mem_singleton.mp hs
    subst hs'
    rfl
  · unfold AVG_SPEED_MPH
    ring

theorem driveBranch_inv (route : CombinedRoute) (total : ℚ) (st : DriveState)
    (h : FuelInv st) :
    FuelInv (driveBranch route total st) ∧
    (driveBranch route total st).segmentPosition +
        60 * (driveBranch route total st).remainingDrive =
      st.segmentPosition + 60 * st.remainingDrive := by
  have hrem : 0 ≤ st.remainingDrive := h.2.2.2.2.1
  have hd0 : 0 ≤ drivableHours st :=
    le_min hrem (le_min (hue_nonneg _) (le_max_left _ _))
  have hdr : drivableHours st ≤ st.remainingDrive := min_le_left _ _
  have harr := ctra_ge st.currentTimestamp (drivableHours st)
  unfold FuelInv driveBranch
  dsimp only
  split_ifs with htail hem
  · constructor
    · have hsleep : replaceHMS (replaceHMS (calculate_time_restricted_arrival
          st.currentTimestamp (drivableHours st)) 17 30) 19 0 =
          24 * (dayOf (calculate_time_restricted_arrival st.currentTimestamp
            (drivableHours st)) : ℚ) +
            ((19:ℚ) + (0:ℚ)/60 + subsec (calculate_time_restricted_arrival
              st.currentTimestamp (drivableHours st))) := by
        rw [replaceHMS_decomp _ 19 0,
          dayOf_replaceHMS _ 17 30 (by norm_num) (by norm_num),
          subsec_replaceHMS _ 17 30 (by norm_num) (by norm_num)]
        push_cast
        ring
      have harr2 : calculate_time_restricted_arrival st.currentTimestamp
          (drivableHours st) ≤
          replaceHMS (replaceHMS (calculate_time_restricted_arrival
            st.currentTimestamp (drivableHours st)) 17 30) 19 0 + 10 := by
        rw [hsleep]
        conv_lhs => rw [← t_split (calculate_time_restricted_arrival
          st.currentTimestamp (drivableHours st))]
        push_cast
        linarith [hourOfDay_lt (calculate_time_restricted_arrival
          st.currentTimestamp (drivableHours st)),
          subsec_nonneg (calculate_time_restricted_arrival st.currentTimestamp
            (drivableHours st))]
      have hem2 : replaceHMS (replaceHMS (calculate_time_restricted_arrival
          st.currentTimestamp (drivableHours st)) 17 30) 19 0 + 10 ≤
          next_driving_start_time (replaceHMS (replaceHMS (replaceHMS
            (calculate_time_restricted_arrival st.currentTimestamp
              (drivableHours st)) 17 30) 19 0 + 10) 6 30) := by
        refine le_trans ?_ (ndst_ge _)
        apply le_replaceHMS
        have hlt := (hmOf_lt_div60 (replaceHMS (replaceHMS
          (calculate_time_restricted_arrival st.currentTimestamp
            (drivableHours st)) 17 30) 19 0 + 10) 390).mp
          (by unfold SLEEPER_END_HOUR at hem; push_cast; linarith)
        push_cast at hlt ⊢
        linarith
      refine FuelInvC_extend _ _ _ _ _ _ _
        (FuelInvC_extend _ _ _ _ _ _ _
          (FuelInvC_drive _ _ _ _ _ _ _ h hd0 hdr harr) ?_ harr2) ?_ hem2
      · intro s hs
        rcases (by simpa using hs :
            s = (⟨"off-duty", "End of Driving Day",
              interpolate_position route ((st.segmentPosition +
                drivableHours st * AVG_SPEED_MPH) / total),
              format_duration (SLEEPER_START_HOUR - DRIVING_END_HOUR),
              replaceHMS (calculate_time_restricted_arrival st.currentTimestamp
                (drivableHours st)) 17 30,
              st.segmentPosition + drivableHours st * AVG_SPEED_MPH⟩ : Stop) ∨
            s = (⟨"overnight", "Required 10-Hour Rest",
              interpolate_position route ((st.segmentPosition +
                drivableHours st * AVG_SPEED_MPH) / total), "10 hours",
              replaceHMS (replaceHMS (calculate_time_restricted_arrival
                st.currentTimestamp (drivableHours st)) 17 30) 19 0,
              st.segmentPosition + drivableHours st * AVG_SPEED_MPH⟩ : Stop))
          with hs' | hs'
        · subst hs'
          rfl
        · subst hs'
          rfl
      · intro s hs
        have hs' := List.mem_singleton.mp hs
        subst hs'
        rfl
    · unfold AVG_SPEED_MPH
      ring
  · constructor
    · have hsleep : replaceHMS (replaceHMS (calculate_time_restricted_arrival
          st.currentTimestamp (drivableHours st)) 17 30) 19 0 =
          24 * (dayOf (calculate_time_restricted_arrival st.currentTimestamp
            (drivableHours st)) : ℚ) +
            ((19:ℚ) + (0:ℚ)/60 + subsec (calculate_time_restricted_arrival
              st.currentTimestamp (drivableHours st))) := by
        rw [replaceHMS_decomp _ 19 0,
          dayOf_replaceHMS _ 17 30 (by norm_num) (by norm_num),
          subsec_replaceHMS _ 17 30 (by norm_num) (by norm_num)]
        push_cast
        ring
      have harr2 : calculate_time_restricted_arrival st.currentTimestamp
          (drivableHours st) ≤
          next_driving_start_time (replaceHMS (replaceHMS
            (calculate_time_restricted_arrival st.currentTimestamp
              (drivableHours st)) 17 30) 19 0 + 10) := by
        refine le_trans ?_ (ndst_ge _)
        rw [hsleep]
        conv_lhs => rw [← t_split (calculate_time_restricted_arrival
          st.currentTimestamp (drivableHours st))]
        push_cast
        linarith [hourOfDay_lt (calculate_time_restricted_arrival
          st.currentTimestamp (drivableHours st)),
          subsec_nonneg (calculate_time_restricted_arrival st.currentTimestamp
            (drivableHours st))]
      refine FuelInvC_extend _ _ _ _ _ _ _
        (FuelInvC_drive _ _ _ _ _ _ _ h hd0 hdr harr) ?_ harr2
      intro s hs
      rcases (by simpa using hs :
          s = (⟨"off-duty", "End of Driving Day",
            interpolate_position route ((st.segmentPosition +
              drivableHours st * AVG_SPEED_MPH) / total),
            format_duration (SLEEPER_START_HOUR - DRIVING_END_HOUR),
            replaceHMS (calculate_time_restricted_arrival st.currentTimestamp
              (drivableHours st)) 17 30,
            st.segmentPosition + drivableHours st * AVG_SPEED_MPH⟩ : Stop) ∨
          s = (⟨"overnight", "Required 10-Hour Rest",
            interpolate_position route ((st.segmentPosition +
              drivableHours st * AVG_SPEED_MPH) / total), "10 hours",
            replaceHMS (replaceHMS (calculate_time_restricted_arrival
              st.currentTimestamp (drivableHours st)) 17 30) 19 0,
            st.segmentPosition + drivableHours st * AVG_SPEED_MPH⟩ : Stop))
        with hs' | hs'
      · subst hs'
        rfl
      · subst hs'
        rfl
    · unfold AVG_SPEED_MPH
      ring
  · exact ⟨FuelInvC_drive _ _ _ _ _ _ _ h hd0 hdr harr,
      by unfold AVG_SPEED_MPH; ring⟩

theorem driveStep_inv (route : CombinedRoute) (total : ℚ) (st : DriveState)
    (h : FuelInv st) :
    FuelInv (driveStep route total st) ∧
    (driveStep route total st).segmentPosition +
        60 * (driveStep route total st).remainingDrive =
      st.segmentPosition + 60 * st.remainingDrive := by
  unfold driveStep
  split_ifs with hc1 hc2 hc3 hc4 hc5
  · obtain ⟨hi, hs, hm, hr⟩ := overnightBranch_inv route total st h
    exact ⟨hi, by rw [hs, hr]⟩
  · obtain ⟨hi, hs, hm, hr⟩ := breakBranch_inv route total st "30-Minute Break" h
    exact ⟨hi, by rw [hs, hr]⟩
  · obtain ⟨hi, hs, hm, hr⟩ :=
      breakBranch_inv route total st "30-Minute Break (Required)" h
    exact ⟨hi, by rw [hs, hr]⟩
  · exact fuelBranch_inv route total st h hc4.1 hc4.2
  · exact midBreakBranch_inv route total st h hc5.1 hc5.2
  · exact driveBranch_inv route total st h

theorem driveLoop_inv (route : CombinedRoute) (total : ℚ) :
    ∀ (n : ℕ) (st st' : DriveState), FuelInv st →
      driveLoop route total n st = some st' →
      FuelInv st' ∧ st'.remainingDrive ≤ 0 ∧
        st'.segmentPosition + 60 * st'.remainingDrive =
          st.segmentPosition + 60 * st.remainingDrive := by
  intro n
  induction n with
  | zero =>
    intro st st' h hl
    unfold driveLoop at hl
    split_ifs at hl with hc
    all_goals first
      | exact Option.noConfusion hl
      | (cases hl; exact ⟨h, not_lt.mp hc, rfl⟩)
  | succ n ih =>
    intro st st' h hl
    unfold driveLoop at hl
    split_ifs at hl with hc
    · obtain ⟨h1, h2⟩ := driveStep_inv route total st h
      obtain ⟨ha, hb, hcc⟩ := ih _ st' h1 hl
      exact ⟨ha, hb, by rw [hcc, h2]⟩
    · cases hl
      exact ⟨h, not_lt.mp hc, rfl⟩

theorem legStep_inv (geo : List ℚ → String) (route : CombinedRoute) (total : ℚ)
    (nloc : ℕ) (gas : ℕ) (g g' : GenState) (p : ℕ × LatLng)
    (hG : GInv g)
    (hcple : g.currentPosition ≤ total * ((p.1 : ℚ) / ((nloc : ℚ) - 1)))
    (hleg : legStep geo route total nloc gas g p = some g') :
    GInv g' ∧ g'.currentPosition = total * ((p.1 : ℚ) / ((nloc : ℚ) - 1)) := by
  obtain ⟨hg1, hg2, hg3, hg4, hg5, hg6⟩ := hG
  have hd0 : FuelInv (⟨g.stops, g.currentTimestamp, g.currentPosition,
      FUEL_STOP_INTERVAL - g.milesSinceLastFuel, g.hoursSinceBreak,
      (total * ((p.1 : ℚ) / ((nloc : ℚ) - 1)) - g.currentPosition) /
        AVG_SPEED_MPH, g.daysOnRoad⟩ : DriveState) := by
    refine ⟨hg1, by dsimp only; linarith, hg2, hg3, ?_, hg5, hg6⟩
    dsimp only
    apply div_nonneg (by linarith) (by unfold AVG_SPEED_MPH; norm_num)
  unfold legStep at hleg
  dsimp only at hleg
  cases hdl : driveLoop route total gas (⟨g.stops, g.currentTimestamp,
      g.currentPosition, FUEL_STOP_INTERVAL - g.milesSinceLastFuel,
      g.hoursSinceBreak,
      (total * ((p.1 : ℚ) / ((nloc : ℚ) - 1)) - g.currentPosition) /
        AVG_SPEED_MPH, g.daysOnRoad⟩ : DriveState) with
  | none =>
    rw [hdl] at hleg
    exact Option.noConfusion hleg
  | some d =>
    rw [hdl] at hleg
    obtain ⟨hFd, hrle, heq⟩ := driveLoop_inv route total gas _ d hd0 hdl
    have hr0 : d.remainingDrive = 0 := le_antisymm hrle hFd.2.2.2.2.1
    have hseg : d.segmentPosition = total * ((p.1 : ℚ) / ((nloc : ℚ) - 1)) := by
      have h60 : (60:ℚ) * ((total * ((p.1 : ℚ) / ((nloc : ℚ) - 1)) -
          g.currentPosition) / AVG_SPEED_MPH) =
          total * ((p.1 : ℚ) / ((nloc : ℚ) - 1)) - g.currentPosition := by
        unfold AVG_SPEED_MPH
        ring
      dsimp only at heq
      rw [hr0] at heq
      linarith
    have hdur : (0:ℚ) ≤ (if p.1 = 1 then PICKUP_DURATION
        else if p.1 = nloc - 1 then DROPOFF_DURATION else WAYPOINT_DURATION) := by
      split_ifs <;> first
        | (unfold PICKUP_DURATION; norm_num)
        | (unfold DROPOFF_DURATION; norm_num)
        | (unfold WAYPOINT_DURATION; norm_num)
    have hnf : ((if p.1 = 1 then "pickup"
        else if p.1 = nloc - 1 then "dropoff" else "waypoint") == "fuel") =
        false := by
      split_ifs <;> rfl
    cases hleg
    have hE := FuelInvC_extend d.stops
      [⟨(if p.1 = 1 then "pickup"
          else if p.1 = nloc - 1 then "dropoff" else "waypoint"),
        pyCapitalize (if p.1 = 1 then "pickup"
          else if p.1 = nloc - 1 then "dropoff" else "waypoint") ++ " at " ++
          geo [p.2.lng, p.2.lat],
        [p.2.lng, p.2.lat],
        format_duration (if p.1 = 1 then PICKUP_DURATION
          else if p.1 = nloc - 1 then DROPOFF_DURATION else WAYPOINT_DURATION),
        d.currentTimestamp,
        total * ((p.1 : ℚ) / ((nloc : ℚ) - 1))⟩]
      d.segmentPosition d.milesToNextFuel d.remainingDrive d.currentTimestamp
      (d.currentTimestamp + (if p.1 = 1 then PICKUP_DURATION
        else if p.1 = nloc - 1 then DROPOFF_DURATION else WAYPOINT_DURATION))
      hFd ?_ (by linarith)
    · obtain ⟨he1, he2, he3, he4, he5, he6, he7⟩ := hE
    
      refine ⟨⟨he1, ?_, he4, ?_, he6, he7⟩, rfl⟩
      · dsimp only
        rw [hseg] at he3
        exact he3
      · dsimp only
        rw [hg4]
        ring
    · intro s hs
      have hs' := List.mem_singleton.mp hs
      subst hs'
      exact hnf

theorem preludeState_props (locations : List LatLng)
    (start_time current_cycle_used : ℚ) :
    GInv (preludeState locations start_time current_cycle_used) ∧
    (preludeState locations start_time current_cycle_used).currentPosition = 0 := by
  constructor
  · apply GInv_of_nofuel
    · unfold preludeState
      dsimp only
      split_ifs with h1 h2 h3
      · intro s hs
        simp only [List.mem_append, List.mem_singleton] at hs
        rcases hs with (hs | hs) | hs <;> subst hs <;> rfl
      · intro s hs
        simp only [List.mem_append, List.mem_singleton] at hs
        rcases hs with hs | hs <;> subst hs <;> rfl
      · intro s hs
        simp only [List.mem_append, List.mem_singleton] at hs
        rcases hs with hs | hs <;> subst hs <;> rfl
      · intro s hs
        simp only [List.mem_singleton] at hs
        subst hs
        rfl
    · unfold preludeState
      dsimp only
      split_ifs <;> rfl
    · unfold preludeState
      dsimp only
      split_ifs <;> norm_num
  · unfold preludeState
    dsimp only
    split_ifs <;> rfl

theorem processLegs_inv (geo : List ℚ → String) (route : CombinedRoute)
    (total : ℚ) (nloc : ℕ) (gas : ℕ) (htot : 0 ≤ total) (hn : 2 ≤ nloc) :
    ∀ (ps : List (ℕ × LatLng)) (j : ℕ) (g g' : GenState),
      ps.map Prod.fst = List.range' j ps.length →
      1 ≤ j →
      GInv g →
      g.currentPosition = total * (((j : ℚ) - 1) / ((nloc : ℚ) - 1)) →
      processLegs geo route total nloc gas ps g = some g' →
      GInv g' := by
  intro ps
  induction ps with
  | nil =>
    intro j g g' _ _ hG _ hp
    unfold processLegs at hp
    cases hp
    exact hG
  | cons p rest ih =>
    intro j g g' hmap hj hG hcp hp
    simp only [List.map_cons, List.length_cons, List.range'_succ] at hmap
    injection hmap with hfst hrest
    unfold processLegs at hp
    cases hls : legStep geo route total nloc gas g p with
    | none =>
      rw [hls] at hp
      exact Option.noConfusion hp
    | some g2 =>
      rw [hls] at hp
      have hden : (0:ℚ) < (nloc : ℚ) - 1 := by
        have h2 : (2:ℚ) ≤ (nloc : ℚ) := by exact_mod_cast hn
        linarith
      have hcple : g.currentPosition ≤ total * ((p.1 : ℚ) / ((nloc : ℚ) - 1)) := by
        rw [hcp, hfst]
        apply mul_le_mul_of_nonneg_left ?_ htot
        rw [div_le_div_iff_of_pos_right hden]
        linarith
      obtain ⟨hG2, hcp2⟩ := legStep_inv geo route total nloc gas g g2 p hG hcple hls
      refine ih (j + 1) g2 g' hrest (by omega) hG2 ?_ hp
      rw [hcp2, hfst]
      push_cast
      ring_nf

theorem drop_one_range (n : ℕ) : (List.range n).drop 1 = List.range' 1 (n - 1) := by
  cases n with
  | zero => rfl
  | succ m =>
    rw [List.range_succ_eq_map]
    show List.map Nat.succ (List.range m) = List.range' 1 (m + 1 - 1)
    rw [Nat.add_sub_cancel, List.range'_eq_map_range]
    apply List.map_congr_left
    intro a _
    omega

theorem enum_drop_map_fst {α : Type} (l : List α) :
    (l.enum.drop 1).map Prod.fst = List.range' 1 ((l.enum.drop 1).length) := by
  rw [List.map_drop, List.enum_map_fst]
  rw [List.length_drop, List.enum_length]
  exact drop_one_range l.length

theorem perm_sorted_pairwise_lt_eq :
    ∀ (l₁ l₂ : List Stop), l₁.Perm l₂ →
      l₁.Pairwise (fun a b => a.estimatedArrival < b.estimatedArrival) →
      l₂.Pairwise (fun a b => a.estimatedArrival ≤ b.estimatedArrival) →
      l₂ = l₁ := by
  intro l₁
  induction l₁ with
  | nil =>
    intro l₂ hp _ _
    exact List.Perm.eq_nil hp.symm
  | cons a t₁ ih =>
    intro l₂ hp h₁ h₂
    cases l₂ with
    | nil =>
      exfalso
      simpa using hp.length_eq
    | cons b t₂ =>
      rcases List.pairwise_cons.mp h₁ with ⟨ha, ht₁⟩
      rcases List.pairwise_cons.mp h₂ with ⟨hb, ht₂⟩
      have hab : b = a := by
        have hbmem : b ∈ a :: t₁ := hp.symm.subset (List.mem_cons_self b t₂)
        rcases List.mem_cons.mp hbmem with hcase | hcase
        · exact hcase
        · have hamem : a ∈ b :: t₂ := hp.subset (List.mem_cons_self a t₁)
          rcases List.mem_cons.mp hamem with hcase2 | hcase2
          · exact hcase2.symm
          · exact absurd (ha b hcase) (not_lt.mpr (hb a hcase2))
      subst hab
      rw [ih t₂ hp.cons_inv ht₁ ht₂]

/-- C2: in every stop list the planner returns, the mile position of the
first fuel stop is at most FUEL_STOP_INTERVAL = 500, and each later fuel stop
is at most 500 miles past its predecessor (fuel stops are emitted in
strictly increasing arrival-time order, which the final sort preserves). -/
theorem fuel_stop_gaps (geo : List ℚ → String) (route : CombinedRoute)
    (locations : List LatLng) (start_time current_cycle_used : ℚ) (gas : ℕ)
    (stops : List Stop)
    (hdist : 0 ≤ route.distance) (hloc : 2 ≤ locations.length)
    (h : generate_stops geo route locations start_time current_cycle_used gas =
      some stops) :
    fuelGapsOK (fuelPositions stops) = true := by
  unfold generate_stops at h
  cases hpl : processLegs geo route route.distance locations.length gas
      (locations.enum.drop 1)
      (preludeState locations start_time current_cycle_used) with
  | none =>
    rw [hpl] at h
    exact Option.noConfusion h
  | some g =>
    rw [hpl] at h
    cases h
    obtain ⟨hGpre, hcp0⟩ :=
      preludeState_props locations start_time current_cycle_used
    have hmap := enum_drop_map_fst locations
    have hG := processLegs_inv geo route route.distance locations.length gas
      hdist hloc (locations.enum.drop 1) 1
      (preludeState locations start_time current_cycle_used) g hmap
      (le_refl 1) hGpre (by rw [hcp0]; norm_num) hpl
    obtain ⟨hg1, hg2, hg3, hg4, hg5, hg6⟩ := hG
    have hperm : (fuelStopsOf g.stops).Perm
        (fuelStopsOf (List.insertionSort
          (fun a b => a.estimatedArrival ≤ b.estimatedArrival) g.stops)) := by
      unfold fuelStopsOf
      exact ((List.perm_insertionSort _ g.stops).filter _).symm
    haveI : IsTotal Stop (fun a b => a.estimatedArrival ≤ b.estimatedArrival) :=
      ⟨fun a b => le_total a.estimatedArrival b.estimatedArrival⟩
    haveI : IsTrans Stop (fun a b => a.estimatedArrival ≤ b.estimatedArrival) :=
      ⟨fun a b c hab hbc => le_trans hab hbc⟩
    have hsorted : (fuelStopsOf (List.insertionSort
        (fun a b => a.estimatedArrival ≤ b.estimatedArrival)
          g.stops)).Pairwise
        (fun a b => a.estimatedArrival ≤ b.estimatedArrival) := by
      unfold fuelStopsOf
      exact (List.sorted_insertionSort _ g.stops).filter _
    have heq := perm_sorted_pairwise_lt_eq (fuelStopsOf g.stops) _ hperm hg5
      hsorted
    unfold fuelPositions
    rw [heq]
    exact hg1

/-- Witness for `fuel_stop_gaps`: a 540-mile two-location trip starting at
07:00; the planner emits one fuel stop, at mile 500. -/
theorem fuel_stop_gaps_witness :
    ∃ stops, generate_stops geoConst routeW locsW 7 0 10 = some stops ∧
      fuelGapsOK (fuelPositions stops) = true := by
  have hs : (generate_stops geoConst routeW locsW 7 0 10).isSome = true := by
    with_unfolding_all decide
  obtain ⟨stops, hstops⟩ := Option.isSome_iff_exists.mp hs
  exact ⟨stops, hstops, fuel_stop_gaps geoConst routeW locsW 7 0 10 stops
    (by unfold routeW; norm_num) (by unfold locsW; norm_num) hstops⟩

/-! ### Termination of the drive loop -/

theorem hourOfDay_lt_hm (t : ℚ) : hourOfDay t < hmOf t + 1/60 := by
  unfold hmOf
  have h := Int.lt_floor_add_one (hourOfDay t * 60)
  rw [div_add_div_same, lt_div_iff (by norm_num : (0:ℚ) < 60)]
  linarith

theorem hourOfDay_add_small (t c : ℚ) (h1 : 0 ≤ c)
    (h2 : hourOfDay t + c < 24) :
    hourOfDay (t + c) = hourOfDay t + c := by
  have ht : t + c = 24 * (dayOf t : ℚ) + (hourOfDay t + c) := by
    have := t_split t
    linarith
  rw [ht]
  exact hourOfDay_shift _ _ (by linarith [hourOfDay_nonneg t]) h2

theorem hm_add_ge (t c : ℚ) (h1 : 0 ≤ c) (h2 : hourOfDay t + c < 24) :
    hmOf t ≤ hmOf (t + c) := by
  unfold hmOf
  rw [hourOfDay_add_small t c h1 h2]
  have hf : Int.floor (hourOfDay t * 60) ≤ Int.floor ((hourOfDay t + c) * 60) :=
    Int.floor_le_floor (by nlinarith)
  have hf2 : ((Int.floor (hourOfDay t * 60) : ℚ)) ≤
      ((Int.floor ((hourOfDay t + c) * 60) : ℚ)) := by exact_mod_cast hf
  linarith

theorem hm_add_le (t c : ℚ) (h1 : 0 ≤ c) (h2 : hourOfDay t + c < 24) :
    hmOf (t + c) ≤ hmOf t + c + 1/60 := by
  have ha := hmOf_le (t + c)
  rw [hourOfDay_add_small t c h1 h2] at ha
  have hb := hourOfDay_lt_hm t
  linarith

theorem hue_eq (t : ℚ) (h : hmOf t < 35/2) :
    calculate_hours_until_end_of_driving_day t = 35/2 - hmOf t := by
  unfold calculate_hours_until_end_of_driving_day DRIVING_END_HOUR
  rw [if_neg (by linarith)]

theorem hue_eq0 (t : ℚ) (h : 35/2 ≤ hmOf t) :
    calculate_hours_until_end_of_driving_day t = 0 := by
  unfold calculate_hours_until_end_of_driving_day DRIVING_END_HOUR
  rw [if_pos h]

theorem hue_le (t : ℚ) (h : 7 ≤ hmOf t) :
    calculate_hours_until_end_of_driving_day t ≤ 21/2 := by
  unfold calculate_hours_until_end_of_driving_day
  split_ifs
  · norm_num
  · unfold DRIVING_END_HOUR
    linarith

theorem ndst_id (t : ℚ) (h1 : 7 ≤ hmOf t) (h2 : hmOf t < 35/2) :
    next_driving_start_time t = t := by
  unfold next_driving_start_time DRIVING_START_HOUR DRIVING_END_HOUR
  rw [if_neg (by linarith), if_neg (by linarith)]

theorem hm_shift_subsec (k n : ℤ) (t : ℚ) (h1 : 0 ≤ (n : ℚ) / 60)
    (h2 : (n : ℚ) / 60 + 1/3600 ≤ 24) :
    hourOfDay (24 * (k : ℚ) + (n : ℚ) / 60 + subsec t) =
      (n : ℚ) / 60 + subsec t ∧
    hmOf (24 * (k : ℚ) + (n : ℚ) / 60 + subsec t) = (n : ℚ) / 60 := by
  have hh : hourOfDay (24 * (k : ℚ) + (n : ℚ) / 60 + subsec t) =
      (n : ℚ) / 60 + subsec t := by
    have he : 24 * (k : ℚ) + (n : ℚ) / 60 + subsec t =
        24 * (k : ℚ) + ((n : ℚ) / 60 + subsec t) := by ring
    rw [he]
    exact hourOfDay_shift _ _ (by linarith [subsec_nonneg t])
      (by linarith [subsec_lt t])
  refine ⟨hh, ?_⟩
  unfold hmOf
  rw [hh]
  have he : ((n : ℚ) / 60 + subsec t) * 60 = (n : ℚ) + subsec t * 60 := by
    ring
  rw [he, Int.floor_int_add]
  have h60 : ⌊subsec t * 60⌋ = 0 := by
    rw [Int.floor_eq_zero_iff]
    constructor
    · nlinarith [subsec_nonneg t]
    · nlinarith [subsec_lt t]
  rw [h60]
  push_cast
  ring

theorem hm_day14 (t : ℚ) :
    hmOf (24 * (dayOf t : ℚ) + 14) = 14 := by
  have h := hm_shift_subsec (dayOf t) 840 (24 * (dayOf t : ℚ))
    (by norm_num) (by norm_num)
  have hs : subsec (24 * (dayOf t : ℚ)) = 0 := by
    unfold subsec
    have hh : hourOfDay (24 * (dayOf t : ℚ)) = 0 := by
      have := hourOfDay_shift (dayOf t) 0 (le_refl 0) (by norm_num)
      simpa using this
    rw [hh]
    norm_num
  rw [hs] at h
  have he : 24 * (dayOf t : ℚ) + (840 : ℤ) / 60 + 0 =
      24 * (dayOf t : ℚ) + 14 := by push_cast; ring
  rw [he] at h
  have := h.2
  push_cast at this
  linarith [this]

theorem align_cases (t : ℚ) :
    align_break_time t = t ∨
      (12 ≤ hmOf t ∧ hmOf t < 14 ∧
        align_break_time t = 24 * (dayOf t : ℚ) + 14) := by
  unfold align_break_time PREFERRED_BREAK_HOUR
  dsimp only
  split_ifs with h1 h2 h3
  · exact Or.inl rfl
  · exact Or.inr ⟨h2.1, h2.2, rfl⟩
  · exact Or.inl rfl
  · exact Or.inl rfl

theorem hm_align_le (t : ℚ) : hmOf (align_break_time t) ≤ hmOf t + 2 := by
  rcases align_cases t with h | ⟨h1, h2, h3⟩
  · rw [h]
    linarith
  · rw [h3, hm_day14]
    linarith

theorem hm_align_ge (t : ℚ) (h : 7 ≤ hmOf t) :
    7 ≤ hmOf (align_break_time t) := by
  rcases align_cases t with hc | ⟨h1, h2, h3⟩
  · rw [hc]
    exact h
  · rw [h3, hm_day14]
    norm_num

theorem hm_ctra_lower : ∀ (n : ℕ) (t dh : ℚ), 7 ≤ hmOf t →
    7 ≤ hmOf (ctraAux n t dh) := by
  intro n
  induction n with
  | zero => intro t dh h; exact h
  | succ n ih =>
    intro t dh h
    unfold ctraAux
    dsimp only
    split_ifs with h1 h2
    · exact h
    · push_neg at h1
      have hcur := hm_ndst t
      unfold DRIVING_START_HOUR DRIVING_END_HOUR at hcur
      have hhue := hue_eq (next_driving_start_time t) hcur.2
      have hwrap : hourOfDay (next_driving_start_time t) + dh < 24 := by
        have := hourOfDay_lt_hm (next_driving_start_time t)
        rw [hhue] at h2
        linarith
      calc (7:ℚ) ≤ hmOf (next_driving_start_time t) := hcur.1
        _ ≤ hmOf (next_driving_start_time t + dh) :=
          hm_add_ge _ _ (le_of_lt h1) hwrap
    · apply ih
      have := (hm_shift_subsec (dayOf (replaceHMS (next_driving_start_time t)
        17 30 + 24)) 420 (replaceHMS (next_driving_start_time t) 17 30 + 24)
        (by norm_num) (by norm_num)).2
      rw [hmOf_replaceHMS _ 7 0 (by norm_num) (by norm_num)]
      push_cast
      norm_num

theorem hm_ctra_upper : ∀ (n : ℕ) (t dh : ℚ), hmOf t ≤ 1051/60 →
    hmOf (ctraAux n t dh) ≤ 1051/60 := by
  intro n
  induction n with
  | zero => intro t dh h; exact h
  | succ n ih =>
    intro t dh h
    unfold ctraAux
    dsimp only
    split_ifs with h1 h2
    · exact h
    · push_neg at h1
      have hcur := hm_ndst t
      unfold DRIVING_START_HOUR DRIVING_END_HOUR at hcur
      have hhue := hue_eq (next_driving_start_time t) hcur.2
      have hwrap : hourOfDay (next_driving_start_time t) + dh < 24 := by
        have := hourOfDay_lt_hm (next_driving_start_time t)
        rw [hhue] at h2
        linarith
      have hle := hm_add_le (next_driving_start_time t) dh (le_of_lt h1) hwrap
      rw [hhue] at h2
      linarith
    · apply ih
      rw [hmOf_replaceHMS _ 7 0 (by norm_num) (by norm_num)]
      norm_num

theorem ctra_short (t dh : ℚ) (h0 : 0 < dh) (h1 : 7 ≤ hmOf t)
    (h2 : hmOf t < 35/2) (h3 : dh ≤ 35/2 - hmOf t) :
    calculate_time_restricted_arrival t dh = t + dh := by
  unfold calculate_time_restricted_arrival ctraFuel
  show ctraAux (Int.toNat ⌈dh⌉ + 1 + 1) t dh = t + dh
  unfold ctraAux
  dsimp only
  rw [if_neg (by linarith), ndst_id t h1 h2, hue_eq t h2, if_pos h3]

theorem driveLoop_done (route : CombinedRoute) (total : ℚ) (st : DriveState)
    (h : ¬ 0 < st.remainingDrive) :
    ∀ m : ℕ, driveLoop route total m st = some st := by
  intro m
  cases m with
  | zero => simp [driveLoop, h]
  | succ k => simp [driveLoop, h]

theorem driveLoop_mono (route : CombinedRoute) (total : ℚ) :
    ∀ (n k : ℕ) (st st' : DriveState),
      driveLoop route total n st = some st' →
      driveLoop route total (n + k) st = some st' := by
  intro n
  induction n with
  | zero =>
    intro k st st' h
    unfold driveLoop at h
    split_ifs at h with hc
    all_goals first
      | exact Option.noConfusion h
      | (cases h; exact driveLoop_done route total st hc (0 + k))
  | succ n ih =>
    intro k st st' h
    have he : n + 1 + k = (n + k) + 1 := by omega
    rw [he]
    unfold driveLoop at h ⊢
    split_ifs at h ⊢ with hc
    · exact ih k _ st' h
    · exact h

theorem hue_ge (t : ℚ) :
    35/2 - hmOf t ≤ calculate_hours_until_end_of_driving_day t := by
  unfold calculate_hours_until_end_of_driving_day DRIVING_END_HOUR
  split_ifs with h
  · linarith
  · linarith

theorem hm_ndst_le (t : ℚ) (h : hmOf t < 35/2) :
    hmOf (next_driving_start_time t) ≤ max (hmOf t) 7 := by
  unfold next_driving_start_time DRIVING_START_HOUR DRIVING_END_HOUR
  split_ifs with h1 h2
  · rw [hmOf_replaceHMS t 7 0 (by norm_num) (by norm_num)]
    push_cast
    simp
  · linarith
  · exact le_max_left _ _

theorem hm_align_le_max (t : ℚ) :
    hmOf (align_break_time t) ≤ max (hmOf t) 14 := by
  rcases align_cases t with h | ⟨h1, h2, h3⟩
  · rw [h]
    exact le_max_left _ _
  · rw [h3, hm_day14]
    exact le_max_right _ _

theorem max_zero_add_le (a c : ℚ) (hc : 0 ≤ c) :
    max 0 (a + c) ≤ max 0 a + c := by
  apply max_le
  · have := le_max_left (0:ℚ) a
    linarith
  · have := le_max_right (0:ℚ) a
    linarith

theorem overnightBranch_phi (route : CombinedRoute) (total : ℚ)
    (st : DriveState) (hL : LoopInv st)
    (hguard : calculate_hours_until_end_of_driving_day st.currentTimestamp ≤ 0) :
    phi (overnightBranch route total st) ≤ phi st - 1 ∧
    7 ≤ hmOf (overnightBranch route total st).currentTimestamp ∧
    hmOf (overnightBranch route total st).currentTimestamp ≤ 93/5 ∧
    (overnightBranch route total st).milesToNextFuel ≤ FUEL_STOP_INTERVAL := by
  obtain ⟨hL1, hL2, hL3⟩ := hL
  have hue0 : calculate_hours_until_end_of_driving_day st.currentTimestamp = 0 :=
    le_antisymm hguard (hue_nonneg _)
  have hm175 : 35/2 ≤ hmOf st.currentTimestamp := by
    by_contra hcon
    push_neg at hcon
    rw [hue_eq _ hcon] at hue0
    linarith
  have hm5 : hmOf (replaceHMS st.currentTimestamp 19 0 + 10) = 5 := by
    have ht1 : replaceHMS st.currentTimestamp 19 0 + 10 =
        24 * ((dayOf st.currentTimestamp : ℚ) + 1) + ((300 : ℤ) : ℚ) / 60 +
          subsec st.currentTimestamp := by
      rw [replaceHMS_decomp]
      push_cast
      ring
    rw [ht1]
    have hsh := (hm_shift_subsec (dayOf st.currentTimestamp + 1) 300
      st.currentTimestamp (by norm_num) (by norm_num)).2
    push_cast at hsh ⊢
    rw [hsh]
    norm_num
  unfold overnightBranch
  dsimp only
  split_ifs with c1 c2 c3
  · -- off-duty window, early morning: exit at 07:00
    have h65 : hmOf (replaceHMS (replaceHMS st.currentTimestamp 19 0 + 10)
        6 30) = 13/2 := by
      rw [hmOf_replaceHMS _ 6 30 (by norm_num) (by norm_num)]
      norm_num
    have hexit : hmOf (next_driving_start_time (replaceHMS
        (replaceHMS st.currentTimestamp 19 0 + 10) 6 30)) ≤ 7 := by
      have := hm_ndst_le (replaceHMS (replaceHMS st.currentTimestamp 19 0 + 10)
        6 30) (by rw [h65]; norm_num)
      rw [h65] at this
      exact le_trans this (by norm_num)
    have hexit7 := (hm_ndst (replaceHMS (replaceHMS st.currentTimestamp 19 0 +
      10) 6 30)).1
    unfold DRIVING_START_HOUR at hexit7
    have hhue' := hue_ge (next_driving_start_time (replaceHMS
      (replaceHMS st.currentTimestamp 19 0 + 10) 6 30))
    unfold phi
    dsimp only
    rw [hue0]
    have hmx : max (0:ℚ) 0 = 0 := by norm_num
    rw [hmx]
    have hmax := le_max_left (0:ℚ) st.hoursSinceBreak
    exact ⟨by linarith, hexit7, by linarith, hL3⟩
  · -- off-duty window without early morning: impossible, 19:00 + 10h is 05:00
    exfalso
    dsimp only at c2
    rw [hm5] at c2
    unfold SLEEPER_END_HOUR at c2
    norm_num at c2
  · -- current hour in [19, 24), early morning branch: exit at 07:00
    have h65 : hmOf (replaceHMS (st.currentTimestamp + 10) 6 30) = 13/2 := by
      rw [hmOf_replaceHMS _ 6 30 (by norm_num) (by norm_num)]
      norm_num
    have hexit : hmOf (next_driving_start_time (replaceHMS
        (st.currentTimestamp + 10) 6 30)) ≤ 7 := by
      have := hm_ndst_le (replaceHMS (st.currentTimestamp + 10) 6 30)
        (by rw [h65]; norm_num)
      rw [h65] at this
      exact le_trans this (by norm_num)
    have hexit7 := (hm_ndst (replaceHMS (st.currentTimestamp + 10) 6 30)).1
    unfold DRIVING_START_HOUR at hexit7
    have hhue' := hue_ge (next_driving_start_time (replaceHMS
      (st.currentTimestamp + 10) 6 30))
    unfold phi
    dsimp only
    rw [hue0]
    have hmx : max (0:ℚ) 0 = 0 := by norm_num
    rw [hmx]
    have hmax := le_max_left (0:ℚ) st.hoursSinceBreak
    exact ⟨by linarith, hexit7, by linarith, hL3⟩
  · -- current hour in [19, 24), no early morning: exit below 10:00
    have hch19 : 19 ≤ hmOf st.currentTimestamp := by
      rcases not_and_or.mp c1 with hc | hc
      · exfalso
        unfold DRIVING_END_HOUR at hc
        exact hc hm175
      · unfold SLEEPER_START_HOUR at hc
        linarith [not_lt.mp hc]
    have hhOD : 19 ≤ hourOfDay st.currentTimestamp :=
      le_trans hch19 (hmOf_le _)
    have ht2 : st.currentTimestamp + 10 =
        24 * ((dayOf st.currentTimestamp + 1 : ℤ) : ℚ) +
          (hourOfDay st.currentTimestamp - 14) := by
      have := t_split st.currentTimestamp
      push_cast
      linarith
    have hh2 : hourOfDay (st.currentTimestamp + 10) =
        hourOfDay st.currentTimestamp - 14 := by
      rw [ht2]
      exact hourOfDay_shift (dayOf st.currentTimestamp + 1)
        (hourOfDay st.currentTimestamp - 14) (by linarith)
        (by linarith [hourOfDay_lt st.currentTimestamp])
    have hm2lt : hmOf (st.currentTimestamp + 10) < 10 := by
      have := hmOf_le (st.currentTimestamp + 10)
      rw [hh2] at this
      linarith [hourOfDay_lt st.currentTimestamp]
    have hexit : hmOf (next_driving_start_time (st.currentTimestamp + 10)) <
        10 := by
      have := hm_ndst_le (st.currentTimestamp + 10) (by linarith)
      rcases max_cases (hmOf (st.currentTimestamp + 10)) (7:ℚ) with
        ⟨he, _⟩ | ⟨he, _⟩ <;> rw [he] at this <;> linarith
    have hexit7 := (hm_ndst (st.currentTimestamp + 10)).1
    unfold DRIVING_START_HOUR at hexit7
    have hhue' := hue_ge (next_driving_start_time (st.currentTimestamp + 10))
    unfold phi
    dsimp only
    rw [hue0]
    have hmx : max (0:ℚ) 0 = 0 := by norm_num
    rw [hmx]
    have hmax := le_max_left (0:ℚ) st.hoursSinceBreak
    exact ⟨by linarith, hexit7, by linarith, hL3⟩

theorem breakBranch_phi (route : CombinedRoute) (total : ℚ) (st : DriveState)
    (name : String) (hL : LoopInv st)
    (hhue : ¬ calculate_hours_until_end_of_driving_day st.currentTimestamp ≤ 0)
    (hhsb : 8 ≤ st.hoursSinceBreak) :
    phi (breakBranch route total st name) ≤ phi st - 1 ∧
    7 ≤ hmOf (breakBranch route total st name).currentTimestamp ∧
    hmOf (breakBranch route total st name).currentTimestamp ≤ 93/5 ∧
    (breakBranch route total st name).milesToNextFuel ≤ FUEL_STOP_INTERVAL := by
  obtain ⟨hL1, hL2, hL3⟩ := hL
  have hm175 : hmOf st.currentTimestamp < 35/2 := by
    by_contra hcon
    push_neg at hcon
    exact hhue (le_of_eq (hue_eq0 _ hcon))
  have hbt7 : 7 ≤ hmOf (align_break_time st.currentTimestamp) :=
    hm_align_ge _ hL1
  have hbtle : hmOf (align_break_time st.currentTimestamp) ≤
      max (hmOf st.currentTimestamp) 14 := hm_align_le_max _
  have hbt175 : hmOf (align_break_time st.currentTimestamp) < 35/2 := by
    rcases max_cases (hmOf st.currentTimestamp) (14:ℚ) with ⟨he, _⟩ | ⟨he, _⟩ <;>
      rw [he] at hbtle <;> linarith
  have hwrap : hourOfDay (align_break_time st.currentTimestamp) + 1/2 < 24 := by
    have := hourOfDay_lt_hm (align_break_time st.currentTimestamp)
    linarith
  have hup := hm_add_le (align_break_time st.currentTimestamp) (1/2)
    (by norm_num) hwrap
  have hlo := hm_add_ge (align_break_time st.currentTimestamp) (1/2)
    (by norm_num) hwrap
  have hal2 := hm_align_le st.currentTimestamp
  have hhue2 := hue_ge (align_break_time st.currentTimestamp + 1/2)
  have hhue3 := hue_eq st.currentTimestamp hm175
  unfold phi breakBranch
  dsimp only
  unfold BREAK_DURATION
  have hmr : max (0:ℚ) st.hoursSinceBreak = st.hoursSinceBreak :=
    max_eq_right (by linarith)
  have hmx : max (0:ℚ) 0 = 0 := by norm_num
  rw [hmr, hmx]
  refine ⟨?_, by linarith, by linarith, hL3⟩
  linarith

theorem fuelBranch_phi (route : CombinedRoute) (total : ℚ) (st : DriveState)
    (hL : LoopInv st)
    (hhue : ¬ calculate_hours_until_end_of_driving_day st.currentTimestamp ≤ 0)
    (hfu1 : st.milesToNextFuel ≤ drivableHours st * AVG_SPEED_MPH)
    (hfu2 : 0 < st.milesToNextFuel) :
    phi (fuelBranch route total st) ≤ phi st - 1 ∧
    7 ≤ hmOf (fuelBranch route total st).currentTimestamp ∧
    hmOf (fuelBranch route total st).currentTimestamp ≤ 93/5 ∧
    (fuelBranch route total st).milesToNextFuel ≤ FUEL_STOP_INTERVAL := by
  obtain ⟨hL1, hL2, hL3⟩ := hL
  have hm175 : hmOf st.currentTimestamp < 35/2 := by
    by_contra hcon
    push_neg at hcon
    exact hhue (le_of_eq (hue_eq0 _ hcon))
  have hdr : drivableHours st ≤ 35/2 - hmOf st.currentTimestamp := by
    have h1 : drivableHours st ≤
        calculate_hours_until_end_of_driving_day st.currentTimestamp := by
      unfold drivableHours
      exact le_trans (min_le_right _ _) (min_le_left _ _)
    rw [hue_eq _ hm175] at h1
    exact h1
  unfold AVG_SPEED_MPH at hfu1
  have hdpos : 0 < st.milesToNextFuel / 60 := by positivity
  have hdle : st.milesToNextFuel / 60 ≤ 35/2 - hmOf st.currentTimestamp := by
    rw [div_le_iff (by norm_num : (0:ℚ) < 60)]
    linarith
  have harr : calculate_time_restricted_arrival st.currentTimestamp
      (st.milesToNextFuel / 60) =
      st.currentTimestamp + st.milesToNextFuel / 60 :=
    ctra_short _ _ hdpos hL1 hm175 hdle
  have hwrap1 : hourOfDay st.currentTimestamp + st.milesToNextFuel / 60 <
      24 := by
    have := hourOfDay_lt_hm st.currentTimestamp
    linarith
  have harr_ge := hm_add_ge st.currentTimestamp (st.milesToNextFuel / 60)
    (le_of_lt hdpos) hwrap1
  have harr_le := hm_add_le st.currentTimestamp (st.milesToNextFuel / 60)
    (le_of_lt hdpos) hwrap1
  have hwrap2 : hourOfDay (st.currentTimestamp + st.milesToNextFuel / 60) +
      1/2 < 24 := by
    have := hourOfDay_lt_hm (st.currentTimestamp + st.milesToNextFuel / 60)
    linarith
  have hn1_ge := hm_add_ge (st.currentTimestamp + st.milesToNextFuel / 60)
    (1/2) (by norm_num) hwrap2
  have hn1_le := hm_add_le (st.currentTimestamp + st.milesToNextFuel / 60)
    (1/2) (by norm_num) hwrap2
  have hn1_lb : 7 ≤ hmOf (st.currentTimestamp + st.milesToNextFuel / 60 +
      1/2) := le_trans hL1 (le_trans harr_ge hn1_ge)
  have hn1_ub : hmOf (st.currentTimestamp + st.milesToNextFuel / 60 + 1/2) ≤
      541/30 := by linarith
  have hhue0 := hue_eq st.currentTimestamp hm175
  unfold phi fuelBranch AVG_SPEED_MPH FUEL_DURATION FUEL_STOP_INTERVAL
  dsimp only
  split_ifs with hb
  · -- a 30-minute break is appended right after the fuel stop
    dsimp only
    rw [harr]
    unfold BREAK_DURATION
    have hal7 : 7 ≤ hmOf (align_break_time
        (st.currentTimestamp + st.milesToNextFuel / 60 + 1/2)) :=
      hm_align_ge _ hn1_lb
    have halle := hm_align_le_max
      (st.currentTimestamp + st.milesToNextFuel / 60 + 1/2)
    have hal_ub : hmOf (align_break_time
        (st.currentTimestamp + st.milesToNextFuel / 60 + 1/2)) ≤ 541/30 := by
      rcases max_cases (hmOf (st.currentTimestamp + st.milesToNextFuel / 60 +
        1/2)) (14:ℚ) with ⟨he, _⟩ | ⟨he, _⟩ <;> rw [he] at halle <;> linarith
    have hwrap3 : hourOfDay (align_break_time
        (st.currentTimestamp + st.milesToNextFuel / 60 + 1/2)) + 1/2 < 24 := by
      have := hourOfDay_lt_hm (align_break_time
        (st.currentTimestamp + st.milesToNextFuel / 60 + 1/2))
      linarith
    have hex_ge := hm_add_ge (align_break_time
      (st.currentTimestamp + st.milesToNextFuel / 60 + 1/2)) (1/2)
      (by norm_num) hwrap3
    have hex_le := hm_add_le (align_break_time
      (st.currentTimestamp + st.milesToNextFuel / 60 + 1/2)) (1/2)
      (by norm_num) hwrap3
    have hhue2 := hue_ge (align_break_time
      (st.currentTimestamp + st.milesToNextFuel / 60 + 1/2) + 1/2)
    rw [hhue0]
    have hmx : max (0:ℚ) 0 = 0 := by norm_num
    rw [hmx]
    have hmax0 := le_max_left (0:ℚ) st.hoursSinceBreak
    refine ⟨by linarith, by linarith, by linarith, by norm_num⟩
  · dsimp only
    rw [harr]
    have hhue2 := hue_ge (st.currentTimestamp + st.milesToNextFuel / 60 + 1/2)
    rw [hhue0]
    have hmaxle := max_zero_add_le st.hoursSinceBreak
      (st.milesToNextFuel / 60) (le_of_lt hdpos)
    refine ⟨by linarith, hn1_lb, by linarith, by norm_num⟩

theorem midBreakBranch_phi (route : CombinedRoute) (total : ℚ)
    (st : DriveState) (hL : LoopInv st)
    (hhue : ¬ calculate_hours_until_end_of_driving_day st.currentTimestamp ≤ 0)
    (hb1 : 8 ≤ st.hoursSinceBreak + drivableHours st)
    (hb2 : 0 < 8 - st.hoursSinceBreak) :
    phi (midBreakBranch route total st) ≤ phi st - 1 ∧
    7 ≤ hmOf (midBreakBranch route total st).currentTimestamp ∧
    hmOf (midBreakBranch route total st).currentTimestamp ≤ 93/5 ∧
    (midBreakBranch route total st).milesToNextFuel ≤ FUEL_STOP_INTERVAL := by
  obtain ⟨hL1, hL2, hL3⟩ := hL
  have hL3n : st.milesToNextFuel ≤ 500 := hL3
  have hm175 : hmOf st.currentTimestamp < 35/2 := by
    by_contra hcon
    push_neg at hcon
    exact hhue (le_of_eq (hue_eq0 _ hcon))
  have hdr : drivableHours st ≤ 35/2 - hmOf st.currentTimestamp := by
    have h1 : drivableHours st ≤
        calculate_hours_until_end_of_driving_day st.currentTimestamp := by
      unfold drivableHours
      exact le_trans (min_le_right _ _) (min_le_left _ _)
    rw [hue_eq _ hm175] at h1
    exact h1
  have hub_le : 8 - st.hoursSinceBreak ≤ 35/2 - hmOf st.currentTimestamp := by
    linarith
  have hmb : calculate_time_restricted_arrival st.currentTimestamp
      (8 - st.hoursSinceBreak) =
      st.currentTimestamp + (8 - st.hoursSinceBreak) :=
    ctra_short _ _ hb2 hL1 hm175 hub_le
  have hwrap1 : hourOfDay st.currentTimestamp + (8 - st.hoursSinceBreak) <
      24 := by
    have := hourOfDay_lt_hm st.currentTimestamp
    linarith
  have harr_ge := hm_add_ge st.currentTimestamp (8 - st.hoursSinceBreak)
    (le_of_lt hb2) hwrap1
  have harr_le := hm_add_le st.currentTimestamp (8 - st.hoursSinceBreak)
    (le_of_lt hb2) hwrap1
  have hbt7 : 7 ≤ hmOf (align_break_time
      (st.currentTimestamp + (8 - st.hoursSinceBreak))) :=
    hm_align_ge _ (le_trans hL1 harr_ge)
  have hbt_le2 := hm_align_le
    (st.currentTimestamp + (8 - st.hoursSinceBreak))
  have halle := hm_align_le_max
    (st.currentTimestamp + (8 - st.hoursSinceBreak))
  have hbt_ub : hmOf (align_break_time
      (st.currentTimestamp + (8 - st.hoursSinceBreak))) ≤ 1051/60 := by
    rcases max_cases (hmOf (st.currentTimestamp + (8 - st.hoursSinceBreak)))
      (14:ℚ) with ⟨he, _⟩ | ⟨he, _⟩ <;> rw [he] at halle <;> linarith
  have hwrap3 : hourOfDay (align_break_time
      (st.currentTimestamp + (8 - st.hoursSinceBreak))) + 1/2 < 24 := by
    have := hourOfDay_lt_hm (align_break_time
      (st.currentTimestamp + (8 - st.hoursSinceBreak)))
    linarith
  have hex_ge := hm_add_ge (align_break_time
    (st.currentTimestamp + (8 - st.hoursSinceBreak))) (1/2)
    (by norm_num) hwrap3
  have hex_le := hm_add_le (align_break_time
    (st.currentTimestamp + (8 - st.hoursSinceBreak))) (1/2)
    (by norm_num) hwrap3
  have hhue2 := hue_ge (align_break_time
    (st.currentTimestamp + (8 - st.hoursSinceBreak)) + 1/2)
  have hhue0 := hue_eq st.currentTimestamp hm175
  have hmaxr := le_max_right (0:ℚ) st.hoursSinceBreak
  unfold phi midBreakBranch AVG_SPEED_MPH
  dsimp only
  rw [hmb]
  unfold BREAK_DURATION
  rw [hhue0]
  have hmx : max (0:ℚ) 0 = 0 := by norm_num
  rw [hmx]
  refine ⟨by linarith, by linarith, by linarith, ?_⟩
  show st.milesToNextFuel - (8 - st.hoursSinceBreak) * 60 ≤ FUEL_STOP_INTERVAL
  unfold FUEL_STOP_INTERVAL
  linarith

theorem hm_floor_ge (t c : ℚ) (h1 : 0 ≤ c) (h2 : hourOfDay t + c < 24)
    (h3 : 35/2 ≤ hmOf t + c) : 35/2 ≤ hmOf (t + c) := by
  have hle := hmOf_le t
  have hx : (1050 : ℚ) ≤ (hourOfDay t + c) * 60 := by linarith
  have hfl : (1050 : ℤ) ≤ Int.floor ((hourOfDay t + c) * 60) := by
    rw [Int.le_floor]
    exact_mod_cast hx
  have hq : ((1050 : ℤ) : ℚ) ≤ ((Int.floor ((hourOfDay t + c) * 60)) : ℚ) := by
    exact_mod_cast hfl
  unfold hmOf
  rw [hourOfDay_add_small t c h1 h2, le_div_iff (by norm_num : (0:ℚ) < 60)]
  push_cast at hq
  linarith

theorem hm_sleeper5 (t : ℚ) : hmOf (replaceHMS t 19 0 + 10) = 5 := by
  have ht1 : replaceHMS t 19 0 + 10 =
      24 * ((dayOf t : ℚ) + 1) + ((300 : ℤ) : ℚ) / 60 + subsec t := by
    rw [replaceHMS_decomp]
    push_cast
    ring
  rw [ht1]
  have hsh := (hm_shift_subsec (dayOf t + 1) 300 t (by norm_num)
    (by norm_num)).2
  push_cast at hsh ⊢
  rw [hsh]
  norm_num

theorem driveBranch_phi (route : CombinedRoute) (total : ℚ) (st : DriveState)
    (hL : LoopInv st)
    (hhue : ¬ calculate_hours_until_end_of_driving_day st.currentTimestamp ≤ 0)
    (hhsb : ¬ 8 ≤ st.hoursSinceBreak)
    (hdpos : ¬ drivableHours st ≤ 0)
    (hnb : ¬ (8 ≤ st.hoursSinceBreak + drivableHours st ∧
      0 < 8 - st.hoursSinceBreak)) :
    (phi (driveBranch route total st) ≤ phi st - 1 ∨
      (driveBranch route total st).remainingDrive = 0) ∧
    7 ≤ hmOf (driveBranch route total st).currentTimestamp ∧
    hmOf (driveBranch route total st).currentTimestamp ≤ 93/5 ∧
    (driveBranch route total st).milesToNextFuel ≤ FUEL_STOP_INTERVAL := by
  obtain ⟨hL1, hL2, hL3⟩ := hL
  have hL3n : st.milesToNextFuel ≤ 500 := hL3
  push_neg at hdpos
  have hm175 : hmOf st.currentTimestamp < 35/2 := by
    by_contra hcon
    push_neg at hcon
    exact hhue (le_of_eq (hue_eq0 _ hcon))
  have hdr : drivableHours st ≤ 35/2 - hmOf st.currentTimestamp := by
    have h1 : drivableHours st ≤
        calculate_hours_until_end_of_driving_day st.currentTimestamp := by
      unfold drivableHours
      exact le_trans (min_le_right _ _) (min_le_left _ _)
    rw [hue_eq _ hm175] at h1
    exact h1
  have hd_lt8 : st.hoursSinceBreak + drivableHours st < 8 := by
    rcases not_and_or.mp hnb with h | h
    · exact lt_of_not_le h
    · exact absurd (by linarith [not_lt.mp h]) hhsb
  have harr : calculate_time_restricted_arrival st.currentTimestamp
      (drivableHours st) = st.currentTimestamp + drivableHours st :=
    ctra_short _ _ hdpos hL1 hm175 hdr
  have hwrap1 : hourOfDay st.currentTimestamp + drivableHours st < 24 := by
    have := hourOfDay_lt_hm st.currentTimestamp
    linarith
  have harr_ge := hm_add_ge st.currentTimestamp (drivableHours st)
    (le_of_lt hdpos) hwrap1
  have harr_le := hm_add_le st.currentTimestamp (drivableHours st)
    (le_of_lt hdpos) hwrap1
  have hhue0 := hue_eq st.currentTimestamp hm175
  unfold phi driveBranch AVG_SPEED_MPH FUEL_STOP_INTERVAL
  dsimp only
  split_ifs with ht hc
  · -- end-of-day tail with the early-morning sleeper extension
    dsimp only at ht ⊢
    rw [harr] at ht ⊢
    obtain ⟨ht1, ht2⟩ := ht
    have hm35 : 35/2 ≤ hmOf (st.currentTimestamp + drivableHours st) := by
      by_contra hcon
      push_neg at hcon
      rw [hue_eq _ hcon] at ht1
      linarith
    have h65 : hmOf (replaceHMS (replaceHMS (replaceHMS
        (st.currentTimestamp + drivableHours st) 17 30) 19 0 + 10) 6 30) =
        13/2 := by
      rw [hmOf_replaceHMS _ 6 30 (by norm_num) (by norm_num)]
      norm_num
    have hexit_le : hmOf (next_driving_start_time (replaceHMS (replaceHMS
        (replaceHMS (st.currentTimestamp + drivableHours st) 17 30) 19 0 + 10)
        6 30)) ≤ 7 := by
      have := hm_ndst_le (replaceHMS (replaceHMS (replaceHMS
        (st.currentTimestamp + drivableHours st) 17 30) 19 0 + 10) 6 30)
        (by rw [h65]; norm_num)
      rw [h65] at this
      exact le_trans this (by norm_num)
    have hexit7 := (hm_ndst (replaceHMS (replaceHMS (replaceHMS
      (st.currentTimestamp + drivableHours st) 17 30) 19 0 + 10) 6 30)).1
    unfold DRIVING_START_HOUR at hexit7
    have hhue2 := hue_ge (next_driving_start_time (replaceHMS (replaceHMS
      (replaceHMS (st.currentTimestamp + drivableHours st) 17 30) 19 0 + 10)
      6 30))
    rw [hhue0]
    have hmx : max (0:ℚ) 0 = 0 := by norm_num
    rw [hmx]
    have hmax0 := le_max_left (0:ℚ) st.hoursSinceBreak
    exact ⟨Or.inl (by linarith), hexit7, by linarith, by linarith⟩
  · -- the 10-hour rest ends at 05:00, so the sleeper extension always fires
    exfalso
    rw [harr] at hc
    rw [hm_sleeper5 (replaceHMS (st.currentTimestamp + drivableHours st)
      17 30)] at hc
    unfold SLEEPER_END_HOUR at hc
    norm_num at hc
  · -- no end-of-day tail: the drive exhausted the remaining hours
    dsimp only at ht ⊢
    rw [harr] at ht ⊢
    push_neg at ht
    have hlb_ge : 8 - st.hoursSinceBreak ≤ max 0 (8 - st.hoursSinceBreak) :=
      le_max_right _ _
    have hd_lt_hlb : drivableHours st < max 0 (8 - st.hoursSinceBreak) := by
      linarith
    have hd_eq : drivableHours st = st.remainingDrive := by
      rcases le_or_lt st.remainingDrive
        (min (calculate_hours_until_end_of_driving_day st.currentTimestamp)
          (max 0 (8 - st.hoursSinceBreak))) with hc1 | hc1
      · unfold drivableHours
        exact min_eq_left hc1
      · exfalso
        have hd_eq2 : drivableHours st =
            min (calculate_hours_until_end_of_driving_day st.currentTimestamp)
              (max 0 (8 - st.hoursSinceBreak)) := by
          unfold drivableHours
          exact min_eq_right (le_of_lt hc1)
        rcases le_or_lt (max 0 (8 - st.hoursSinceBreak))
            (calculate_hours_until_end_of_driving_day st.currentTimestamp) with
          hc2 | hc2
        · rw [hd_eq2, min_eq_right hc2] at hd_lt_hlb
          exact lt_irrefl _ hd_lt_hlb
        · have hd_val : drivableHours st = 35/2 - hmOf st.currentTimestamp := by
            rw [hd_eq2, min_eq_left (le_of_lt hc2), hue_eq _ hm175]
          have h35 : 35/2 ≤ hmOf (st.currentTimestamp + drivableHours st) := by
            apply hm_floor_ge st.currentTimestamp (drivableHours st)
              (le_of_lt hdpos) hwrap1
            rw [hd_val]
            linarith
          have hrd := ht (le_of_eq (hue_eq0 _ h35))
          rw [← hd_eq2] at hc1
          linarith
    refine ⟨Or.inr ?_, by linarith, by linarith, by linarith⟩
    rw [hd_eq]
    exact sub_self _

theorem driveStep_phi (route : CombinedRoute) (total : ℚ) (st : DriveState)
    (hL : LoopInv st) (hrem : 0 < st.remainingDrive) :
    (phi (driveStep route total st) ≤ phi st - 1 ∨
      (driveStep route total st).remainingDrive = 0) ∧
    7 ≤ hmOf (driveStep route total st).currentTimestamp ∧
    hmOf (driveStep route total st).currentTimestamp ≤ 93/5 ∧
    (driveStep route total st).milesToNextFuel ≤ FUEL_STOP_INTERVAL := by
  unfold driveStep
  split_ifs with hc1 hc2 hc3 hc4 hc5
  · obtain ⟨h1, h2, h3, h4⟩ := overnightBranch_phi route total st hL hc1
    exact ⟨Or.inl h1, h2, h3, h4⟩
  · obtain ⟨h1, h2, h3, h4⟩ :=
      breakBranch_phi route total st "30-Minute Break" hL hc1 hc2
    exact ⟨Or.inl h1, h2, h3, h4⟩
  · exfalso
    have hhuepos : 0 < calculate_hours_until_end_of_driving_day
        st.currentTimestamp := lt_of_not_le hc1
    have hlbpos : 0 < max 0 (8 - st.hoursSinceBreak) :=
      lt_of_lt_of_le (by linarith [lt_of_not_le hc2]) (le_max_right _ _)
    have hdpos : 0 < drivableHours st := by
      unfold drivableHours
      exact lt_min hrem (lt_min hhuepos hlbpos)
    linarith
  · obtain ⟨h1, h2, h3, h4⟩ :=
      fuelBranch_phi route total st hL hc1 hc4.1 hc4.2
    exact ⟨Or.inl h1, h2, h3, h4⟩
  · obtain ⟨h1, h2, h3, h4⟩ :=
      midBreakBranch_phi route total st hL hc1 hc5.1 hc5.2
    exact ⟨Or.inl h1, h2, h3, h4⟩
  · exact driveBranch_phi route total st hL hc1 hc2 hc3 hc5

theorem driveLoop_terminates (route : CombinedRoute) (total : ℚ) :
    ∀ (N : ℕ) (st : DriveState), LoopInv st → 0 < st.remainingDrive →
      phi st ≤ (N : ℚ) →
      ∃ (n : ℕ) (st' : DriveState),
        driveLoop route total n st = some st' ∧
        7 ≤ hmOf st'.currentTimestamp ∧ hmOf st'.currentTimestamp ≤ 93/5 := by
  intro N
  induction N with
  | zero =>
    intro st hL hrem hphi
    exfalso
    obtain ⟨hL1, hL2, hL3⟩ := hL
    have h1 : 0 ≤ (FUEL_STOP_INTERVAL - st.milesToNextFuel) / 5 := by
      apply div_nonneg _ (by norm_num)
      linarith
    have h2 := hue_le st.currentTimestamp hL1
    have h3 := le_max_left (0:ℚ) st.hoursSinceBreak
    unfold phi at hphi
    push_cast at hphi
    linarith
  | succ N ih =>
    intro st hL hrem hphi
    have hstep_eq : ∀ m : ℕ, driveLoop route total (m + 1) st =
        driveLoop route total m (driveStep route total st) := by
      intro m
      rw [driveLoop]
      rw [if_pos hrem]
    obtain ⟨hstep1, hstep2, hstep3, hstep4⟩ :=
      driveStep_phi route total st hL hrem
    by_cases hr2 : 0 < (driveStep route total st).remainingDrive
    · have hphi2 : phi (driveStep route total st) ≤ (N : ℚ) := by
        rcases hstep1 with h | h
        · push_cast at hphi ⊢
          linarith
        · exact absurd h (ne_of_gt hr2)
      have hL2' : LoopInv (driveStep route total st) :=
        ⟨hstep2, by linarith, hstep4⟩
      obtain ⟨n, st', hdl, hb1, hb2⟩ :=
        ih (driveStep route total st) hL2' hr2 hphi2
      refine ⟨n + 1, st', ?_, hb1, hb2⟩
      rw [hstep_eq n]
      exact hdl
    · refine ⟨0 + 1, driveStep route total st, ?_, hstep2, hstep3⟩
      rw [hstep_eq 0]
      unfold driveLoop
      rw [if_neg hr2]

theorem driveLoop_exists (route : CombinedRoute) (total : ℚ) (st : DriveState)
    (hL : LoopInv st) (hrem : 0 < st.remainingDrive) :
    ∃ (n : ℕ) (d : DriveState), driveLoop route total n st = some d ∧
      7 ≤ hmOf d.currentTimestamp ∧ hmOf d.currentTimestamp ≤ 93/5 :=
  driveLoop_terminates route total (Int.ceil (phi st)).toNat st hL hrem (by
    calc phi st ≤ ((Int.ceil (phi st) : ℤ) : ℚ) := Int.le_ceil _
      _ ≤ _ := by exact_mod_cast Int.self_le_toNat _)

theorem legStep_mono (geo : List ℚ → String) (route : CombinedRoute)
    (total : ℚ) (nloc gas k : ℕ) (g g' : GenState) (p : ℕ × LatLng)
    (h : legStep geo route total nloc gas g p = some g') :
    legStep geo route total nloc (gas + k) g p = some g' := by
  unfold legStep at h ⊢
  dsimp only at h ⊢
  cases hdl : driveLoop route total gas (⟨g.stops, g.currentTimestamp,
      g.currentPosition, FUEL_STOP_INTERVAL - g.milesSinceLastFuel,
      g.hoursSinceBreak,
      (total * ((p.1 : ℚ) / ((nloc : ℚ) - 1)) - g.currentPosition) /
        AVG_SPEED_MPH, g.daysOnRoad⟩ : DriveState) with
  | none =>
    rw [hdl] at h
    exact Option.noConfusion h
  | some d =>
    rw [hdl] at h
    rw [driveLoop_mono route total gas k _ d hdl]
    exact h

theorem processLegs_mono (geo : List ℚ → String) (route : CombinedRoute)
    (total : ℚ) (nloc : ℕ) :
    ∀ (ps : List (ℕ × LatLng)) (gas k : ℕ) (g g' : GenState),
      processLegs geo route total nloc gas ps g = some g' →
      processLegs geo route total nloc (gas + k) ps g = some g' := by
  intro ps
  induction ps with
  | nil =>
    intro gas k g g' h
    exact h
  | cons p rest ih =>
    intro gas k g g' h
    unfold processLegs at h ⊢
    cases hls : legStep geo route total nloc gas g p with
    | none =>
      rw [hls] at h
      exact Option.noConfusion h
    | some g2 =>
      rw [hls] at h
      rw [legStep_mono geo route total nloc gas k g g2 p hls]
      exact ih gas k g2 g' h

theorem processLegs_total_zero (geo : List ℚ → String) (route : CombinedRoute)
    (nloc : ℕ) :
    ∀ (ps : List (ℕ × LatLng)) (g : GenState), g.currentPosition = 0 →
      ∃ g', processLegs geo route 0 nloc 0 ps g = some g' := by
  intro ps
  induction ps with
  | nil =>
    intro g _
    exact ⟨g, rfl⟩
  | cons p rest ih =>
    intro g hg
    have hrem : ¬ 0 < ((0 : ℚ) * ((p.1 : ℚ) / ((nloc : ℚ) - 1)) -
        g.currentPosition) / AVG_SPEED_MPH := by
      rw [hg]
      norm_num
    have hdl : driveLoop route 0 0 (⟨g.stops, g.currentTimestamp,
        g.currentPosition, FUEL_STOP_INTERVAL - g.milesSinceLastFuel,
        g.hoursSinceBreak,
        ((0 : ℚ) * ((p.1 : ℚ) / ((nloc : ℚ) - 1)) - g.currentPosition) /
          AVG_SPEED_MPH, g.daysOnRoad⟩ : DriveState) =
        some (⟨g.stops, g.currentTimestamp,
        g.currentPosition, FUEL_STOP_INTERVAL - g.milesSinceLastFuel,
        g.hoursSinceBreak,
        ((0 : ℚ) * ((p.1 : ℚ) / ((nloc : ℚ) - 1)) - g.currentPosition) /
          AVG_SPEED_MPH, g.daysOnRoad⟩ : DriveState) := by
      rw [driveLoop]
      rw [if_neg hrem]
    unfold processLegs legStep
    dsimp only
    rw [hdl]
    dsimp only
    exact ih _ (by rw [zero_mul])

theorem preludeState_hm (locations : List LatLng)
    (start_time current_cycle_used : ℚ) :
    7 ≤ hmOf (preludeState locations start_time
      current_cycle_used).currentTimestamp ∧
    hmOf (preludeState locations start_time
      current_cycle_used).currentTimestamp < 39/2 := by
  have h : ∃ x, (preludeState locations start_time
      current_cycle_used).currentTimestamp = next_driving_start_time x := by
    unfold preludeState
    dsimp only
    split_ifs <;> exact ⟨_, rfl⟩
  obtain ⟨x, hx⟩ := h
  rw [hx]
  have hb := hm_ndst x
  unfold DRIVING_START_HOUR DRIVING_END_HOUR at hb
  exact ⟨hb.1, by linarith [hb.2]⟩

theorem processLegs_exists (geo : List ℚ → String) (route : CombinedRoute)
    (total : ℚ) (nloc : ℕ) (htot : 0 < total) (hn : 2 ≤ nloc) :
    ∀ (ps : List (ℕ × LatLng)) (j : ℕ) (g : GenState),
      ps.map Prod.fst = List.range' j ps.length →
      1 ≤ j →
      GInv g →
      g.currentPosition = total * (((j : ℚ) - 1) / ((nloc : ℚ) - 1)) →
      7 ≤ hmOf g.currentTimestamp → hmOf g.currentTimestamp < 39/2 →
      ∃ (gas : ℕ) (g' : GenState),
        processLegs geo route total nloc gas ps g = some g' := by
  intro ps
  induction ps with
  | nil =>
    intro j g _ _ _ _ _ _
    exact ⟨0, g, rfl⟩
  | cons p rest ih =>
    intro j g hmap hj hG hcp hm1 hm2
    simp only [List.map_cons, List.length_cons, List.range'_succ] at hmap
    injection hmap with hfst hrest
    have hden : (0:ℚ) < (nloc : ℚ) - 1 := by
      have h2 : (2:ℚ) ≤ (nloc : ℚ) := by exact_mod_cast hn
      linarith
    have hdist : g.currentPosition < total * ((p.1 : ℚ) / ((nloc : ℚ) - 1)) := by
      rw [hcp, hfst]
      apply mul_lt_mul_of_pos_left ?_ htot
      rw [div_lt_div_iff_of_pos_right hden]
      linarith
    obtain ⟨hg1, hg2, hg3, hg4, hg5, hg6⟩ := hG
    have hmsf : 0 ≤ g.milesSinceLastFuel := by
      rw [hg4]
      linarith
    have hLd0 : LoopInv (⟨g.stops, g.currentTimestamp,
        g.currentPosition, FUEL_STOP_INTERVAL - g.milesSinceLastFuel,
        g.hoursSinceBreak,
        (total * ((p.1 : ℚ) / ((nloc : ℚ) - 1)) - g.currentPosition) /
          AVG_SPEED_MPH, g.daysOnRoad⟩ : DriveState) := by
      refine ⟨hm1, hm2, ?_⟩
      dsimp only
      linarith
    have hremd0 : 0 < (⟨g.stops, g.currentTimestamp,
        g.currentPosition, FUEL_STOP_INTERVAL - g.milesSinceLastFuel,
        g.hoursSinceBreak,
        (total * ((p.1 : ℚ) / ((nloc : ℚ) - 1)) - g.currentPosition) /
          AVG_SPEED_MPH, g.daysOnRoad⟩ : DriveState).remainingDrive := by
      dsimp only
      apply div_pos (by linarith) (by unfold AVG_SPEED_MPH; norm_num)
    obtain ⟨n, d, hdl, hb1, hb2⟩ := driveLoop_exists route total _ hLd0 hremd0
    have hls : ∃ g2, legStep geo route total nloc n g p = some g2 := by
      unfold legStep
      dsimp only
      rw [hdl]
      exact ⟨_, rfl⟩
    obtain ⟨g2, hls⟩ := hls
    have hg2t : g2.currentTimestamp = d.currentTimestamp +
        (if p.1 = 1 then PICKUP_DURATION
          else if p.1 = nloc - 1 then DROPOFF_DURATION
          else WAYPOINT_DURATION) := by
      unfold legStep at hls
      dsimp only at hls
      rw [hdl] at hls
      injection hls with h
      rw [← h]
    have hdur : (if p.1 = 1 then PICKUP_DURATION
        else if p.1 = nloc - 1 then DROPOFF_DURATION
        else WAYPOINT_DURATION) = 1/2 := by
      split_ifs <;> rfl
    have hwrap : hourOfDay d.currentTimestamp + 1/2 < 24 := by
      have := hourOfDay_lt_hm d.currentTimestamp
      linarith
    have hm1' : 7 ≤ hmOf g2.currentTimestamp := by
      rw [hg2t, hdur]
      have := hm_add_ge d.currentTimestamp (1/2) (by norm_num) hwrap
      linarith
    have hm2' : hmOf g2.currentTimestamp < 39/2 := by
      rw [hg2t, hdur]
      have := hm_add_le d.currentTimestamp (1/2) (by norm_num) hwrap
      linarith
    have hcple : g.currentPosition ≤ total * ((p.1 : ℚ) / ((nloc : ℚ) - 1)) :=
      le_of_lt hdist
    obtain ⟨hG2, hcp2⟩ := legStep_inv geo route total nloc n g g2 p
      ⟨hg1, hg2, hg3, hg4, hg5, hg6⟩ hcple hls
    obtain ⟨gas2, g3, hpl2⟩ := ih (j + 1) g2 hrest (by omega) hG2
      (by rw [hcp2, hfst]; push_cast; ring_nf) hm1' hm2'
    refine ⟨n + gas2, g3, ?_⟩
    unfold processLegs
    rw [legStep_mono geo route total nloc n gas2 g g2 p hls]
    have h2 := processLegs_mono geo route total nloc rest gas2 n g2 g3 hpl2
    rw [Nat.add_comm gas2 n] at h2
    exact h2

/-- C6: the planner's stop-generation loop terminates on every route with a
nonnegative distance and at least two locations: there is a fuel bound under
which `generate_stops` returns a stop list (the fueled embedding renders the
Python `while` loop's termination as the existence of a sufficient fuel).
The proof runs a potential function over the loop state that every branch of
the loop body decreases by at least one, except a drive cut short only by the
remaining hours, which zeroes `remaining_drive` and ends the loop. -/
theorem planner_terminates (geo : List ℚ → String) (route : CombinedRoute)
    (locations : List LatLng) (start_time current_cycle_used : ℚ)
    (hdist : 0 ≤ route.distance) (hloc : 2 ≤ locations.length) :
    ∃ (gas : ℕ) (stops : List Stop),
      generate_stops geo route locations start_time current_cycle_used gas =
        some stops := by
  obtain ⟨hGpre, hcp0⟩ :=
    preludeState_props locations start_time current_cycle_used
  obtain ⟨hm1, hm2⟩ :=
    preludeState_hm locations start_time current_cycle_used
  have hmap := enum_drop_map_fst locations
  rcases eq_or_lt_of_le hdist with h0 | h0
  · obtain ⟨g', hpl⟩ := processLegs_total_zero geo route locations.length
      (locations.enum.drop 1)
      (preludeState locations start_time current_cycle_used) hcp0
    rw [h0] at hpl
    refine ⟨0, List.insertionSort
      (fun a b => a.estimatedArrival ≤ b.estimatedArrival) g'.stops, ?_⟩
    unfold generate_stops
    rw [hpl]
  · obtain ⟨gas, g', hpl⟩ := processLegs_exists geo route route.distance
      locations.length h0 hloc (locations.enum.drop 1) 1
      (preludeState locations start_time current_cycle_used) hmap
      (le_refl 1) hGpre (by rw [hcp0]; norm_num) hm1 hm2
    refine ⟨gas, List.insertionSort
      (fun a b => a.estimatedArrival ≤ b.estimatedArrival) g'.stops, ?_⟩
    unfold generate_stops
    rw [hpl]

/-- Witness for `planner_terminates`: the 540-mile two-location route. -/
theorem planner_terminates_witness :
    (0 ≤ routeW.distance ∧ 2 ≤ locsW.length) ∧
    ∃ (gas : ℕ) (stops : List Stop),
      generate_stops geoConst routeW locsW 7 0 gas = some stops :=
  ⟨⟨by unfold routeW; norm_num, by unfold locsW; norm_num⟩,
    planner_terminates geoConst routeW locsW 7 0
      (by unfold routeW; norm_num) (by unfold locsW; norm_num)⟩

theorem ctraAux_seven : ∀ (k m : ℕ) (t dh : ℚ), hmOf t = 7 →
    dh ≤ 21/2 * (k : ℚ) + 21/2 →
    ctraAux (k + 1 + m) t dh = ctraAux (k + 1) t dh := by
  intro k
  induction k with
  | zero =>
    intro m t dh h7 hdh
    push_cast at hdh
    have hns : next_driving_start_time t = t :=
      ndst_id t (le_of_eq h7.symm) (by rw [h7]; norm_num)
    have hhuet : calculate_hours_until_end_of_driving_day t = 21/2 := by
      rw [hue_eq t (by rw [h7]; norm_num), h7]
      norm_num
    have hidx : 0 + 1 + m = m + 1 := by omega
    rw [hidx]
    rw [ctraAux, ctraAux]
    dsimp only
    rw [hns, hhuet]
    split_ifs with h1 h2
    · rfl
    · rfl
    · exfalso
      push_neg at h2
      linarith
  | succ k ih =>
    intro m t dh h7 hdh
    push_cast at hdh
    have hns : next_driving_start_time t = t :=
      ndst_id t (le_of_eq h7.symm) (by rw [h7]; norm_num)
    have hhuet : calculate_hours_until_end_of_driving_day t = 21/2 := by
      rw [hue_eq t (by rw [h7]; norm_num), h7]
      norm_num
    have hidx : k + 1 + 1 + m = (k + 1 + m) + 1 := by omega
    rw [hidx]
    rw [ctraAux, ctraAux]
    dsimp only
    rw [hns, hhuet]
    split_ifs with h1 h2
    · rfl
    · rfl
    · have h7' : hmOf (replaceHMS (replaceHMS t 17 30 + 24) 7 0) = 7 := by
        rw [hmOf_replaceHMS _ 7 0 (by norm_num) (by norm_num)]
        norm_num
      exact ih m _ _ h7' (by push_cast; linarith)

/-- The fuel `ctraFuel dh` suffices for the recursion of
`calculate_time_restricted_arrival`: giving the recursion any more fuel does
not change its result, so the fueled embedding computes the fixpoint the
Python recursion computes. -/
theorem ctraAux_stable (start dh : ℚ) (m : ℕ) :
    ctraAux (ctraFuel dh + m) start dh = ctraAux (ctraFuel dh) start dh := by
  unfold ctraFuel
  have hidx : (Int.ceil dh).toNat + 2 + m = ((Int.ceil dh).toNat + 1 + m) + 1 := by
    omega
  have hidx2 : (Int.ceil dh).toNat + 2 = ((Int.ceil dh).toNat + 1) + 1 := by
    omega
  rw [hidx, hidx2]
  rw [ctraAux, ctraAux]
  dsimp only
  split_ifs with h1 h2
  · rfl
  · rfl
  · have h7' : hmOf (replaceHMS (replaceHMS (next_driving_start_time start)
        17 30 + 24) 7 0) = 7 := by
      rw [hmOf_replaceHMS _ 7 0 (by norm_num) (by norm_num)]
      norm_num
    apply ctraAux_seven ((Int.ceil dh).toNat) m _ _ h7'
    push_neg at h1 h2
    have hcur := hm_ndst start
    unfold DRIVING_START_HOUR DRIVING_END_HOUR at hcur
    have hhue2 := hue_eq (next_driving_start_time start) hcur.2
    have hc1 : (0:ℤ) < Int.ceil dh := Int.lt_ceil.mpr (by push_cast; exact h1)
    have htn : ((Int.ceil dh).toNat : ℤ) = Int.ceil dh :=
      Int.toNat_of_nonneg (le_of_lt hc1)
    have hK : dh ≤ (((Int.ceil dh).toNat : ℕ) : ℚ) := by
      calc dh ≤ ((Int.ceil dh : ℤ) : ℚ) := Int.le_ceil dh
        _ = _ := by exact_mod_cast htn.symm
    have hK0 : (0:ℚ) ≤ (((Int.ceil dh).toNat : ℕ) : ℚ) := Nat.cast_nonneg _
    rw [hhue2]
    linarith [hcur.1, hcur.2]

end Eld
